import Mathlib

/-! Pedometer watch firmware (`main.c`): shallow embedding and verified properties.

The firmware keeps all of its state in file-scope variables.  They are gathered
in the record `Globals`; every C function becomes a function on `Globals`.
Hardware reads (the millisecond counter `msCounter`, the two button lines, the
accelerometer axes) are inputs of the functions that perform them, one argument
per read, in program order.

Machine integers are natural numbers (integers for signed types) with the
wrap-around written out: `uint8_t` stores go through `u8`, `uint32_t`
arithmetic through `u32` and `u32sub`, conversions to `int` through `wrapInt`.
-/

namespace Pedometer

/-! ## Machine arithmetic -/

/-- Store into a `uint8_t`. -/
def u8 (n : Nat) : Nat := n % 256

/-- Result of `a - b` stored into a `uint8_t` (both operands `uint8_t`). -/
def u8sub (a b : Nat) : Nat := (a + 256 - b % 256) % 256

/-- Value of a `uint32_t` expression. -/
def u32 (n : Nat) : Nat := n % 4294967296

/-- Unsigned 32-bit subtraction `a - b`, as in `getMillis() - start`. -/
def u32sub (a b : Nat) : Nat := (a + 4294967296 - b % 4294967296) % 4294967296

/-- Conversion of an integer value to a signed two's-complement integer of
`w` bits (`w` is the width of the C type `int` of the target). -/
def wrapInt (w : Nat) (z : Int) : Int :=
  (z + 2 ^ (w - 1)) % 2 ^ w - 2 ^ (w - 1)

/-- Conversion of a (signed) integer value to `uint32_t`. -/
def toU32 (z : Int) : Nat := (z % 4294967296).toNat

/-! ## Constants -/

def STEP_THRESHOLD : Int := 500
def SCREEN_UPDATE_INTERVAL : Nat := 1000
def STEP_ARRAY_SIZE : Nat := 5
def GRAPH_SAMPLES : Nat := 90

/-! ## Global variables -/

/-- Top-level state of the watch (`WatchState`). -/
inductive WatchState where
  | STATE_TIME_DISPLAY
  | STATE_MENU
  deriving DecidableEq, Repr

/-- Contents of the three-byte buffer `ampmStr`: the program only ever stores
`"AM"`, `"PM"` or the empty string (24-hour mode) into it. -/
inductive AmPm where
  | blank
  | AM
  | PM
  deriving DecidableEq, Repr

/-! Values of the enumeration `MenuOption`. -/

def MENU_PEDOMETER : Nat := 0
def MENU_FORMAT_12H_24H : Nat := 1
def MENU_SET_TIME : Nat := 2
def MENU_SET_DATE : Nat := 3
def MENU_EXIT : Nat := 4
def MENU_COUNT : Nat := 5

/-- The file-scope variables of `main.c` (display caches left out), the two
indicator outputs `LATA8`/`LATA9`, and one instrumentation counter,
`enterMenuCalls`, which counts the calls of `enterMenu`. -/
structure Globals where
  s1Pressed : Bool
  lastPressTimeS1 : Nat
  lastMovementTime : Nat
  lastStepTime : Nat
  seconds : Nat
  minutes : Nat
  hours : Nat
  day : Nat
  month : Nat
  ampmStr : AmPm
  currentState : WatchState
  selectedMenu : Nat
  footToggle : Bool
  movementDetected : Bool
  currentPace : Nat
  decayTimer : Nat
  lastX : Int
  lastY : Int
  lastZ : Int
  stepCount : Nat
  stepArray : List Nat
  stepIndex : Nat
  totalSteps : Nat
  prevPaceDisplay : Nat
  stepsHistory : List Int
  smoothedSteps : List Int
  stepsHistoryIndex : Nat
  lata8 : Bool
  lata9 : Bool
  enterMenuCalls : Nat
  deriving DecidableEq, Repr

/-- The initialisers of the globals: the state at power-on. -/
def powerOn : Globals where
  s1Pressed := false
  lastPressTimeS1 := 0
  lastMovementTime := 0
  lastStepTime := 0
  seconds := 0
  minutes := 0
  hours := 12
  day := 1
  month := 1
  ampmStr := AmPm.PM
  currentState := WatchState.STATE_TIME_DISPLAY
  selectedMenu := MENU_PEDOMETER
  footToggle := false
  movementDetected := false
  currentPace := 0
  decayTimer := 0
  lastX := 0
  lastY := 0
  lastZ := 0
  stepCount := 0
  stepArray := List.replicate 5 0
  stepIndex := 0
  totalSteps := 0
  prevPaceDisplay := 0
  stepsHistory := List.replicate 90 0
  smoothedSteps := List.replicate 90 0
  stepsHistoryIndex := 0
  lata8 := false
  lata9 := false
  enterMenuCalls := 0

/-! ## Clock and calendar -/

/-- The table `DaysInMonth` local to `getDaysInMonth`. -/
def DaysInMonth : List Nat := [31, 28, 31, 30, 31, 30, 31, 31, 30, 31, 30, 31]

/-- Function `getDaysInMonth`: `DaysInMonth[m - 1]`.  An index outside the table
is an out-of-bounds read in C; the model returns `none` there. -/
def getDaysInMonth (m : Nat) : Option Nat :=
  if m = 0 then none else DaysInMonth[m - 1]?

/-- Function `updateTime`: advance the clock by one second (`none` only when
`getDaysInMonth` reads outside its table). -/
def updateTime (g : Globals) : Option Globals :=
  let seconds := u8 (g.seconds + 1)
  if seconds ≥ 60 then
    let minutes := u8 (g.minutes + 1)
    if minutes ≥ 60 then
      let hours := u8 (g.hours + 1)
      if g.ampmStr ≠ AmPm.blank then
        -- 12H
        let ampm := if hours = 12 then
            (if g.ampmStr = AmPm.AM then AmPm.PM else AmPm.AM)
          else g.ampmStr
        let hours1 := if hours > 12 then u8sub hours 12 else hours
        let hours2 := if hours1 = 0 then 12 else hours1
        some { g with seconds := 0, minutes := 0, hours := hours2, ampmStr := ampm }
      else
        -- 24H
        if hours ≥ 24 then
          let day := u8 (g.day + 1)
          match getDaysInMonth g.month with
          | none => none
          | some maxDays =>
            if day > maxDays then
              let month := u8 (g.month + 1)
              some { g with seconds := 0, minutes := 0, hours := 0, day := 1,
                            month := if month > 12 then 1 else month }
            else
              some { g with seconds := 0, minutes := 0, hours := 0, day := day }
        else
          some { g with seconds := 0, minutes := 0, hours := hours }
    else
      some { g with seconds := 0, minutes := minutes }
  else
    some { g with seconds := seconds }

/-! ## Buttons and menu entry -/

/-- Function `enterMenu` (the screen clear is not modelled; the call is
counted). -/
def enterMenu (g : Globals) : Globals :=
  { g with currentState := WatchState.STATE_MENU, selectedMenu := MENU_PEDOMETER,
           enterMenuCalls := g.enterMenuCalls + 1 }

/-- Function `processButtons`: `s1Down`, `s2Down` are the two button reads,
`now` the value `getMillis()` returns inside the function (it is read at most
once on every path). -/
def processButtons (g : Globals) (s1Down s2Down : Bool) (now : Nat) : Globals :=
  let g1 := { g with lata8 := s1Down, lata9 := s2Down }
  if g1.currentState = WatchState.STATE_TIME_DISPLAY then
    if s1Down then
      if !g1.s1Pressed then
        { g1 with s1Pressed := true, lastPressTimeS1 := now }
      else if u32sub now g1.lastPressTimeS1 ≥ 2000 then
        { enterMenu g1 with s1Pressed := false }
      else g1
    else
      { g1 with s1Pressed := false }
  else g1

/-! ## Time-format configuration -/

/-- Body of the "switching to 12H" branch of `setFormatConfig`. -/
def switchTo12H (g : Globals) : Globals :=
  if g.hours = 0 then { g with hours := 12, ampmStr := AmPm.AM }
  else if g.hours < 12 then { g with ampmStr := AmPm.AM }
  else if g.hours = 12 then { g with ampmStr := AmPm.PM }
  else { g with hours := u8sub g.hours 12, ampmStr := AmPm.PM }

/-- Body of the "switching to 24H" branch of `setFormatConfig`. -/
def switchTo24H (g : Globals) : Globals :=
  let hours :=
    if g.ampmStr = AmPm.PM ∧ g.hours ≠ 12 then u8 (g.hours + 12)
    else if g.ampmStr = AmPm.AM ∧ g.hours = 12 then 0
    else g.hours
  { g with hours := hours, ampmStr := AmPm.blank }

/-- The reads of one pass of the `setFormatConfig` loop: those of
`processButtons`, then the loop's own two button reads. -/
structure FormatInput where
  pbS1 : Bool
  pbS2 : Bool
  pbNow : Nat
  s1Down : Bool
  s2Down : Bool
  deriving DecidableEq, Repr

/-- Loop of `setFormatConfig`: one pass per element of the input list;
`currentFormat` is the local of that name (`true` for 12H).  The result is
`none` while the loop has not left (inputs used up). -/
def setFormatConfigLoop (g : Globals) (currentFormat : Bool) :
    List FormatInput → Option Globals
  | [] => none
  | i :: rest =>
    let g1 := processButtons g i.pbS1 i.pbS2 i.pbNow
    let currentFormat1 := if i.s2Down && !i.s1Down then !currentFormat else currentFormat
    if i.s1Down && !i.s2Down then
      some (if currentFormat1 then switchTo12H g1 else switchTo24H g1)
    else
      setFormatConfigLoop g1 currentFormat1 rest

/-- Function `setFormatConfig`. -/
def setFormatConfig (g : Globals) (inputs : List FormatInput) : Option Globals :=
  setFormatConfigLoop g (decide (g.ampmStr ≠ AmPm.blank)) inputs

/-! ## Modal loops of Set Time and Set Date -/

/-- Function `isDeviceFlipped`, applied to the Z value `readAxisValue(0x36)`
returned. -/
def isDeviceFlipped (zValue : Int) : Bool := decide (zValue < 0)

/-- The reads of one pass of a modal loop, in program order: the reads of
`processButtons`, the loop's two button reads, the `getMillis()` value read in
the both-buttons block (one read on every path), the Z value read by
`isDeviceFlipped`, and the `getMillis()` value read in the flip block. -/
structure PassInput where
  pbS1 : Bool
  pbS2 : Bool
  pbNow : Nat
  s1Down : Bool
  s2Down : Bool
  nowCombo : Nat
  zValue : Int
  nowFlip : Nat
  deriving DecidableEq, Repr

/-- Which of the two `break` statements of a modal loop was taken. -/
inductive LoopExit where
  | combo
  | flip
  deriving DecidableEq, Repr

/-- State of a modal loop with locals of type `α`: still inside the loop, left
through a `break`, or stopped at an out-of-bounds table read. -/
inductive LoopState (α : Type) where
  | running (g : Globals) (l : α)
  | exited (g : Globals) (l : α) (why : LoopExit)
  | undefined
  deriving DecidableEq, Repr

/-- Run a `while (1)` loop whose body is `pass`, one pass per input. -/
def runLoop {α : Type} (pass : Globals → α → PassInput → LoopState α) :
    Globals → α → List PassInput → LoopState α
  | g, l, [] => LoopState.running g l
  | g, l, i :: rest =>
    match pass g l i with
    | LoopState.running g1 l1 => runLoop pass g1 l1 rest
    | r => r

/-- Locals of `setTimeConfig` (the `prev...` display caches left out). -/
structure TimeLocals where
  newHour : Nat
  newMinute : Nat
  activeField : Nat
  bothPressStart : Nat
  flipStart : Nat
  deriving DecidableEq, Repr

/-- Body of the "S1 only => increment" block of `setTimeConfig`. -/
def timeIncrement (ampmStr : AmPm) (l : TimeLocals) : TimeLocals :=
  if l.activeField = 0 then
    if ampmStr ≠ AmPm.blank then
      { l with newHour := if l.newHour = 12 then 1 else u8 (l.newHour + 1) }
    else
      { l with newHour := (l.newHour + 1) % 24 }
  else
    { l with newMinute := (l.newMinute + 1) % 60 }

/-- Body of the "S2 only => decrement" block of `setTimeConfig`. -/
def timeDecrement (ampmStr : AmPm) (l : TimeLocals) : TimeLocals :=
  if l.activeField = 0 then
    if ampmStr ≠ AmPm.blank then
      { l with newHour := if l.newHour = 1 then 12 else u8sub l.newHour 1 }
    else
      { l with newHour := if l.newHour = 0 then 23 else u8sub l.newHour 1 }
  else
    { l with newMinute := if l.newMinute = 0 then 59 else u8sub l.newMinute 1 }

/-- One pass of the `while (1)` loop of `setTimeConfig` (drawing left out). -/
def setTimeConfigPass (g : Globals) (l : TimeLocals) (i : PassInput) :
    LoopState TimeLocals :=
  let g1 := processButtons g i.pbS1 i.pbS2 i.pbNow
  -- Both pressed => exit or switch field (`none` stands for `break`)
  let afterCombo : Option TimeLocals :=
    if i.s1Down && i.s2Down then
      if l.bothPressStart = 0 then some { l with bothPressStart := i.nowCombo }
      else if u32sub i.nowCombo l.bothPressStart ≥ 2000 then none
      else some l
    else
      if l.bothPressStart ≠ 0 then
        some { l with
          activeField := if u32sub i.nowCombo l.bothPressStart < 2000
                         then (l.activeField + 1) % 2 else l.activeField,
          bothPressStart := 0 }
      else some l
  match afterCombo with
  | none => LoopState.exited g1 l LoopExit.combo
  | some l1 =>
    let l2 := if i.s1Down && !i.s2Down then timeIncrement g1.ampmStr l1 else l1
    let l3 := if i.s2Down && !i.s1Down then timeDecrement g1.ampmStr l2 else l2
    -- Flip device => exit
    if isDeviceFlipped i.zValue then
      if l3.flipStart = 0 then LoopState.running g1 { l3 with flipStart := i.nowFlip }
      else if u32sub i.nowFlip l3.flipStart ≥ 2000 then LoopState.exited g1 l3 LoopExit.flip
      else LoopState.running g1 l3
    else
      LoopState.running g1 { l3 with flipStart := 0 }

/-- The statements of `setTimeConfig` after its loop: store the working values
and correct AM/PM (redrawing left out). -/
def setTimeCommit (g : Globals) (l : TimeLocals) : Globals :=
  let g1 := { g with hours := l.newHour, minutes := l.newMinute, seconds := 0 }
  if g1.ampmStr ≠ AmPm.blank then
    if g1.hours = 12 then { g1 with ampmStr := AmPm.PM }
    else if g1.hours < 12 then { g1 with ampmStr := AmPm.AM }
    else { g1 with ampmStr := AmPm.PM, hours := u8sub g1.hours 12 }
  else
    { g1 with ampmStr := AmPm.blank }

/-- Function `setTimeConfig` continued from inside its loop with locals `l`:
the globals after the function returns and the `break` it left through, or
`none` when the inputs end before the loop is left. -/
def setTimeConfigFrom (g : Globals) (l : TimeLocals) (inputs : List PassInput) :
    Option (Globals × LoopExit) :=
  match runLoop setTimeConfigPass g l inputs with
  | LoopState.exited g1 l1 why => some (setTimeCommit g1 l1, why)
  | _ => none

/-- Initial values of the locals of `setTimeConfig`. -/
def timeLocalsInit (g : Globals) : TimeLocals :=
  { newHour := g.hours, newMinute := g.minutes, activeField := 0,
    bothPressStart := 0, flipStart := 0 }

/-- Function `setTimeConfig`. -/
def setTimeConfig (g : Globals) (inputs : List PassInput) : Option (Globals × LoopExit) :=
  setTimeConfigFrom g (timeLocalsInit g) inputs

/-- Locals of `setDateConfig` (the `prev...` display caches left out). -/
structure DateLocals where
  newDay : Nat
  newMonth : Nat
  activeField : Nat
  bothPressStart : Nat
  flipStart : Nat
  deriving DecidableEq, Repr

/-- Body of the S1-only block of `setDateConfig` (`none`: table read out of
bounds). -/
def dateIncrement (l : DateLocals) : Option DateLocals :=
  if l.activeField = 0 then
    match getDaysInMonth l.newMonth with
    | none => none
    | some maxDays =>
      some { l with newDay := if l.newDay = maxDays then 1 else u8 (l.newDay + 1) }
  else
    let newMonth := if l.newMonth = 12 then 1 else u8 (l.newMonth + 1)
    match getDaysInMonth newMonth with
    | none => none
    | some maxDays =>
      some { l with newMonth := newMonth,
                    newDay := if l.newDay > maxDays then maxDays else l.newDay }

/-- Body of the S2-only block of `setDateConfig` (`none`: table read out of
bounds). -/
def dateDecrement (l : DateLocals) : Option DateLocals :=
  if l.activeField = 0 then
    match getDaysInMonth l.newMonth with
    | none => none
    | some maxDays =>
      some { l with newDay := if l.newDay = 1 then maxDays else u8sub l.newDay 1 }
  else
    let newMonth := if l.newMonth = 1 then 12 else u8sub l.newMonth 1
    match getDaysInMonth newMonth with
    | none => none
    | some maxDays =>
      some { l with newMonth := newMonth,
                    newDay := if l.newDay > maxDays then maxDays else l.newDay }

/-- One pass of the `while (1)` loop of `setDateConfig` (drawing left out). -/
def setDateConfigPass (g : Globals) (l : DateLocals) (i : PassInput) :
    LoopState DateLocals :=
  let g1 := processButtons g i.pbS1 i.pbS2 i.pbNow
  let afterCombo : Option DateLocals :=
    if i.s1Down && i.s2Down then
      if l.bothPressStart = 0 then some { l with bothPressStart := i.nowCombo }
      else if u32sub i.nowCombo l.bothPressStart ≥ 2000 then none
      else some l
    else
      if l.bothPressStart ≠ 0 then
        some { l with
          activeField := if u32sub i.nowCombo l.bothPressStart < 2000
                         then (l.activeField + 1) % 2 else l.activeField,
          bothPressStart := 0 }
      else some l
  match afterCombo with
  | none => LoopState.exited g1 l LoopExit.combo
  | some l1 =>
    match (if i.s1Down && !i.s2Down then dateIncrement l1 else some l1) with
    | none => LoopState.undefined
    | some l2 =>
      match (if i.s2Down && !i.s1Down then dateDecrement l2 else some l2) with
      | none => LoopState.undefined
      | some l3 =>
        if isDeviceFlipped i.zValue then
          if l3.flipStart = 0 then LoopState.running g1 { l3 with flipStart := i.nowFlip }
          else if u32sub i.nowFlip l3.flipStart ≥ 2000 then
            LoopState.exited g1 l3 LoopExit.flip
          else LoopState.running g1 l3
        else
          LoopState.running g1 { l3 with flipStart := 0 }

/-- The statements of `setDateConfig` after its loop (redrawing left out). -/
def setDateCommit (g : Globals) (l : DateLocals) : Globals :=
  { g with day := l.newDay, month := l.newMonth }

/-- Function `setDateConfig` continued from inside its loop with locals `l`. -/
def setDateConfigFrom (g : Globals) (l : DateLocals) (inputs : List PassInput) :
    Option (Globals × LoopExit) :=
  match runLoop setDateConfigPass g l inputs with
  | LoopState.exited g1 l1 why => some (setDateCommit g1 l1, why)
  | _ => none

/-- Initial values of the locals of `setDateConfig`. -/
def dateLocalsInit (g : Globals) : DateLocals :=
  { newDay := g.day, newMonth := g.month, activeField := 0,
    bothPressStart := 0, flipStart := 0 }

/-- Function `setDateConfig`. -/
def setDateConfig (g : Globals) (inputs : List PassInput) : Option (Globals × LoopExit) :=
  setDateConfigFrom g (dateLocalsInit g) inputs

/-! ## Pedometer -/

/-- The C library call `abs(d)` on a target whose `int` has `w` bits: the
argument is converted to `int`, and the result is an `int`. -/
def cAbs (w : Nat) (d : Int) : Int := wrapInt w ((wrapInt w d).natAbs : Int)

/-- The step test of `checkForMovement`: some axis differs from the previous
sample by more than `STEP_THRESHOLD`. -/
def stepDetected (w : Nat) (g : Globals) (x y z : Int) : Bool :=
  decide (cAbs w (x - g.lastX) > STEP_THRESHOLD) ||
  decide (cAbs w (y - g.lastY) > STEP_THRESHOLD) ||
  decide (cAbs w (z - g.lastZ) > STEP_THRESHOLD)

/-- First half of `checkForMovement`: the step test and the update of the
stored sample. -/
def registerSample (w : Nat) (g : Globals) (x y z : Int) : Globals :=
  let g1 := if stepDetected w g x y z then { g with stepCount := u32 (g.stepCount + 1) } else g
  { g1 with lastX := x, lastY := y, lastZ := z }

/-- Second half of `checkForMovement`: the update made when
`now - lastStepTime >= SCREEN_UPDATE_INTERVAL` (`none`: `stepArray` accessed
outside its bounds). -/
def windowUpdate (w : Nat) (g : Globals) (now : Nat) : Option Globals :=
  if u32sub now g.lastStepTime ≥ SCREEN_UPDATE_INTERVAL then
    match g.stepArray[g.stepIndex]? with
    | none => none
    | some slot =>
      let stepDiff : Int := wrapInt w (u32sub g.stepCount slot : Nat)
      let g1 := { g with stepArray := g.stepArray.set g.stepIndex g.stepCount,
                         stepIndex := (g.stepIndex + 1) % STEP_ARRAY_SIZE }
      let g2 :=
        if stepDiff > 0 then
          let totalSteps := u32 (g1.totalSteps + toU32 stepDiff)
          { g1 with totalSteps := totalSteps,
                    currentPace := u32 (totalSteps * (60 / (STEP_ARRAY_SIZE * (SCREEN_UPDATE_INTERVAL / 1000)))),
                    lastStepTime := now,
                    footToggle := !g1.footToggle }
        else g1
      some { g2 with stepCount := 0 }
  else some g

/-- Function `checkForMovement`: `x`, `y`, `z` are the values returned by the
three `readAxisValue` calls, `now` the value of `getMillis()`; `w` is the
width of `int`. -/
def checkForMovement (w : Nat) (g : Globals) (x y z : Int) (now : Nat) : Option Globals :=
  windowUpdate w (registerSample w g x y z) now

/-- The decay block of the main loop (the `if`/`else` following the call of
`checkForMovement`).  Here `nowA` is the `getMillis()` value of the outer test,
`nowB` the next read on the path taken (inner test, or the assignment of the
`else` branch), `nowC` the read assigned to `decayTimer` in the inner block. -/
def decayRule (g : Globals) (nowA nowB nowC : Nat) : Globals :=
  if u32sub nowA g.lastStepTime ≥ 2000 then
    if u32sub nowB g.decayTimer ≥ 1000 then
      let g1 := { g with decayTimer := nowC }
      if g1.currentPace > 0 then
        { g1 with currentPace := u32sub g1.currentPace 1, footToggle := !g1.footToggle }
      else g1
    else g
  else
    { g with decayTimer := nowB }

/-- Function `updateStepsHistory` (`none`: `stepsHistory` written outside its
bounds). -/
def updateStepsHistory (w : Nat) (g : Globals) : Option Globals :=
  if g.stepsHistoryIndex < g.stepsHistory.length then
    let idx := u8 (g.stepsHistoryIndex + 1)
    some { g with
      stepsHistory := g.stepsHistory.set g.stepsHistoryIndex (wrapInt w (g.currentPace : Nat)),
      stepsHistoryIndex := if idx ≥ 90 then 0 else idx }
  else none

/-- One accelerometer sample as seen by the main loop. -/
structure Sample where
  x : Int
  y : Int
  z : Int
  now : Nat
  deriving DecidableEq, Repr

/-- Successive calls of `checkForMovement`, one per sample. -/
def checkForMovementRun (w : Nat) : Globals → List Sample → Option Globals
  | g, [] => some g
  | g, s :: rest =>
    match checkForMovement w g s.x s.y s.z s.now with
    | none => none
    | some g1 => checkForMovementRun w g1 rest

/-! ## Successive passes of `processButtons` -/

/-- The reads of one call of `processButtons`. -/
structure ButtonRead where
  s1Down : Bool
  s2Down : Bool
  now : Nat
  deriving DecidableEq, Repr

/-- Successive calls of `processButtons`, one per element of the list. -/
def processButtonsRun (g : Globals) (reads : List ButtonRead) : Globals :=
  reads.foldl (fun acc r => processButtons acc r.s1Down r.s2Down r.now) g

/-! ## Reference clock -/

/-- Month lengths of a non-leap year, written out month by month. -/
def daysInMonthRef (month : Nat) : Nat :=
  match month with
  | 1 => 31 | 2 => 28 | 3 => 31 | 4 => 30 | 5 => 31 | 6 => 30
  | 7 => 31 | 8 => 31 | 9 => 30 | 10 => 31 | 11 => 30 | 12 => 31
  | _ => 0

/-- Reference "add one second" on a 24-hour clock with calendar, written from
the description: seconds 59 carries into minutes, minutes 59 into hours, hours
23 into the day, the last day of the month into the month, month 12 to month 1.
Fields not reached by a carry keep their value. -/
def addOneSecondRef (g : Globals) : Globals :=
  if g.seconds ≠ 59 then { g with seconds := g.seconds + 1 }
  else if g.minutes ≠ 59 then { g with seconds := 0, minutes := g.minutes + 1 }
  else if g.hours ≠ 23 then { g with seconds := 0, minutes := 0, hours := g.hours + 1 }
  else if g.day ≠ daysInMonthRef g.month then
    { g with seconds := 0, minutes := 0, hours := 0, day := g.day + 1 }
  else if g.month ≠ 12 then
    { g with seconds := 0, minutes := 0, hours := 0, day := 1, month := g.month + 1 }
  else
    { g with seconds := 0, minutes := 0, hours := 0, day := 1, month := 1 }

/-- The calendar predicate: `1 <= month <= 12` and
`1 <= day <= daysInMonth(month)`. -/
def calendarOk (day month : Nat) : Prop :=
  1 ≤ month ∧ month ≤ 12 ∧ 1 ≤ day ∧ day ≤ daysInMonthRef month

instance (day month : Nat) : Decidable (calendarOk day month) := by
  unfold calendarOk; infer_instance

/-- A valid clock state in 24-hour mode. -/
def validClock24 (g : Globals) : Prop :=
  g.ampmStr = AmPm.blank ∧ g.seconds < 60 ∧ g.minutes < 60 ∧ g.hours < 24 ∧
  calendarOk g.day g.month

instance (g : Globals) : Decidable (validClock24 g) := by
  unfold validClock24; infer_instance

/-- The locals of a loop state satisfy `P` and the state is not `undefined`. -/
def LoopState.holds {α : Type} (P : α → Prop) : LoopState α → Prop
  | LoopState.running _ l => P l
  | LoopState.exited _ l _ => P l
  | LoopState.undefined => False

/-! ## Sampling pass, pace history and smoothing -/

/-- The pedometer part of one main-loop pass up to the decay block:
`checkForMovement` followed by the decay `if`/`else`. -/
def checkThenDecay (w : Nat) (g : Globals) (x y z : Int) (now nowA nowB nowC : Nat) :
    Option Globals :=
  match checkForMovement w g x y z now with
  | none => none
  | some g1 => some (decayRule g1 nowA nowB nowC)

/-- Successive calls of `updateStepsHistory`, the k-th made while `currentPace`
holds the k-th element of the list. -/
def updateStepsHistoryRun (w : Nat) : Globals → List Nat → Option Globals
  | g, [] => some g
  | g, p :: rest =>
    match updateStepsHistory w { g with currentPace := p } with
    | none => none
    | some g1 => updateStepsHistoryRun w g1 rest

/-- The reorder loop of `drawStepsGraph`:
`orderedSteps[i] = stepsHistory[(stepsHistoryIndex + i) % GRAPH_SAMPLES]` for
`i` from 0 to 89 (the index is below 90, inside the array). -/
def orderedSteps (g : Globals) : List Int :=
  (List.range GRAPH_SAMPLES).map
    (fun i => g.stepsHistory.getD ((g.stepsHistoryIndex + i) % GRAPH_SAMPLES) 0)

/-- The value the loop body of `computeSmoothedSteps` stores at index `i`,
computed from the raw buffer `h`: `prev` and `next` are the wrapped
neighbours, `sum = h[i] + h[prev] + h[next]` is an `int` of `w` bits, and the
result is `sum / 3` in C integer division. -/
def smoothValue (w : Nat) (h : List Int) (i : Nat) : Int :=
  let prev := if i = 0 then 89 else i - 1
  let next := if i = 89 then 0 else i + 1
  let sum := wrapInt w (wrapInt w (h.getD i 0 + h.getD prev 0) + h.getD next 0)
  Int.tdiv sum 3

/-- Body of the loop of `computeSmoothedSteps` at index `i`. -/
def smoothAt (w : Nat) (g : Globals) (i : Nat) : Globals :=
  { g with smoothedSteps := g.smoothedSteps.set i (smoothValue w g.stepsHistory i) }

/-- The `for` loop of `computeSmoothedSteps` with `n` iterations left, at
index `i`. -/
def computeSmoothedStepsLoop (w : Nat) : Nat → Nat → Globals → Globals
  | 0, _, g => g
  | n + 1, i, g => computeSmoothedStepsLoop w n (i + 1) (smoothAt w g i)

/-- Function `computeSmoothedSteps`: the loop for `i` from 0 to 89. -/
def computeSmoothedSteps (w : Nat) (g : Globals) : Globals :=
  computeSmoothedStepsLoop w 90 0 g

/-! ## Menu navigation -/

/-- Function `navigateMenuUp`. -/
def navigateMenuUp (g : Globals) : Globals :=
  if g.selectedMenu > 0 then { g with selectedMenu := g.selectedMenu - 1 } else g

/-- Function `navigateMenuDown`. -/
def navigateMenuDown (g : Globals) : Globals :=
  if g.selectedMenu < MENU_COUNT - 1 then { g with selectedMenu := g.selectedMenu + 1 } else g

/-- Effect of the button block of the `drawMenu` loop (the `if`/`else if`
chain on `s1Down` and `s2Down`) on the globals.  Here `recheck` is the value
the 50 ms re-sample of the other button returns (`s2Recheck`, respectively
`s1Recheck`); it is read only in the two branches that take the re-sample.
`selectMenuOption` stands for the effect of the call of that name. -/
def menuButtonsPass (selectMenuOption : Globals → Globals) (g : Globals)
    (s1Down s2Down recheck : Bool) : Globals :=
  if s1Down && s2Down then selectMenuOption g
  else if s1Down && !s2Down then
    if recheck then selectMenuOption g else navigateMenuUp g
  else if !s1Down && s2Down then
    if recheck then selectMenuOption g else navigateMenuDown g
  else g

/-! ## Accelerometer reads -/

/-- Outcome of a call of `readAxisValue`: it returns a value, or it enters
`haltOnError`, whose `while (1);` never returns. -/
inductive AxisResult where
  | returned (v : Int)
  | halted
  deriving DecidableEq, Repr

/-- A retry loop `for (attempt = 0; attempt < maxAttempts; attempt++)` of
`readAxisValue`, at iteration `attempt` with `n` iterations left.  Here `io k`
is the outcome of the `k`-th call of `i2cReadSlaveRegister` made by the
function (`some b` for `OK` with byte `b`, `none` for a failure) and `base` the
number of calls made before the loop.  The result is the byte of the first
successful read, or `none` when every read failed (the case in which the
source runs its failure action in the last iteration), and the number of reads
made. -/
def retryRead (io : Nat → Option Nat) (base : Nat) : Nat → Nat → Option Nat × Nat
  | 0, attempt => (none, attempt)
  | n + 1, attempt =>
    match io (base + attempt) with
    | some b => (some b, attempt + 1)
    | none => retryRead io base n (attempt + 1)

/-- Result of `readAxisValue` together with the number of reads made for the
low byte and for the high byte. -/
structure AxisRead where
  result : AxisResult
  lsbReads : Nat
  msbReads : Nat
  deriving DecidableEq, Repr

/-- Function `readAxisValue`: five attempts for the low byte, `haltOnError`
when all fail; five attempts for the high byte, `return 0` when all fail;
otherwise `(int16_t)((highByte << 8) | lowByte)`. -/
def readAxisValue (io : Nat → Option Nat) : AxisRead :=
  match retryRead io 0 5 0 with
  | (none, k) => { result := AxisResult.halted, lsbReads := k, msbReads := 0 }
  | (some lowByte, k) =>
    match retryRead io k 5 0 with
    | (none, j) => { result := AxisResult.returned 0, lsbReads := k, msbReads := j }
    | (some highByte, j) =>
      { result := AxisResult.returned
          (wrapInt 16 (((u8 highByte <<< 8) ||| u8 lowByte : Nat) : Int)),
        lsbReads := k, msbReads := j }

/-! ## Smoothed series of the graph and the menu loop -/

/-- The second loop of `drawStepsGraph`: `orderedSmoothed[i]` is computed from
the reordered copy `orderedSteps` by the formula `computeSmoothedSteps` applies
to the raw buffer (wrapped neighbours `GRAPH_SAMPLES - 1` and 0 at the ends,
`int` sum, division by 3). -/
def orderedSmoothed (w : Nat) (g : Globals) : List Int :=
  (List.range GRAPH_SAMPLES).map (fun i => smoothValue w (orderedSteps g) i)

/-- The reads of one pass of the `while (currentState == STATE_MENU)` loop of
`drawMenu`: the reads of `processButtons`, the `getMillis()` value stored in
`currentTime`, the two button reads and the re-sample of the other button. -/
structure MenuPassInput where
  pbS1 : Bool
  pbS2 : Bool
  pbNow : Nat
  currentTime : Nat
  s1Down : Bool
  s2Down : Bool
  recheck : Bool
  deriving DecidableEq, Repr

/-- The "update the time display once a second" block of the `drawMenu` loop:
the globals and the local `lastUpdateTime` after it (`none` only when
`updateTime` reads outside the month table). -/
def drawMenuTimeBlock (g : Globals) (lastUpdateTime currentTime : Nat) :
    Option (Globals × Nat) :=
  if u32sub currentTime lastUpdateTime ≥ 1000 then
    match updateTime g with
    | none => none
    | some g1 => some (g1, currentTime)
  else some (g, lastUpdateTime)

/-- One pass of the loop of `drawMenu` (drawing left out): `processButtons`,
the time block, the button block.  `selectMenuOption` stands for the effect of
the call of that name. -/
def drawMenuPass (selectMenuOption : Globals → Globals) (g : Globals)
    (lastUpdateTime : Nat) (i : MenuPassInput) : Option (Globals × Nat) :=
  let g1 := processButtons g i.pbS1 i.pbS2 i.pbNow
  match drawMenuTimeBlock g1 lastUpdateTime i.currentTime with
  | none => none
  | some (g2, lut) => some (menuButtonsPass selectMenuOption g2 i.s1Down i.s2Down i.recheck, lut)

/-- The loop `while (currentState == STATE_MENU)` of `drawMenu`, one pass per
input while the condition holds. -/
def drawMenuLoop (selectMenuOption : Globals → Globals) :
    Globals → Nat → List MenuPassInput → Option (Globals × Nat)
  | g, lut, [] => some (g, lut)
  | g, lut, i :: rest =>
    if g.currentState = WatchState.STATE_MENU then
      match drawMenuPass selectMenuOption g lut i with
      | none => none
      | some (g1, lut1) => drawMenuLoop selectMenuOption g1 lut1 rest
    else some (g, lut)

/-- Function `drawMenu` (drawing left out): `updateTime()` "once right away",
`lastUpdateTime = getMillis()` (the read `nowEntry`), then the loop.  The
result is the globals and `lastUpdateTime` after the given passes. -/
def drawMenu (selectMenuOption : Globals → Globals) (g : Globals) (nowEntry : Nat)
    (passes : List MenuPassInput) : Option (Globals × Nat) :=
  match updateTime g with
  | none => none
  | some g1 => drawMenuLoop selectMenuOption g1 nowEntry passes

/-! ## Blocks of a modal-loop pass -/

/-- The "Flip device => exit" block that ends a pass of both modal loops, as a
function of the local `flipStart`: `none` stands for `break`, `some f` for the
value of `flipStart` after the block. -/
def flipBlock (flipStart : Nat) (i : PassInput) : Option Nat :=
  if isDeviceFlipped i.zValue then
    if flipStart = 0 then some i.nowFlip
    else if u32sub i.nowFlip flipStart ≥ 2000 then none
    else some flipStart
  else some 0

/-- The flip blocks of successive passes: the value of `flipStart` after them,
or `none` once one of them took its `break`. -/
def flipBlockRun : Nat → List PassInput → Option Nat
  | f, [] => some f
  | f, i :: rest =>
    match flipBlock f i with
    | none => none
    | some f1 => flipBlockRun f1 rest

/-- The `else` branch of the both-buttons block of `setTimeConfig` (taken when
the two buttons are not both pressed): a recorded combo start is cleared, and
the active field is switched when less than 2000 ms have elapsed since it. -/
def timeComboRelease (l : TimeLocals) (nowCombo : Nat) : TimeLocals :=
  if l.bothPressStart ≠ 0 then
    { l with
      activeField := if u32sub nowCombo l.bothPressStart < 2000
                     then (l.activeField + 1) % 2 else l.activeField,
      bothPressStart := 0 }
  else l

/-! ## Concrete inputs used in the instances below -/

/-- The power-on state after the menu has been entered. -/
def menuPowerOn : Globals := { powerOn with currentState := WatchState.STATE_MENU }

/-- A modal-loop pass at tick `t` with both buttons pressed, device upright. -/
def pressBoth (t : Nat) : PassInput :=
  { pbS1 := true, pbS2 := true, pbNow := t, s1Down := true, s2Down := true,
    nowCombo := t, zValue := 100, nowFlip := t }

/-- A modal-loop pass at tick `t` with only S1 pressed, device upright. -/
def pressS1 (t : Nat) : PassInput :=
  { pbS1 := true, pbS2 := false, pbNow := t, s1Down := true, s2Down := false,
    nowCombo := t, zValue := 100, nowFlip := t }

/-- A modal-loop pass at tick `t` with no button pressed, device flipped. -/
def flipOnly (t : Nat) : PassInput :=
  { pbS1 := false, pbS2 := false, pbNow := t, s1Down := false, s2Down := false,
    nowCombo := t, zValue := -100, nowFlip := t }

/-- A modal-loop pass at tick `t` with both buttons pressed, device flipped. -/
def pressBothFlipped (t : Nat) : PassInput :=
  { pbS1 := true, pbS2 := true, pbNow := t, s1Down := true, s2Down := true,
    nowCombo := t, zValue := -100, nowFlip := t }

/-- A modal-loop pass at tick `t` with no button pressed, device upright. -/
def idlePass (t : Nat) : PassInput :=
  { pbS1 := false, pbS2 := false, pbNow := t, s1Down := false, s2Down := false,
    nowCombo := t, zValue := 100, nowFlip := t }

/-- A pedometer state with a non-zero pace history (30 at index 89, 60 and 100
at indices 0 and 1) whose `smoothedSteps` still holds the value 7 everywhere. -/
def historyStale : Globals :=
  { powerOn with stepsHistory := [60, 100] ++ List.replicate 87 0 ++ [30],
                 smoothedSteps := List.replicate 90 7 }

/-- The same pace history with `smoothedSteps` all zero. -/
def historyFresh : Globals :=
  { powerOn with stepsHistory := [60, 100] ++ List.replicate 87 0 ++ [30] }

/-- A menu-loop pass at tick `t` with only S2 pressed, also at the re-sample. -/
def menuPressS2 (t : Nat) : MenuPassInput :=
  { pbS1 := false, pbS2 := true, pbNow := t, currentTime := t, s1Down := false, s2Down := true, recheck := false }

/-! ## Helper lemmas -/

theorem getDaysInMonth_eq_ref (m : Nat) (h1 : 1 ≤ m) (h2 : m ≤ 12) :
    getDaysInMonth m = some (daysInMonthRef m) := by
  interval_cases m <;> rfl

theorem daysInMonthRef_le (m : Nat) : daysInMonthRef m ≤ 31 := by
  unfold daysInMonthRef
  split <;> omega

theorem daysInMonthRef_pos (m : Nat) (h1 : 1 ≤ m) (h2 : m ≤ 12) : 1 ≤ daysInMonthRef m := by
  interval_cases m <;> decide

theorem processButtons_menu (g : Globals) (a b : Bool) (t : Nat)
    (h : g.currentState = WatchState.STATE_MENU) :
    processButtons g a b t = { g with lata8 := a, lata9 := b } := by
  simp [processButtons, h]

theorem runLoop_nil {α : Type} (pass : Globals → α → PassInput → LoopState α)
    (g : Globals) (l : α) : runLoop pass g l [] = LoopState.running g l := rfl

theorem runLoop_cons_running {α : Type} (pass : Globals → α → PassInput → LoopState α)
    (g g1 : Globals) (l l1 : α) (i : PassInput) (rest : List PassInput)
    (h : pass g l i = LoopState.running g1 l1) :
    runLoop pass g l (i :: rest) = runLoop pass g1 l1 rest := by
  simp [runLoop, h]

theorem runLoop_cons_exited {α : Type} (pass : Globals → α → PassInput → LoopState α)
    (g g1 : Globals) (l l1 : α) (i : PassInput) (rest : List PassInput) (why : LoopExit)
    (h : pass g l i = LoopState.exited g1 l1 why) :
    runLoop pass g l (i :: rest) = LoopState.exited g1 l1 why := by
  simp [runLoop, h]

theorem runLoop_cons_undefined {α : Type} (pass : Globals → α → PassInput → LoopState α)
    (g : Globals) (l : α) (i : PassInput) (rest : List PassInput)
    (h : pass g l i = LoopState.undefined) :
    runLoop pass g l (i :: rest) = LoopState.undefined := by
  simp [runLoop, h]

/-! ## Time format and clock -/

/-- C1: for every valid 12-hour pair (hour in 1..12, flag AM or PM), the
switch-to-24H conversion of `setFormatConfig` followed by its switch-to-12H
conversion gives back the original hour and AM/PM flag (and changes nothing
else). -/
theorem setFormatConfig_roundtrip_12_24_12 (g : Globals)
    (hlo : 1 ≤ g.hours) (hhi : g.hours ≤ 12)
    (hf : g.ampmStr = AmPm.AM ∨ g.ampmStr = AmPm.PM) :
    switchTo12H (switchTo24H g) = g := by
  obtain ⟨a, b, c, d, sec, mi, h, dd, mo, ap⟩ := g
  simp only at hlo hhi hf
  interval_cases h <;> rcases hf with hf | hf <;> subst hf <;>
    simp [switchTo12H, switchTo24H, u8, u8sub]

/-- Instance of C1 at 7 PM. -/
theorem setFormatConfig_roundtrip_12_24_12_witness :
    switchTo12H (switchTo24H { powerOn with hours := 7, ampmStr := AmPm.PM }) =
      { powerOn with hours := 7, ampmStr := AmPm.PM } :=
  setFormatConfig_roundtrip_12_24_12 { powerOn with hours := 7, ampmStr := AmPm.PM }
    (by decide) (by decide) (Or.inr rfl)

/-- C2: in 24-hour mode, on every valid clock state, `updateTime` returns the
state given by the reference "add one second" function `addOneSecondRef`
(carries 59 to 0 into minutes, hours, 23 to 0 into the day, the last day of the
month into the month, 12 to 1; non-leap month table; other fields unchanged). -/
theorem updateTime_24h_eq_addOneSecondRef (g : Globals) (h : validClock24 g) :
    updateTime g = some (addOneSecondRef g) := by
  obtain ⟨hb, hs, hm, hh, hmo1, hmo2, hd1, hd2⟩ := h
  have hd31 := daysInMonthRef_le g.month
  have e1 : (g.seconds + 1) % 256 = g.seconds + 1 := Nat.mod_eq_of_lt (by omega)
  have e2 : (g.minutes + 1) % 256 = g.minutes + 1 := Nat.mod_eq_of_lt (by omega)
  have e3 : (g.hours + 1) % 256 = g.hours + 1 := Nat.mod_eq_of_lt (by omega)
  have e4 : (g.day + 1) % 256 = g.day + 1 := Nat.mod_eq_of_lt (by omega)
  have e5 : (g.month + 1) % 256 = g.month + 1 := Nat.mod_eq_of_lt (by omega)
  unfold updateTime addOneSecondRef
  rw [getDaysInMonth_eq_ref _ hmo1 hmo2]
  simp only [u8, hb, e1, e2, e3, e4, e5]
  by_cases c1 : g.seconds = 59
  · by_cases c2 : g.minutes = 59
    · by_cases c3 : g.hours = 23
      · by_cases c4 : g.day = daysInMonthRef g.month
        · by_cases c5 : g.month = 12
          · simp [c1, c2, c3, c4, c5]
          · have : ¬ (12 < g.month + 1) := by omega
            simp [c1, c2, c3, c4, c5, this]
        · have : ¬ (daysInMonthRef g.month < g.day + 1) := by omega
          simp [c1, c2, c3, c4, this]
      · have : ¬ (24 ≤ g.hours + 1) := by omega
        simp [c1, c2, c3, this]
    · have : ¬ (60 ≤ g.minutes + 1) := by omega
      simp [c1, c2, this]
  · have : ¬ (60 ≤ g.seconds + 1) := by omega
    simp [c1, this]

/-- Instance of C2 at 23:59:59 on 28 February: the next state is 00:00:00 on
1 March. -/
theorem updateTime_24h_eq_addOneSecondRef_witness :
    validClock24 { powerOn with ampmStr := AmPm.blank, hours := 23, minutes := 59,
                                seconds := 59, day := 28, month := 2 } ∧
    updateTime { powerOn with ampmStr := AmPm.blank, hours := 23, minutes := 59,
                              seconds := 59, day := 28, month := 2 } =
      some (addOneSecondRef { powerOn with ampmStr := AmPm.blank, hours := 23, minutes := 59,
                                           seconds := 59, day := 28, month := 2 }) ∧
    (addOneSecondRef { powerOn with ampmStr := AmPm.blank, hours := 23, minutes := 59,
                                    seconds := 59, day := 28, month := 2 }).day = 1 ∧
    (addOneSecondRef { powerOn with ampmStr := AmPm.blank, hours := 23, minutes := 59,
                                    seconds := 59, day := 28, month := 2 }).month = 3 :=
  ⟨by decide,
   updateTime_24h_eq_addOneSecondRef _ (by decide),
   by decide, by decide⟩

/-- C3 (the code at the failing input): in 12-hour mode at 11:59:59 PM on
31 January, `updateTime` gives 12:00:00 AM and leaves the date at 31 January:
the 12-hour branch has no carry into the day.  The 24-hour branch at 23:59:59
on the same date does advance to 1 February. -/
theorem updateTime_12h_midnight_keeps_day :
    updateTime { powerOn with hours := 11, minutes := 59, seconds := 59,
                              ampmStr := AmPm.PM, day := 31, month := 1 } =
      some { powerOn with hours := 12, minutes := 0, seconds := 0,
                          ampmStr := AmPm.AM, day := 31, month := 1 } ∧
    updateTime { powerOn with hours := 23, minutes := 59, seconds := 59,
                              ampmStr := AmPm.blank, day := 31, month := 1 } =
      some { powerOn with hours := 0, minutes := 0, seconds := 0,
                          ampmStr := AmPm.blank, day := 1, month := 2 } := by
  decide

/-! ## Calendar invariant -/

theorem dateIncrement_ok (l : DateLocals) (h : calendarOk l.newDay l.newMonth) :
    ∃ l', dateIncrement l = some l' ∧ calendarOk l'.newDay l'.newMonth := by
  obtain ⟨h1, h2, h3, h4⟩ := h
  have hd31 := daysInMonthRef_le l.newMonth
  unfold dateIncrement
  by_cases hf : l.activeField = 0
  · rw [if_pos hf, getDaysInMonth_eq_ref _ h1 h2]
    refine ⟨_, rfl, h1, h2, ?_, ?_⟩
    · show 1 ≤ (if l.newDay = daysInMonthRef l.newMonth then 1 else u8 (l.newDay + 1))
      unfold u8; split <;> omega
    · show (if l.newDay = daysInMonthRef l.newMonth then 1 else u8 (l.newDay + 1)) ≤
        daysInMonthRef l.newMonth
      unfold u8; split <;> omega
  · rw [if_neg hf]
    have hm : 1 ≤ (if l.newMonth = 12 then 1 else u8 (l.newMonth + 1)) ∧
        (if l.newMonth = 12 then 1 else u8 (l.newMonth + 1)) ≤ 12 := by
      unfold u8; split <;> omega
    generalize (if l.newMonth = 12 then 1 else u8 (l.newMonth + 1)) = m at hm
    have hp := daysInMonthRef_pos m hm.1 hm.2
    simp only [getDaysInMonth_eq_ref _ hm.1 hm.2]
    refine ⟨_, rfl, hm.1, hm.2, ?_, ?_⟩
    · show 1 ≤ (if l.newDay > daysInMonthRef m then daysInMonthRef m else l.newDay)
      split <;> omega
    · show (if l.newDay > daysInMonthRef m then daysInMonthRef m else l.newDay) ≤
        daysInMonthRef m
      split <;> omega

theorem dateDecrement_ok (l : DateLocals) (h : calendarOk l.newDay l.newMonth) :
    ∃ l', dateDecrement l = some l' ∧ calendarOk l'.newDay l'.newMonth := by
  obtain ⟨h1, h2, h3, h4⟩ := h
  have hd31 := daysInMonthRef_le l.newMonth
  unfold dateDecrement
  by_cases hf : l.activeField = 0
  · rw [if_pos hf, getDaysInMonth_eq_ref _ h1 h2]
    refine ⟨_, rfl, h1, h2, ?_, ?_⟩
    · show 1 ≤ (if l.newDay = 1 then daysInMonthRef l.newMonth else u8sub l.newDay 1)
      unfold u8sub; split <;> omega
    · show (if l.newDay = 1 then daysInMonthRef l.newMonth else u8sub l.newDay 1) ≤
        daysInMonthRef l.newMonth
      unfold u8sub; split <;> omega
  · rw [if_neg hf]
    have hm : 1 ≤ (if l.newMonth = 1 then 12 else u8sub l.newMonth 1) ∧
        (if l.newMonth = 1 then 12 else u8sub l.newMonth 1) ≤ 12 := by
      unfold u8sub; split <;> omega
    generalize (if l.newMonth = 1 then 12 else u8sub l.newMonth 1) = m at hm
    have hp := daysInMonthRef_pos m hm.1 hm.2
    simp only [getDaysInMonth_eq_ref _ hm.1 hm.2]
    refine ⟨_, rfl, hm.1, hm.2, ?_, ?_⟩
    · show 1 ≤ (if l.newDay > daysInMonthRef m then daysInMonthRef m else l.newDay)
      split <;> omega
    · show (if l.newDay > daysInMonthRef m then daysInMonthRef m else l.newDay) ≤
        daysInMonthRef m
      split <;> omega

theorem updateTime_calendarOk (g : Globals) (h : calendarOk g.day g.month) :
    ∃ g', updateTime g = some g' ∧ calendarOk g'.day g'.month := by
  obtain ⟨h1, h2, h3, h4⟩ := h
  have hd31 := daysInMonthRef_le g.month
  unfold updateTime
  rw [getDaysInMonth_eq_ref _ h1 h2]
  simp only [u8]
  split_ifs
  all_goals first
    | exact ⟨_, rfl, h1, h2, h3, h4⟩
    | exact ⟨_, rfl, by show 1 ≤ 1; omega, by show 1 ≤ 12; omega, le_refl 1,
        daysInMonthRef_pos 1 (le_refl 1) (by omega)⟩
    | exact ⟨_, rfl, by show 1 ≤ (g.month + 1) % 256; omega,
        by show (g.month + 1) % 256 ≤ 12; omega, le_refl 1,
        daysInMonthRef_pos ((g.month + 1) % 256) (by omega) (by omega)⟩
    | exact ⟨_, rfl, h1, h2, by show 1 ≤ (g.day + 1) % 256; omega,
        by show (g.day + 1) % 256 ≤ daysInMonthRef g.month; omega⟩

theorem setDateConfigPass_calendarOk (g : Globals) (l : DateLocals) (i : PassInput)
    (h : calendarOk l.newDay l.newMonth) :
    (setDateConfigPass g l i).holds (fun l1 => calendarOk l1.newDay l1.newMonth) := by
  unfold setDateConfigPass
  dsimp only
  split
  · exact h
  · rename_i l1 hl1
    have h1 : calendarOk l1.newDay l1.newMonth := by
      split_ifs at hl1 <;> simp only [Option.some.injEq] at hl1 <;> subst hl1 <;> exact h
    split
    · rename_i hn
      split_ifs at hn
      · obtain ⟨l', hl', _⟩ := dateIncrement_ok l1 h1
        rw [hl'] at hn; cases hn
    · rename_i l2 hl2
      have h2 : calendarOk l2.newDay l2.newMonth := by
        split_ifs at hl2
        · obtain ⟨l', hl', hok⟩ := dateIncrement_ok l1 h1
          rw [hl'] at hl2; cases hl2; exact hok
        · cases hl2; exact h1
      split
      · rename_i hn
        split_ifs at hn
        · obtain ⟨l', hl', _⟩ := dateDecrement_ok l2 h2
          rw [hl'] at hn; cases hn
      · rename_i l3 hl3
        have h3 : calendarOk l3.newDay l3.newMonth := by
          split_ifs at hl3
          · obtain ⟨l', hl', hok⟩ := dateDecrement_ok l2 h2
            rw [hl'] at hl3; cases hl3; exact hok
          · cases hl3; exact h2
        split_ifs <;> exact h3

theorem runLoop_date_calendarOk (inputs : List PassInput) :
    ∀ (g : Globals) (l : DateLocals), calendarOk l.newDay l.newMonth →
      (runLoop setDateConfigPass g l inputs).holds
        (fun l1 => calendarOk l1.newDay l1.newMonth) := by
  induction inputs with
  | nil => intro g l h; exact h
  | cons i rest ih =>
    intro g l h
    have hp := setDateConfigPass_calendarOk g l i h
    unfold runLoop
    split
    · rename_i g1 l1 heq
      rw [heq] at hp
      exact ih g1 l1 hp
    · rename_i r hr
      exact hp

/-- C4: the calendar predicate (`1 <= month <= 12`, `1 <= day <=
daysInMonth(month)`) holds at power-on; `updateTime` returns and preserves it;
the S1-increment and S2-decrement steps of `setDateConfig` return and preserve
it on the working copies, whichever field is active; the loop of
`setDateConfig` never reads outside the month table and keeps it; and the
day and month stored when `setDateConfig` returns satisfy it. -/
theorem calendarOk_invariant :
    calendarOk powerOn.day powerOn.month ∧
    (∀ g : Globals, calendarOk g.day g.month →
      ∃ g', updateTime g = some g' ∧ calendarOk g'.day g'.month) ∧
    (∀ l : DateLocals, calendarOk l.newDay l.newMonth →
      ∃ l', dateIncrement l = some l' ∧ calendarOk l'.newDay l'.newMonth) ∧
    (∀ l : DateLocals, calendarOk l.newDay l.newMonth →
      ∃ l', dateDecrement l = some l' ∧ calendarOk l'.newDay l'.newMonth) ∧
    (∀ (g : Globals) (l : DateLocals) (inputs : List PassInput),
      calendarOk l.newDay l.newMonth →
      (runLoop setDateConfigPass g l inputs).holds
        (fun l1 => calendarOk l1.newDay l1.newMonth)) ∧
    (∀ (g g' : Globals) (inputs : List PassInput) (why : LoopExit),
      calendarOk g.day g.month → setDateConfig g inputs = some (g', why) →
      calendarOk g'.day g'.month) := by
  refine ⟨by decide, updateTime_calendarOk, dateIncrement_ok, dateDecrement_ok,
    fun g l inputs h => runLoop_date_calendarOk inputs g l h, ?_⟩
  intro g g' inputs why h hrun
  have hl := runLoop_date_calendarOk inputs g (dateLocalsInit g) h
  unfold setDateConfig setDateConfigFrom at hrun
  split at hrun
  · rename_i g1 l1 why1 heq
    rw [heq] at hl
    simp only [Option.some.injEq, Prod.mk.injEq] at hrun
    obtain ⟨hg, _⟩ := hrun
    subst hg
    exact hl
  · cases hrun

/-- Instance of C4: stepping the month field up from 31 January clamps the day
to 28 February. -/
theorem calendarOk_invariant_witness :
    calendarOk 31 1 ∧
    ∃ l', dateIncrement { newDay := 31, newMonth := 1, activeField := 1,
                          bothPressStart := 0, flipStart := 0 } = some l' ∧
      calendarOk l'.newDay l'.newMonth :=
  ⟨by decide,
   calendarOk_invariant.2.2.1 { newDay := 31, newMonth := 1, activeField := 1,
                                bothPressStart := 0, flipStart := 0 } (by decide)⟩

/-! ## Long hold of S1 in the time display -/

theorem processButtonsRun_cons (g : Globals) (r : ButtonRead) (rest : List ButtonRead) :
    processButtonsRun g (r :: rest) =
      processButtonsRun (processButtons g r.s1Down r.s2Down r.now) rest := rfl

theorem processButtonsRun_append (g : Globals) (xs ys : List ButtonRead) :
    processButtonsRun g (xs ++ ys) = processButtonsRun (processButtonsRun g xs) ys := by
  simp [processButtonsRun, List.foldl_append]

theorem processButtonsRun_menu (reads : List ButtonRead) :
    ∀ g : Globals, g.currentState = WatchState.STATE_MENU →
      (processButtonsRun g reads).currentState = WatchState.STATE_MENU ∧
      (processButtonsRun g reads).selectedMenu = g.selectedMenu ∧
      (processButtonsRun g reads).enterMenuCalls = g.enterMenuCalls := by
  induction reads with
  | nil => intro g h; exact ⟨h, rfl, rfl⟩
  | cons r rest ih =>
    intro g h
    rw [processButtonsRun_cons, processButtons_menu g _ _ _ h]
    exact ih _ h

theorem processButtonsRun_holding (t0 : Nat) (mid : List ButtonRead) :
    ∀ g : Globals, g.currentState = WatchState.STATE_TIME_DISPLAY →
      g.s1Pressed = true → g.lastPressTimeS1 = t0 →
      (∀ m ∈ mid, m.s1Down = true ∧ u32sub m.now t0 < 2000) →
      (processButtonsRun g mid).currentState = WatchState.STATE_TIME_DISPLAY ∧
      (processButtonsRun g mid).s1Pressed = true ∧
      (processButtonsRun g mid).lastPressTimeS1 = t0 ∧
      (processButtonsRun g mid).selectedMenu = g.selectedMenu ∧
      (processButtonsRun g mid).enterMenuCalls = g.enterMenuCalls := by
  induction mid with
  | nil => intro g h1 h2 h3 _; exact ⟨h1, h2, h3, rfl, rfl⟩
  | cons r rest ih =>
    intro g h1 h2 h3 hm
    obtain ⟨hr1, hr2⟩ := hm r (List.mem_cons_self _ _)
    have hstep : processButtons g r.s1Down r.s2Down r.now =
        { g with lata8 := r.s1Down, lata9 := r.s2Down } := by
      have : ¬ (2000 ≤ u32sub r.now t0) := by omega
      simp [processButtons, h1, h2, h3, hr1, this]
    rw [processButtonsRun_cons, hstep]
    exact ih _ h1 h2 h3 (fun m hmem => hm m (List.mem_cons_of_mem _ hmem))

/-- C5: in TimeDisplay with S1 not yet seen pressed, let S1 be read pressed at
tick `t0` and on every later pass.  After the pass at `t0` and any passes at
ticks `t` with `t - t0 < 2000` (32-bit difference) the state is still
TimeDisplay and `enterMenu` has not been called; the first pass with
`t - t0 >= 2000` switches to Menu with the selection on the first item, by one
call of `enterMenu`; whatever passes follow, the state stays Menu, the
selection is untouched and `enterMenu` is not called again. -/
theorem processButtons_long_hold_enters_menu_once
    (g : Globals) (t0 : Nat) (s2 : Bool) (mid after : List ButtonRead) (r : ButtonRead)
    (hstate : g.currentState = WatchState.STATE_TIME_DISPLAY)
    (hfirst : g.s1Pressed = false)
    (hmid : ∀ m ∈ mid, m.s1Down = true ∧ u32sub m.now t0 < 2000)
    (hr : r.s1Down = true ∧ u32sub r.now t0 ≥ 2000) :
    ((processButtonsRun g ({ s1Down := true, s2Down := s2, now := t0 } :: mid)).currentState
        = WatchState.STATE_TIME_DISPLAY ∧
     (processButtonsRun g ({ s1Down := true, s2Down := s2, now := t0 } :: mid)).enterMenuCalls
        = g.enterMenuCalls) ∧
    ((processButtonsRun g ({ s1Down := true, s2Down := s2, now := t0 } :: mid ++ [r])).currentState
        = WatchState.STATE_MENU ∧
     (processButtonsRun g ({ s1Down := true, s2Down := s2, now := t0 } :: mid ++ [r])).selectedMenu
        = MENU_PEDOMETER ∧
     (processButtonsRun g ({ s1Down := true, s2Down := s2, now := t0 } :: mid ++ [r])).enterMenuCalls
        = g.enterMenuCalls + 1) ∧
    ((processButtonsRun g
        ({ s1Down := true, s2Down := s2, now := t0 } :: mid ++ r :: after)).currentState
        = WatchState.STATE_MENU ∧
     (processButtonsRun g
        ({ s1Down := true, s2Down := s2, now := t0 } :: mid ++ r :: after)).selectedMenu
        = MENU_PEDOMETER ∧
     (processButtonsRun g
        ({ s1Down := true, s2Down := s2, now := t0 } :: mid ++ r :: after)).enterMenuCalls
        = g.enterMenuCalls + 1) := by
  have hstep0 : processButtons g true s2 t0 =
      { g with lata8 := true, lata9 := s2, s1Pressed := true, lastPressTimeS1 := t0 } := by
    simp [processButtons, hstate, hfirst]
  obtain ⟨k1, k2, k3, k4, k5⟩ := processButtonsRun_holding t0 mid
    { g with lata8 := true, lata9 := s2, s1Pressed := true, lastPressTimeS1 := t0 }
    hstate rfl rfl hmid
  have hrun0 : processButtonsRun g ({ s1Down := true, s2Down := s2, now := t0 } :: mid) =
      processButtonsRun
        { g with lata8 := true, lata9 := s2, s1Pressed := true, lastPressTimeS1 := t0 } mid := by
    rw [processButtonsRun_cons, hstep0]
  have hexit : ∀ h : Globals, h.currentState = WatchState.STATE_TIME_DISPLAY →
      h.s1Pressed = true → h.lastPressTimeS1 = t0 →
      (processButtons h r.s1Down r.s2Down r.now).currentState = WatchState.STATE_MENU ∧
      (processButtons h r.s1Down r.s2Down r.now).selectedMenu = MENU_PEDOMETER ∧
      (processButtons h r.s1Down r.s2Down r.now).enterMenuCalls = h.enterMenuCalls + 1 := by
    intro h e1 e2 e3
    simp [processButtons, enterMenu, e1, e2, e3, hr.1, hr.2]
  obtain ⟨x1, x2, x3⟩ := hexit _ k1 k2 k3
  have happ : ∀ tail : List ButtonRead,
      processButtonsRun g ({ s1Down := true, s2Down := s2, now := t0 } :: mid ++ r :: tail) =
      processButtonsRun (processButtons
        (processButtonsRun
          { g with lata8 := true, lata9 := s2, s1Pressed := true, lastPressTimeS1 := t0 } mid)
        r.s1Down r.s2Down r.now) tail := by
    intro tail
    rw [← hrun0, ← processButtonsRun_cons, ← processButtonsRun_append]
  refine ⟨⟨?_, ?_⟩, ?_, ?_⟩
  · rw [hrun0]; exact k1
  · rw [hrun0]; exact k5
  · rw [happ []]
    exact ⟨x1, x2, x3.trans (congrArg (· + 1) k5)⟩
  · rw [happ after]
    obtain ⟨y1, y2, y3⟩ := processButtonsRun_menu after _ x1
    exact ⟨y1, y2.trans x2, y3.trans (x3.trans (congrArg (· + 1) k5))⟩

/-- Instance of C5: S1 first seen at tick 100 and held; the pass at tick 1000
does nothing, the pass at tick 2100 (exactly 2000 ms) enters the menu, the pass
at tick 2200 does not enter it again. -/
theorem processButtons_long_hold_enters_menu_once_witness :
    (processButtonsRun powerOn
      [{ s1Down := true, s2Down := false, now := 100 },
       { s1Down := true, s2Down := false, now := 1000 }]).currentState
        = WatchState.STATE_TIME_DISPLAY ∧
    (processButtonsRun powerOn
      [{ s1Down := true, s2Down := false, now := 100 },
       { s1Down := true, s2Down := false, now := 1000 },
       { s1Down := true, s2Down := false, now := 2100 },
       { s1Down := true, s2Down := false, now := 2200 }]).enterMenuCalls = 1 :=
  have h := processButtons_long_hold_enters_menu_once powerOn 100 false
    [{ s1Down := true, s2Down := false, now := 1000 }]
    [{ s1Down := true, s2Down := false, now := 2200 }]
    { s1Down := true, s2Down := false, now := 2100 } rfl rfl (by decide) (by decide)
  ⟨h.1.1, h.2.2.2.2⟩

/-! ## Modal loops: the long two-button combo -/

theorem runLoop_append {α : Type} (pass : Globals → α → PassInput → LoopState α)
    (xs ys : List PassInput) :
    ∀ (g g1 : Globals) (l l1 : α), runLoop pass g l xs = LoopState.running g1 l1 →
      runLoop pass g l (xs ++ ys) = runLoop pass g1 l1 ys := by
  induction xs with
  | nil =>
    intro g g1 l l1 h
    simp only [runLoop, LoopState.running.injEq] at h
    obtain ⟨hg, hl⟩ := h
    subst hg; subst hl; rfl
  | cons i rest ih =>
    intro g g1 l l1 h
    cases hpass : pass g l i with
    | running g2 l2 =>
      rw [runLoop_cons_running _ _ _ _ _ _ _ hpass] at h
      rw [List.cons_append, runLoop_cons_running _ _ _ _ _ _ _ hpass]
      exact ih g2 g1 l2 l1 h
    | exited g2 l2 why =>
      rw [runLoop_cons_exited _ _ _ _ _ _ _ _ hpass] at h; cases h
    | undefined =>
      rw [runLoop_cons_undefined _ _ _ _ _ hpass] at h; cases h

theorem setTimeConfigPass_combo_hold (g : Globals) (l : TimeLocals) (q : PassInput)
    (hb : l.bothPressStart ≠ 0) (h1 : q.s1Down = true) (h2 : q.s2Down = true)
    (hlt : u32sub q.nowCombo l.bothPressStart < 2000)
    (hnf : isDeviceFlipped q.zValue = false) :
    setTimeConfigPass g l q =
      LoopState.running (processButtons g q.pbS1 q.pbS2 q.pbNow) { l with flipStart := 0 } := by
  have : ¬ (2000 ≤ u32sub q.nowCombo l.bothPressStart) := by omega
  simp [setTimeConfigPass, h1, h2, hb, this, hnf]

theorem setTimeConfigPass_combo_exit (g : Globals) (l : TimeLocals) (p : PassInput)
    (hb : l.bothPressStart ≠ 0) (h1 : p.s1Down = true) (h2 : p.s2Down = true)
    (hge : u32sub p.nowCombo l.bothPressStart ≥ 2000) :
    setTimeConfigPass g l p =
      LoopState.exited (processButtons g p.pbS1 p.pbS2 p.pbNow) l LoopExit.combo := by
  simp [setTimeConfigPass, h1, h2, hb, hge]

theorem setDateConfigPass_combo_hold (g : Globals) (l : DateLocals) (q : PassInput)
    (hb : l.bothPressStart ≠ 0) (h1 : q.s1Down = true) (h2 : q.s2Down = true)
    (hlt : u32sub q.nowCombo l.bothPressStart < 2000)
    (hnf : isDeviceFlipped q.zValue = false) :
    setDateConfigPass g l q =
      LoopState.running (processButtons g q.pbS1 q.pbS2 q.pbNow) { l with flipStart := 0 } := by
  have : ¬ (2000 ≤ u32sub q.nowCombo l.bothPressStart) := by omega
  simp [setDateConfigPass, h1, h2, hb, this, hnf]

theorem setDateConfigPass_combo_exit (g : Globals) (l : DateLocals) (p : PassInput)
    (hb : l.bothPressStart ≠ 0) (h1 : p.s1Down = true) (h2 : p.s2Down = true)
    (hge : u32sub p.nowCombo l.bothPressStart ≥ 2000) :
    setDateConfigPass g l p =
      LoopState.exited (processButtons g p.pbS1 p.pbS2 p.pbNow) l LoopExit.combo := by
  simp [setDateConfigPass, h1, h2, hb, hge]

theorem processButtons_menu_fields (g : Globals) (a b : Bool) (t : Nat)
    (h : g.currentState = WatchState.STATE_MENU) :
    (processButtons g a b t).currentState = WatchState.STATE_MENU ∧
    (processButtons g a b t).ampmStr = g.ampmStr ∧
    (processButtons g a b t).hours = g.hours ∧
    (processButtons g a b t).minutes = g.minutes ∧
    (processButtons g a b t).seconds = g.seconds ∧
    (processButtons g a b t).day = g.day ∧
    (processButtons g a b t).month = g.month := by
  rw [processButtons_menu g a b t h]
  exact ⟨h, rfl, rfl, rfl, rfl, rfl, rfl⟩

theorem runLoop_time_combo_hold (b : Nat) (hb : b ≠ 0) (pre : List PassInput) :
    ∀ (g : Globals) (l : TimeLocals), g.currentState = WatchState.STATE_MENU →
      l.bothPressStart = b →
      (∀ q ∈ pre, q.s1Down = true ∧ q.s2Down = true ∧ u32sub q.nowCombo b < 2000 ∧
        isDeviceFlipped q.zValue = false) →
      ∃ g1 l1, runLoop setTimeConfigPass g l pre = LoopState.running g1 l1 ∧
        g1.currentState = WatchState.STATE_MENU ∧ g1.ampmStr = g.ampmStr ∧
        l1.newHour = l.newHour ∧ l1.newMinute = l.newMinute ∧ l1.bothPressStart = b := by
  induction pre with
  | nil => intro g l hm hl _; exact ⟨g, l, rfl, hm, rfl, rfl, rfl, hl⟩
  | cons q rest ih =>
    intro g l hm hl hq
    obtain ⟨q1, q2, q3, q4⟩ := hq q (List.mem_cons_self _ _)
    have hpass := setTimeConfigPass_combo_hold g l q (hl ▸ hb) q1 q2 (hl ▸ q3) q4
    obtain ⟨f1, f2, _⟩ := processButtons_menu_fields g q.pbS1 q.pbS2 q.pbNow hm
    obtain ⟨g1, l1, r1, r2, r3, r4, r5, r6⟩ := ih (processButtons g q.pbS1 q.pbS2 q.pbNow)
      { l with flipStart := 0 } f1 hl (fun x hx => hq x (List.mem_cons_of_mem _ hx))
    refine ⟨g1, l1, ?_, r2, r3.trans f2, r4, r5, r6⟩
    rw [runLoop_cons_running _ _ _ _ _ _ _ hpass]
    exact r1

theorem runLoop_date_combo_hold (b : Nat) (hb : b ≠ 0) (pre : List PassInput) :
    ∀ (g : Globals) (l : DateLocals), g.currentState = WatchState.STATE_MENU →
      l.bothPressStart = b →
      (∀ q ∈ pre, q.s1Down = true ∧ q.s2Down = true ∧ u32sub q.nowCombo b < 2000 ∧
        isDeviceFlipped q.zValue = false) →
      ∃ g1 l1, runLoop setDateConfigPass g l pre = LoopState.running g1 l1 ∧
        g1.currentState = WatchState.STATE_MENU ∧
        l1.newDay = l.newDay ∧ l1.newMonth = l.newMonth ∧ l1.bothPressStart = b := by
  induction pre with
  | nil => intro g l hm hl _; exact ⟨g, l, rfl, hm, rfl, rfl, hl⟩
  | cons q rest ih =>
    intro g l hm hl hq
    obtain ⟨q1, q2, q3, q4⟩ := hq q (List.mem_cons_self _ _)
    have hpass := setDateConfigPass_combo_hold g l q (hl ▸ hb) q1 q2 (hl ▸ q3) q4
    obtain ⟨f1, _⟩ := processButtons_menu_fields g q.pbS1 q.pbS2 q.pbNow hm
    obtain ⟨g1, l1, r1, r2, r3, r4, r5⟩ := ih (processButtons g q.pbS1 q.pbS2 q.pbNow)
      { l with flipStart := 0 } f1 hl (fun x hx => hq x (List.mem_cons_of_mem _ hx))
    refine ⟨g1, l1, ?_, r2, r3, r4, r5⟩
    rw [runLoop_cons_running _ _ _ _ _ _ _ hpass]
    exact r1

theorem setTimeConfigPass_combo_start (g : Globals) (l : TimeLocals) (p0 : PassInput)
    (hb : l.bothPressStart = 0) (h1 : p0.s1Down = true) (h2 : p0.s2Down = true)
    (hnf : isDeviceFlipped p0.zValue = false) :
    setTimeConfigPass g l p0 =
      LoopState.running (processButtons g p0.pbS1 p0.pbS2 p0.pbNow)
        { l with bothPressStart := p0.nowCombo, flipStart := 0 } := by
  simp [setTimeConfigPass, h1, h2, hb, hnf]

theorem setDateConfigPass_combo_start (g : Globals) (l : DateLocals) (p0 : PassInput)
    (hb : l.bothPressStart = 0) (h1 : p0.s1Down = true) (h2 : p0.s2Down = true)
    (hnf : isDeviceFlipped p0.zValue = false) :
    setDateConfigPass g l p0 =
      LoopState.running (processButtons g p0.pbS1 p0.pbS2 p0.pbNow)
        { l with bothPressStart := p0.nowCombo, flipStart := 0 } := by
  simp [setDateConfigPass, h1, h2, hb, hnf]

theorem setTimeCommit_fields (g : Globals) (l : TimeLocals)
    (h12 : g.ampmStr ≠ AmPm.blank → l.newHour ≤ 12) :
    (setTimeCommit g l).hours = l.newHour ∧ (setTimeCommit g l).minutes = l.newMinute ∧
    (setTimeCommit g l).seconds = 0 ∧ (setTimeCommit g l).currentState = g.currentState ∧
    (setTimeCommit g l).ampmStr =
      (if g.ampmStr = AmPm.blank then AmPm.blank
       else if l.newHour = 12 then AmPm.PM else AmPm.AM) := by
  unfold setTimeCommit
  by_cases hb : g.ampmStr = AmPm.blank
  · simp [hb]
  · have hle := h12 hb
    by_cases h : l.newHour = 12
    · simp [hb, h]
    · have hlt : l.newHour < 12 := by omega
      simp [hb, h, hlt]

theorem runLoop_append_exited {α : Type} (pass : Globals → α → PassInput → LoopState α)
    (xs ys : List PassInput) :
    ∀ (g g1 : Globals) (l l1 : α) (why : LoopExit),
      runLoop pass g l xs = LoopState.exited g1 l1 why →
      runLoop pass g l (xs ++ ys) = LoopState.exited g1 l1 why := by
  induction xs with
  | nil =>
    intro g g1 l l1 why h
    simp only [runLoop] at h
    cases h
  | cons i rest ih =>
    intro g g1 l l1 why h
    cases hpass : pass g l i with
    | running g2 l2 =>
      rw [runLoop_cons_running _ _ _ _ _ _ _ hpass] at h
      rw [List.cons_append, runLoop_cons_running _ _ _ _ _ _ _ hpass]
      exact ih g2 g1 l2 l1 why h
    | exited g2 l2 why2 =>
      rw [runLoop_cons_exited _ _ _ _ _ _ _ _ hpass] at h
      rw [List.cons_append, runLoop_cons_exited _ _ _ _ _ _ _ _ hpass]
      exact h
    | undefined =>
      rw [runLoop_cons_undefined _ _ _ _ _ hpass] at h; cases h

theorem setTimeConfigPass_combo_hold_flip (g : Globals) (l : TimeLocals) (q : PassInput)
    (hb : l.bothPressStart ≠ 0) (h1 : q.s1Down = true) (h2 : q.s2Down = true)
    (hlt : u32sub q.nowCombo l.bothPressStart < 2000) :
    setTimeConfigPass g l q =
      match flipBlock l.flipStart q with
      | none => LoopState.exited (processButtons g q.pbS1 q.pbS2 q.pbNow) l LoopExit.flip
      | some f => LoopState.running (processButtons g q.pbS1 q.pbS2 q.pbNow)
          { l with flipStart := f } := by
  have hn : ¬ (2000 ≤ u32sub q.nowCombo l.bothPressStart) := by omega
  unfold flipBlock
  simp only [setTimeConfigPass, h1, h2, hb, hn, Bool.and_self, if_true, if_false,
    Bool.not_true, Bool.and_false, Bool.false_eq_true, ge_iff_le]
  split_ifs <;> rfl

theorem setTimeConfigPass_combo_start_flip (g : Globals) (l : TimeLocals) (q : PassInput)
    (hb : l.bothPressStart = 0) (h1 : q.s1Down = true) (h2 : q.s2Down = true) :
    setTimeConfigPass g l q =
      match flipBlock l.flipStart q with
      | none => LoopState.exited (processButtons g q.pbS1 q.pbS2 q.pbNow)
          { l with bothPressStart := q.nowCombo } LoopExit.flip
      | some f => LoopState.running (processButtons g q.pbS1 q.pbS2 q.pbNow)
          { l with bothPressStart := q.nowCombo, flipStart := f } := by
  unfold flipBlock
  simp only [setTimeConfigPass, h1, h2, hb, Bool.and_self, if_true, if_false,
    Bool.not_true, Bool.and_false, Bool.false_eq_true, ge_iff_le]
  split_ifs <;> rfl

theorem setDateConfigPass_combo_hold_flip (g : Globals) (l : DateLocals) (q : PassInput)
    (hb : l.bothPressStart ≠ 0) (h1 : q.s1Down = true) (h2 : q.s2Down = true)
    (hlt : u32sub q.nowCombo l.bothPressStart < 2000) :
    setDateConfigPass g l q =
      match flipBlock l.flipStart q with
      | none => LoopState.exited (processButtons g q.pbS1 q.pbS2 q.pbNow) l LoopExit.flip
      | some f => LoopState.running (processButtons g q.pbS1 q.pbS2 q.pbNow)
          { l with flipStart := f } := by
  have hn : ¬ (2000 ≤ u32sub q.nowCombo l.bothPressStart) := by omega
  unfold flipBlock
  simp only [setDateConfigPass, h1, h2, hb, hn, Bool.and_self, if_true, if_false,
    Bool.not_true, Bool.and_false, Bool.false_eq_true, ge_iff_le]
  split_ifs <;> rfl

theorem setDateConfigPass_combo_start_flip (g : Globals) (l : DateLocals) (q : PassInput)
    (hb : l.bothPressStart = 0) (h1 : q.s1Down = true) (h2 : q.s2Down = true) :
    setDateConfigPass g l q =
      match flipBlock l.flipStart q with
      | none => LoopState.exited (processButtons g q.pbS1 q.pbS2 q.pbNow)
          { l with bothPressStart := q.nowCombo } LoopExit.flip
      | some f => LoopState.running (processButtons g q.pbS1 q.pbS2 q.pbNow)
          { l with bothPressStart := q.nowCombo, flipStart := f } := by
  unfold flipBlock
  simp only [setDateConfigPass, h1, h2, hb, Bool.and_self, if_true, if_false,
    Bool.not_true, Bool.and_false, Bool.false_eq_true, ge_iff_le]
  split_ifs <;> rfl

theorem runLoop_time_combo_hold_flip (b : Nat) (hb : b ≠ 0) (pre : List PassInput) :
    ∀ (g : Globals) (l : TimeLocals), g.currentState = WatchState.STATE_MENU →
      l.bothPressStart = b →
      (∀ q ∈ pre, q.s1Down = true ∧ q.s2Down = true ∧ u32sub q.nowCombo b < 2000) →
      ∃ g1 l1, g1.currentState = WatchState.STATE_MENU ∧ g1.ampmStr = g.ampmStr ∧
        l1.newHour = l.newHour ∧ l1.newMinute = l.newMinute ∧ l1.bothPressStart = b ∧
        ((flipBlockRun l.flipStart pre ≠ none ∧
            runLoop setTimeConfigPass g l pre = LoopState.running g1 l1) ∨
         (flipBlockRun l.flipStart pre = none ∧
            runLoop setTimeConfigPass g l pre = LoopState.exited g1 l1 LoopExit.flip)) := by
  induction pre with
  | nil =>
    intro g l hm hl _
    exact ⟨g, l, hm, rfl, rfl, rfl, hl, Or.inl ⟨by simp [flipBlockRun], rfl⟩⟩
  | cons q rest ih =>
    intro g l hm hl hq
    obtain ⟨q1, q2, q3⟩ := hq q (List.mem_cons_self _ _)
    have hpass := setTimeConfigPass_combo_hold_flip g l q (hl ▸ hb) q1 q2 (hl ▸ q3)
    obtain ⟨f1, f2, _⟩ := processButtons_menu_fields g q.pbS1 q.pbS2 q.pbNow hm
    cases hfb : flipBlock l.flipStart q with
    | none =>
      rw [hfb] at hpass
      refine ⟨processButtons g q.pbS1 q.pbS2 q.pbNow, l, f1, f2, rfl, rfl, hl, Or.inr ⟨?_, ?_⟩⟩
      · simp [flipBlockRun, hfb]
      · rw [runLoop_cons_exited _ _ _ _ _ _ _ _ hpass]
    | some f =>
      rw [hfb] at hpass
      obtain ⟨g1, l1, r1, r2, r3, r4, r5, r6⟩ := ih (processButtons g q.pbS1 q.pbS2 q.pbNow)
        { l with flipStart := f } f1 hl (fun x hx => hq x (List.mem_cons_of_mem _ hx))
      have hrun : flipBlockRun l.flipStart (q :: rest) = flipBlockRun f rest := by
        simp [flipBlockRun, hfb]
      refine ⟨g1, l1, r1, r2.trans f2, r3, r4, r5, ?_⟩
      rw [hrun, runLoop_cons_running _ _ _ _ _ _ _ hpass]
      exact r6

theorem runLoop_date_combo_hold_flip (b : Nat) (hb : b ≠ 0) (pre : List PassInput) :
    ∀ (g : Globals) (l : DateLocals), g.currentState = WatchState.STATE_MENU →
      l.bothPressStart = b →
      (∀ q ∈ pre, q.s1Down = true ∧ q.s2Down = true ∧ u32sub q.nowCombo b < 2000) →
      ∃ g1 l1, g1.currentState = WatchState.STATE_MENU ∧
        l1.newDay = l.newDay ∧ l1.newMonth = l.newMonth ∧ l1.bothPressStart = b ∧
        ((flipBlockRun l.flipStart pre ≠ none ∧
            runLoop setDateConfigPass g l pre = LoopState.running g1 l1) ∨
         (flipBlockRun l.flipStart pre = none ∧
            runLoop setDateConfigPass g l pre = LoopState.exited g1 l1 LoopExit.flip)) := by
  induction pre with
  | nil =>
    intro g l hm hl _
    exact ⟨g, l, hm, rfl, rfl, hl, Or.inl ⟨by simp [flipBlockRun], rfl⟩⟩
  | cons q rest ih =>
    intro g l hm hl hq
    obtain ⟨q1, q2, q3⟩ := hq q (List.mem_cons_self _ _)
    have hpass := setDateConfigPass_combo_hold_flip g l q (hl ▸ hb) q1 q2 (hl ▸ q3)
    obtain ⟨f1, _⟩ := processButtons_menu_fields g q.pbS1 q.pbS2 q.pbNow hm
    cases hfb : flipBlock l.flipStart q with
    | none =>
      rw [hfb] at hpass
      refine ⟨processButtons g q.pbS1 q.pbS2 q.pbNow, l, f1, rfl, rfl, hl, Or.inr ⟨?_, ?_⟩⟩
      · simp [flipBlockRun, hfb]
      · rw [runLoop_cons_exited _ _ _ _ _ _ _ _ hpass]
    | some f =>
      rw [hfb] at hpass
      obtain ⟨g1, l1, r1, r3, r4, r5, r6⟩ := ih (processButtons g q.pbS1 q.pbS2 q.pbNow)
        { l with flipStart := f } f1 hl (fun x hx => hq x (List.mem_cons_of_mem _ hx))
      have hrun : flipBlockRun l.flipStart (q :: rest) = flipBlockRun f rest := by
        simp [flipBlockRun, hfb]
      refine ⟨g1, l1, r1, r3, r4, r5, ?_⟩
      rw [hrun, runLoop_cons_running _ _ _ _ _ _ _ hpass]
      exact r6

theorem runLoop_time_combo_from_start (p0 : PassInput) (pre : List PassInput)
    (g : Globals) (l : TimeLocals) (hm : g.currentState = WatchState.STATE_MENU)
    (hl : l.bothPressStart = 0)
    (h0 : p0.s1Down = true ∧ p0.s2Down = true ∧ p0.nowCombo ≠ 0)
    (hpre : ∀ q ∈ pre, q.s1Down = true ∧ q.s2Down = true ∧
      u32sub q.nowCombo p0.nowCombo < 2000) :
    ∃ g1 l1, g1.currentState = WatchState.STATE_MENU ∧ g1.ampmStr = g.ampmStr ∧
      l1.newHour = l.newHour ∧ l1.newMinute = l.newMinute ∧
      l1.bothPressStart = p0.nowCombo ∧
      ((flipBlockRun l.flipStart (p0 :: pre) ≠ none ∧
          runLoop setTimeConfigPass g l (p0 :: pre) = LoopState.running g1 l1) ∨
       (flipBlockRun l.flipStart (p0 :: pre) = none ∧
          runLoop setTimeConfigPass g l (p0 :: pre) = LoopState.exited g1 l1 LoopExit.flip)) := by
  obtain ⟨a1, a2, a3⟩ := h0
  have hpass := setTimeConfigPass_combo_start_flip g l p0 hl a1 a2
  obtain ⟨f1, f2, _⟩ := processButtons_menu_fields g p0.pbS1 p0.pbS2 p0.pbNow hm
  cases hfb : flipBlock l.flipStart p0 with
  | none =>
    rw [hfb] at hpass
    refine ⟨processButtons g p0.pbS1 p0.pbS2 p0.pbNow, { l with bothPressStart := p0.nowCombo },
      f1, f2, rfl, rfl, rfl, Or.inr ⟨?_, ?_⟩⟩
    · simp [flipBlockRun, hfb]
    · rw [runLoop_cons_exited _ _ _ _ _ _ _ _ hpass]
  | some f =>
    rw [hfb] at hpass
    obtain ⟨g1, l1, r1, r2, r3, r4, r5, r6⟩ := runLoop_time_combo_hold_flip p0.nowCombo a3 pre
      (processButtons g p0.pbS1 p0.pbS2 p0.pbNow)
      { l with bothPressStart := p0.nowCombo, flipStart := f } f1 rfl hpre
    have hrun : flipBlockRun l.flipStart (p0 :: pre) = flipBlockRun f pre := by
      simp [flipBlockRun, hfb]
    refine ⟨g1, l1, r1, r2.trans f2, r3, r4, r5, ?_⟩
    rw [hrun, runLoop_cons_running _ _ _ _ _ _ _ hpass]
    exact r6

theorem runLoop_date_combo_from_start (p0 : PassInput) (pre : List PassInput)
    (g : Globals) (l : DateLocals) (hm : g.currentState = WatchState.STATE_MENU)
    (hl : l.bothPressStart = 0)
    (h0 : p0.s1Down = true ∧ p0.s2Down = true ∧ p0.nowCombo ≠ 0)
    (hpre : ∀ q ∈ pre, q.s1Down = true ∧ q.s2Down = true ∧
      u32sub q.nowCombo p0.nowCombo < 2000) :
    ∃ g1 l1, g1.currentState = WatchState.STATE_MENU ∧
      l1.newDay = l.newDay ∧ l1.newMonth = l.newMonth ∧
      l1.bothPressStart = p0.nowCombo ∧
      ((flipBlockRun l.flipStart (p0 :: pre) ≠ none ∧
          runLoop setDateConfigPass g l (p0 :: pre) = LoopState.running g1 l1) ∨
       (flipBlockRun l.flipStart (p0 :: pre) = none ∧
          runLoop setDateConfigPass g l (p0 :: pre) = LoopState.exited g1 l1 LoopExit.flip)) := by
  obtain ⟨a1, a2, a3⟩ := h0
  have hpass := setDateConfigPass_combo_start_flip g l p0 hl a1 a2
  obtain ⟨f1, _⟩ := processButtons_menu_fields g p0.pbS1 p0.pbS2 p0.pbNow hm
  cases hfb : flipBlock l.flipStart p0 with
  | none =>
    rw [hfb] at hpass
    refine ⟨processButtons g p0.pbS1 p0.pbS2 p0.pbNow, { l with bothPressStart := p0.nowCombo },
      f1, rfl, rfl, rfl, Or.inr ⟨?_, ?_⟩⟩
    · simp [flipBlockRun, hfb]
    · rw [runLoop_cons_exited _ _ _ _ _ _ _ _ hpass]
  | some f =>
    rw [hfb] at hpass
    obtain ⟨g1, l1, r1, r3, r4, r5, r6⟩ := runLoop_date_combo_hold_flip p0.nowCombo a3 pre
      (processButtons g p0.pbS1 p0.pbS2 p0.pbNow)
      { l with bothPressStart := p0.nowCombo, flipStart := f } f1 rfl hpre
    have hrun : flipBlockRun l.flipStart (p0 :: pre) = flipBlockRun f pre := by
      simp [flipBlockRun, hfb]
    refine ⟨g1, l1, r1, r3, r4, r5, ?_⟩
    rw [hrun, runLoop_cons_running _ _ _ _ _ _ _ hpass]
    exact r6

/-- C6 (counterexample): both modal loops entered from the menu; the device is
read flipped from tick 100 on, and both buttons are read pressed at ticks 1000
and 2100.  The combo start is 1000, so only 1100 ms have elapsed at tick 2100,
yet the loop is left in that pass, through the flip `break`. -/
theorem modal_combo_cut_short_by_flip :
    u32sub 2100 1000 < 2000 ∧
    runLoop setTimeConfigPass menuPowerOn (timeLocalsInit menuPowerOn)
        [flipOnly 100, pressBothFlipped 1000, pressBothFlipped 2100] =
      LoopState.exited { menuPowerOn with lata8 := true, lata9 := true }
        { newHour := 12, newMinute := 0, activeField := 0, bothPressStart := 1000,
          flipStart := 100 } LoopExit.flip ∧
    runLoop setDateConfigPass menuPowerOn (dateLocalsInit menuPowerOn)
        [flipOnly 100, pressBothFlipped 1000, pressBothFlipped 2100] =
      LoopState.exited { menuPowerOn with lata8 := true, lata9 := true }
        { newDay := 1, newMonth := 1, activeField := 0, bothPressStart := 1000,
          flipStart := 100 } LoopExit.flip := by
  decide

/-- C6 (amended): in the loops of `setTimeConfig` and `setDateConfig` (entered
from the menu), let both buttons be read pressed on successive passes: a pass
`p0` that records the combo start (a non-zero tick), passes `pre` at which less
than 2000 ms have elapsed since that start, then a pass `p` at which at least
2000 ms have elapsed.  The loop never leaves through the combo `break` during
`p0` and `pre`.  If the flip blocks of `p0` and `pre` do not complete a flip
gesture, the loop is still running after them, it exits at `p` through the
combo `break`, and after the function returns hours/minutes (respectively
day/month) hold the working values and the state is still Menu.  If they do
complete one, the loop has left through the flip `break` before `p`, and the
working values are stored and the state is still Menu as well.  In 12-hour
mode the working hour is assumed to be at most 12. -/
theorem modal_long_combo_confirms
    (g : Globals) (p0 p : PassInput) (pre rest : List PassInput)
    (hmenu : g.currentState = WatchState.STATE_MENU)
    (h0 : p0.s1Down = true ∧ p0.s2Down = true ∧ p0.nowCombo ≠ 0)
    (hpre : ∀ q ∈ pre, q.s1Down = true ∧ q.s2Down = true ∧
      u32sub q.nowCombo p0.nowCombo < 2000)
    (hp : p.s1Down = true ∧ p.s2Down = true ∧ u32sub p.nowCombo p0.nowCombo ≥ 2000) :
    (∀ lt : TimeLocals, lt.bothPressStart = 0 →
      (g.ampmStr ≠ AmPm.blank → lt.newHour ≤ 12) →
      (∀ g1 l1, runLoop setTimeConfigPass g lt (p0 :: pre) ≠
        LoopState.exited g1 l1 LoopExit.combo) ∧
      (flipBlockRun lt.flipStart (p0 :: pre) ≠ none →
        (∃ g1 l1, runLoop setTimeConfigPass g lt (p0 :: pre) = LoopState.running g1 l1) ∧
        ∃ g', setTimeConfigFrom g lt (p0 :: pre ++ p :: rest) = some (g', LoopExit.combo) ∧
          g'.hours = lt.newHour ∧ g'.minutes = lt.newMinute ∧
          g'.currentState = WatchState.STATE_MENU) ∧
      (flipBlockRun lt.flipStart (p0 :: pre) = none →
        ∃ g', setTimeConfigFrom g lt (p0 :: pre ++ p :: rest) = some (g', LoopExit.flip) ∧
          g'.hours = lt.newHour ∧ g'.minutes = lt.newMinute ∧
          g'.currentState = WatchState.STATE_MENU)) ∧
    (∀ ld : DateLocals, ld.bothPressStart = 0 →
      (∀ g1 l1, runLoop setDateConfigPass g ld (p0 :: pre) ≠
        LoopState.exited g1 l1 LoopExit.combo) ∧
      (flipBlockRun ld.flipStart (p0 :: pre) ≠ none →
        (∃ g1 l1, runLoop setDateConfigPass g ld (p0 :: pre) = LoopState.running g1 l1) ∧
        ∃ g', setDateConfigFrom g ld (p0 :: pre ++ p :: rest) = some (g', LoopExit.combo) ∧
          g'.day = ld.newDay ∧ g'.month = ld.newMonth ∧
          g'.currentState = WatchState.STATE_MENU) ∧
      (flipBlockRun ld.flipStart (p0 :: pre) = none →
        ∃ g', setDateConfigFrom g ld (p0 :: pre ++ p :: rest) = some (g', LoopExit.flip) ∧
          g'.day = ld.newDay ∧ g'.month = ld.newMonth ∧
          g'.currentState = WatchState.STATE_MENU)) := by
  obtain ⟨b1, b2, b3⟩ := hp
  have a3 : p0.nowCombo ≠ 0 := h0.2.2
  constructor
  · intro lt hlt h12
    obtain ⟨g1, l1, r2, r3, r4, r5, r6, hcase⟩ :=
      runLoop_time_combo_from_start p0 pre g lt hmenu hlt h0 hpre
    have h12' : ∀ gx : Globals, gx.ampmStr = g1.ampmStr → gx.ampmStr ≠ AmPm.blank →
        l1.newHour ≤ 12 := by
      intro gx hgx hne
      rw [r4]
      apply h12
      rw [← r3, ← hgx]
      exact hne
    refine ⟨?_, ?_, ?_⟩
    · intro ga la h
      rcases hcase with ⟨_, hr⟩ | ⟨_, hr⟩ <;> rw [hr] at h <;> cases h
    · intro hne
      have hrun : runLoop setTimeConfigPass g lt (p0 :: pre) = LoopState.running g1 l1 := by
        rcases hcase with ⟨_, hr⟩ | ⟨hn, _⟩
        · exact hr
        · exact absurd hn hne
      refine ⟨⟨g1, l1, hrun⟩, ?_⟩
      have hexit := setTimeConfigPass_combo_exit g1 l1 p (r6 ▸ a3) b1 b2 (r6 ▸ b3)
      have hall : runLoop setTimeConfigPass g lt (p0 :: pre ++ p :: rest) =
          LoopState.exited (processButtons g1 p.pbS1 p.pbS2 p.pbNow) l1 LoopExit.combo := by
        rw [runLoop_append _ _ _ _ _ _ _ hrun,
          runLoop_cons_exited _ _ _ _ _ _ _ _ hexit]
      obtain ⟨e1, e2, _⟩ := processButtons_menu_fields g1 p.pbS1 p.pbS2 p.pbNow r2
      obtain ⟨c1, c2, _, c4, _⟩ :=
        setTimeCommit_fields (processButtons g1 p.pbS1 p.pbS2 p.pbNow) l1 (h12' _ e2)
      refine ⟨setTimeCommit (processButtons g1 p.pbS1 p.pbS2 p.pbNow) l1, ?_, ?_, ?_, ?_⟩
      · simp only [setTimeConfigFrom, hall]
      · rw [c1]; exact r4
      · rw [c2]; exact r5
      · rw [c4]; exact e1
    · intro hnone
      have hrun : runLoop setTimeConfigPass g lt (p0 :: pre) =
          LoopState.exited g1 l1 LoopExit.flip := by
        rcases hcase with ⟨hn, _⟩ | ⟨_, hr⟩
        · exact absurd hnone hn
        · exact hr
      have hall : runLoop setTimeConfigPass g lt (p0 :: pre ++ p :: rest) =
          LoopState.exited g1 l1 LoopExit.flip := by
        have := runLoop_append_exited setTimeConfigPass (p0 :: pre) (p :: rest) _ _ _ _ _ hrun
        simpa using this
      obtain ⟨c1, c2, _, c4, _⟩ := setTimeCommit_fields g1 l1 (h12' g1 rfl)
      refine ⟨setTimeCommit g1 l1, ?_, ?_, ?_, ?_⟩
      · simp only [setTimeConfigFrom, hall]
      · rw [c1]; exact r4
      · rw [c2]; exact r5
      · rw [c4]; exact r2
  · intro ld hld
    obtain ⟨g1, l1, r2, r3, r4, r5, hcase⟩ :=
      runLoop_date_combo_from_start p0 pre g ld hmenu hld h0 hpre
    refine ⟨?_, ?_, ?_⟩
    · intro ga la h
      rcases hcase with ⟨_, hr⟩ | ⟨_, hr⟩ <;> rw [hr] at h <;> cases h
    · intro hne
      have hrun : runLoop setDateConfigPass g ld (p0 :: pre) = LoopState.running g1 l1 := by
        rcases hcase with ⟨_, hr⟩ | ⟨hn, _⟩
        · exact hr
        · exact absurd hn hne
      refine ⟨⟨g1, l1, hrun⟩, ?_⟩
      have hexit := setDateConfigPass_combo_exit g1 l1 p (r5 ▸ a3) b1 b2 (r5 ▸ b3)
      have hall : runLoop setDateConfigPass g ld (p0 :: pre ++ p :: rest) =
          LoopState.exited (processButtons g1 p.pbS1 p.pbS2 p.pbNow) l1 LoopExit.combo := by
        rw [runLoop_append _ _ _ _ _ _ _ hrun,
          runLoop_cons_exited _ _ _ _ _ _ _ _ hexit]
      obtain ⟨e1, _⟩ := processButtons_menu_fields g1 p.pbS1 p.pbS2 p.pbNow r2
      refine ⟨setDateCommit (processButtons g1 p.pbS1 p.pbS2 p.pbNow) l1, ?_, r3, r4, e1⟩
      simp only [setDateConfigFrom, hall]
    · intro hnone
      have hrun : runLoop setDateConfigPass g ld (p0 :: pre) =
          LoopState.exited g1 l1 LoopExit.flip := by
        rcases hcase with ⟨hn, _⟩ | ⟨_, hr⟩
        · exact absurd hnone hn
        · exact hr
      have hall : runLoop setDateConfigPass g ld (p0 :: pre ++ p :: rest) =
          LoopState.exited g1 l1 LoopExit.flip := by
        have := runLoop_append_exited setDateConfigPass (p0 :: pre) (p :: rest) _ _ _ _ _ hrun
        simpa using this
      refine ⟨setDateCommit g1 l1, ?_, r3, r4, r2⟩
      simp only [setDateConfigFrom, hall]

/-- Instance of C6 (amended) in `setDateConfig`: combo recorded at tick 100,
still held at tick 1000, device upright throughout; exit at tick 2100 through
the combo `break` with the working date 15/6 stored. -/
theorem modal_long_combo_confirms_witness :
    ∃ g', setDateConfigFrom menuPowerOn
        { newDay := 15, newMonth := 6, activeField := 0, bothPressStart := 0, flipStart := 0 }
        [pressBoth 100, pressBoth 1000, pressBoth 2100] = some (g', LoopExit.combo) ∧
      g'.day = 15 ∧ g'.month = 6 ∧ g'.currentState = WatchState.STATE_MENU :=
  ((((modal_long_combo_confirms menuPowerOn (pressBoth 100) (pressBoth 2100) [pressBoth 1000] []
      rfl (by decide) (by decide) (by decide)).2
    { newDay := 15, newMonth := 6, activeField := 0, bothPressStart := 0, flipStart := 0 }
    rfl).2.1) (by decide)).2

/-! ## Modal loops: the flip exit -/

theorem wrapInt_of_small (w : Nat) (z : Int) (hw : 1 ≤ w) (h0 : 0 ≤ z)
    (h1 : z < 2 ^ (w - 1)) : wrapInt w z = z := by
  unfold wrapInt
  have hpow : (2 : Int) ^ w = 2 * 2 ^ (w - 1) := by
    obtain ⟨k, rfl⟩ : ∃ k, w = k + 1 := ⟨w - 1, by omega⟩
    simp [pow_succ, mul_comm]
  have hpos : (0 : Int) < 2 ^ (w - 1) := by positivity
  rw [Int.emod_eq_of_lt (by omega) (by omega)]
  omega

theorem two_pow_ge_of_16 (w : Nat) (hw : 16 ≤ w) : (32768 : Int) ≤ 2 ^ (w - 1) := by
  have h : (2 : Int) ^ 15 ≤ 2 ^ (w - 1) :=
    pow_le_pow_right₀ (by norm_num) (by omega)
  norm_num at h
  exact h

theorem toU32_add (a : Nat) (d : Int) (hd : 0 < d) :
    u32 (a + toU32 d) = u32 (a + d.toNat) := by
  unfold u32 toU32
  obtain ⟨n, rfl⟩ : ∃ n : Nat, d = (n : Int) := ⟨d.toNat, by omega⟩
  have : ((n : Int) % 4294967296).toNat = n % 4294967296 := by omega
  rw [this]
  simp only [Int.toNat_ofNat]
  omega

theorem stepDetected_of_exceeds (w : Nat) (g : Globals) (x y z : Int)
    (h : cAbs w (x - g.lastX) > STEP_THRESHOLD ∨ cAbs w (y - g.lastY) > STEP_THRESHOLD ∨
      cAbs w (z - g.lastZ) > STEP_THRESHOLD) :
    stepDetected w g x y z = true := by
  unfold stepDetected
  rcases h with h | h | h <;> simp [h]

theorem registerSample_of_step (w : Nat) (g : Globals) (x y z : Int)
    (h : stepDetected w g x y z = true) :
    registerSample w g x y z =
      { g with stepCount := u32 (g.stepCount + 1), lastX := x, lastY := y, lastZ := z } := by
  simp [registerSample, h]

theorem registerSample_frame (w : Nat) (g : Globals) (x y z : Int) :
    (registerSample w g x y z).lastStepTime = g.lastStepTime ∧
    (registerSample w g x y z).stepArray = g.stepArray ∧
    (registerSample w g x y z).stepIndex = g.stepIndex ∧
    (registerSample w g x y z).totalSteps = g.totalSteps ∧
    (registerSample w g x y z).currentPace = g.currentPace ∧
    (registerSample w g x y z).footToggle = g.footToggle ∧
    (registerSample w g x y z).decayTimer = g.decayTimer := by
  unfold registerSample
  split <;> exact ⟨rfl, rfl, rfl, rfl, rfl, rfl, rfl⟩

theorem windowUpdate_skip (w : Nat) (g : Globals) (now : Nat)
    (h : u32sub now g.lastStepTime < SCREEN_UPDATE_INTERVAL) :
    windowUpdate w g now = some g := by
  have : ¬ (u32sub now g.lastStepTime ≥ SCREEN_UPDATE_INTERVAL) := by omega
  simp [windowUpdate, this]

theorem checkForMovement_window_aux (w : Nat) (g : Globals) (x y z : Int) (now slot : Nat)
    (hwin : u32sub now g.lastStepTime ≥ SCREEN_UPDATE_INTERVAL)
    (hslot : g.stepArray[g.stepIndex]? = some slot)
    (hpos : 0 < wrapInt w (u32sub (registerSample w g x y z).stepCount slot : Nat)) :
    ∃ g', checkForMovement w g x y z now = some g' ∧
      g'.totalSteps = u32 (g.totalSteps +
        (wrapInt w (u32sub (registerSample w g x y z).stepCount slot : Nat)).toNat) ∧
      g'.currentPace = u32 (g'.totalSteps * 12) := by
  obtain ⟨f1, f2, f3, f4, _⟩ := registerSample_frame w g x y z
  have hwin' : u32sub now (registerSample w g x y z).lastStepTime ≥
      SCREEN_UPDATE_INTERVAL := by rw [f1]; exact hwin
  have hslot' : (registerSample w g x y z).stepArray[(registerSample w g x y z).stepIndex]?
      = some slot := by rw [f2, f3]; exact hslot
  unfold checkForMovement windowUpdate
  rw [if_pos hwin', hslot']
  simp only [if_pos hpos]
  refine ⟨_, rfl, ?_, ?_⟩
  · show u32 ((registerSample w g x y z).totalSteps + toU32 _) = _
    rw [f4, toU32_add _ _ hpos]
  · rfl

theorem checkForMovement_step_no_window (w : Nat) (g : Globals) (x y z : Int) (now : Nat)
    (hd : cAbs w (x - g.lastX) > STEP_THRESHOLD ∨ cAbs w (y - g.lastY) > STEP_THRESHOLD ∨
      cAbs w (z - g.lastZ) > STEP_THRESHOLD)
    (ht : u32sub now g.lastStepTime < SCREEN_UPDATE_INTERVAL) :
    ∃ g1, checkForMovement w g x y z now = some g1 ∧
      g1.lastStepTime = g.lastStepTime ∧ g1.stepCount = u32 (g.stepCount + 1) ∧
      g1.stepArray = g.stepArray ∧ g1.stepIndex = g.stepIndex ∧
      g1.totalSteps = g.totalSteps ∧ g1.lastX = x ∧ g1.lastY = y ∧ g1.lastZ = z := by
  refine ⟨registerSample w g x y z, ?_, ?_⟩
  · unfold checkForMovement
    exact windowUpdate_skip w _ now (by rw [(registerSample_frame w g x y z).1]; exact ht)
  · rw [registerSample_of_step w g x y z (stepDetected_of_exceeds w g x y z hd)]
    exact ⟨rfl, rfl, rfl, rfl, rfl, rfl, rfl, rfl⟩

theorem checkForMovementRun_cons (w : Nat) (g g1 : Globals) (s : Sample) (rest : List Sample)
    (h : checkForMovement w g s.x s.y s.z s.now = some g1) :
    checkForMovementRun w g (s :: rest) = checkForMovementRun w g1 rest := by
  show (match checkForMovement w g s.x s.y s.z s.now with
    | none => none
    | some g1 => checkForMovementRun w g1 rest) = _
  rw [h]

theorem three_steps_aux (w : Nat) (hw : 16 ≤ w) (g : Globals) (s1 s2 s3 : Sample)
    (hL : g.lastStepTime = 0) (hC : g.stepCount = 0)
    (hA : g.stepArray[g.stepIndex]? = some 0) (hT : g.totalSteps = 0)
    (t1 : s1.now < 1000) (t2 : s2.now < 1000) (t3 : 1000 ≤ s3.now)
    (t3' : s3.now < 4294967296)
    (d1 : cAbs w (s1.x - g.lastX) > STEP_THRESHOLD ∨ cAbs w (s1.y - g.lastY) > STEP_THRESHOLD ∨
      cAbs w (s1.z - g.lastZ) > STEP_THRESHOLD)
    (d2 : cAbs w (s2.x - s1.x) > STEP_THRESHOLD ∨ cAbs w (s2.y - s1.y) > STEP_THRESHOLD ∨
      cAbs w (s2.z - s1.z) > STEP_THRESHOLD)
    (d3 : cAbs w (s3.x - s2.x) > STEP_THRESHOLD ∨ cAbs w (s3.y - s2.y) > STEP_THRESHOLD ∨
      cAbs w (s3.z - s2.z) > STEP_THRESHOLD) :
    ∃ g', checkForMovementRun w g [s1, s2, s3] = some g' ∧
      g'.totalSteps = 3 ∧ g'.currentPace = 36 := by
  have hw3 : wrapInt w ((3 : Nat) : Int) = 3 := by
    have := two_pow_ge_of_16 w hw
    exact wrapInt_of_small w 3 (by omega) (by norm_num) (by omega)
  obtain ⟨g1, hc1, k1L, k1C, k1A, k1I, k1T, k1x, k1y, k1z⟩ :=
    checkForMovement_step_no_window w g s1.x s1.y s1.z s1.now d1
      (by rw [hL]; unfold u32sub SCREEN_UPDATE_INTERVAL; omega)
  rw [hL] at k1L
  rw [hC] at k1C
  obtain ⟨g2, hc2, k2L, k2C, k2A, k2I, k2T, k2x, k2y, k2z⟩ :=
    checkForMovement_step_no_window w g1 s2.x s2.y s2.z s2.now
      (by rw [k1x, k1y, k1z]; exact d2)
      (by rw [k1L]; unfold u32sub SCREEN_UPDATE_INTERVAL; omega)
  rw [k1L] at k2L
  rw [k1C] at k2C
  have hslot : g2.stepArray[g2.stepIndex]? = some 0 := by
    rw [k2A, k2I, k1A, k1I]; exact hA
  have hreg : (registerSample w g2 s3.x s3.y s3.z).stepCount = 3 := by
    rw [registerSample_of_step w g2 s3.x s3.y s3.z
      (stepDetected_of_exceeds w g2 s3.x s3.y s3.z (by rw [k2x, k2y, k2z]; exact d3))]
    show u32 (g2.stepCount + 1) = 3
    rw [k2C]; norm_num [u32]
  have hd : wrapInt w ((u32sub (registerSample w g2 s3.x s3.y s3.z).stepCount 0 : Nat) : Int)
      = 3 := by
    rw [hreg]
    have h3 : u32sub 3 0 = 3 := by norm_num [u32sub]
    rw [h3]; exact hw3
  obtain ⟨g', e1, e2, e3⟩ := checkForMovement_window_aux w g2 s3.x s3.y s3.z s3.now 0
    (by rw [k2L]; unfold u32sub SCREEN_UPDATE_INTERVAL; omega) hslot (by rw [hd]; norm_num)
  rw [hd, k2T, k1T, hT] at e2
  have h3n : (3 : Int).toNat = 3 := rfl
  have e2' : g'.totalSteps = 3 := by
    rw [e2, h3n]; norm_num [u32]
  refine ⟨g', ?_, e2', ?_⟩
  · rw [checkForMovementRun_cons w g g1 s1 _ hc1, checkForMovementRun_cons w g1 g2 s2 _ hc2,
      checkForMovementRun_cons w g2 g' s3 _ e1]
    rfl
  · rw [e3, e2']; norm_num [u32]

/-- C9: when `checkForMovement` performs a window update (at least 1000 ms
since `lastStepTime`) and `delta`, the `int` difference between `stepCount`
(after this sample's step test) and the ring slot at `stepIndex`, is positive,
it returns with `totalSteps` increased by exactly `delta` and `currentPace`
equal to `12 * totalSteps`, both modulo 2^32.  From the power-on state, three
consecutive step-registering samples, the first two before tick 1000 and the
third at or after it, give `totalSteps = 3` and `currentPace = 36` (for every
`int` width of at least 16 bits). -/
theorem checkForMovement_window_update_pace (w : Nat) :
    (∀ (g : Globals) (x y z : Int) (now slot : Nat),
      u32sub now g.lastStepTime ≥ SCREEN_UPDATE_INTERVAL →
      g.stepArray[g.stepIndex]? = some slot →
      0 < wrapInt w (u32sub (registerSample w g x y z).stepCount slot : Nat) →
      ∃ g', checkForMovement w g x y z now = some g' ∧
        g'.totalSteps = u32 (g.totalSteps +
          (wrapInt w (u32sub (registerSample w g x y z).stepCount slot : Nat)).toNat) ∧
        g'.currentPace = u32 (g'.totalSteps * 12)) ∧
    (16 ≤ w → ∀ s1 s2 s3 : Sample,
      s1.now < 1000 → s2.now < 1000 → 1000 ≤ s3.now → s3.now < 4294967296 →
      (cAbs w (s1.x - 0) > STEP_THRESHOLD ∨ cAbs w (s1.y - 0) > STEP_THRESHOLD ∨
        cAbs w (s1.z - 0) > STEP_THRESHOLD) →
      (cAbs w (s2.x - s1.x) > STEP_THRESHOLD ∨ cAbs w (s2.y - s1.y) > STEP_THRESHOLD ∨
        cAbs w (s2.z - s1.z) > STEP_THRESHOLD) →
      (cAbs w (s3.x - s2.x) > STEP_THRESHOLD ∨ cAbs w (s3.y - s2.y) > STEP_THRESHOLD ∨
        cAbs w (s3.z - s2.z) > STEP_THRESHOLD) →
      ∃ g', checkForMovementRun w powerOn [s1, s2, s3] = some g' ∧
        g'.totalSteps = 3 ∧ g'.currentPace = 36) := by
  constructor
  · intro g x y z now slot hwin hslot hpos
    exact checkForMovement_window_aux w g x y z now slot hwin hslot hpos
  · intro hw s1 s2 s3 t1 t2 t3 t3' d1 d2 d3
    exact three_steps_aux w hw powerOn s1 s2 s3 rfl rfl rfl rfl t1 t2 t3 t3' d1 d2 d3

/-- Instance of C9 with a 16-bit `int`: X alternates between 600 and 0 at ticks
800, 900 and 1000. -/
theorem checkForMovement_window_update_pace_witness :
    ∃ g', checkForMovementRun 16 powerOn
        [{ x := 600, y := 0, z := 0, now := 800 }, { x := 0, y := 0, z := 0, now := 900 },
         { x := 600, y := 0, z := 0, now := 1000 }] = some g' ∧
      g'.totalSteps = 3 ∧ g'.currentPace = 36 :=
  (checkForMovement_window_update_pace 16).2 (by decide)
    { x := 600, y := 0, z := 0, now := 800 } { x := 0, y := 0, z := 0, now := 900 }
    { x := 600, y := 0, z := 0, now := 1000 }
    (by decide) (by decide) (by decide) (by decide)
    (Or.inl (by decide)) (Or.inl (by decide)) (Or.inl (by decide))

/-- C10: the decay block of the main loop, when at least 2000 ms have passed
since `lastStepTime` (32-bit difference).  If at least 1000 ms have passed since
`decayTimer`: `decayTimer` becomes the tick read at the assignment; a positive
`currentPace` decreases by exactly 1 and `footToggle` flips; a zero
`currentPace` stays 0 and `footToggle` keeps its value.  If less than 1000 ms
have passed since `decayTimer`, nothing changes.  (With one tick value `now`
for all reads this is the rule as stated.) -/
theorem decayRule_idle (g : Globals) (nowA nowB nowC : Nat)
    (hidle : u32sub nowA g.lastStepTime ≥ 2000) :
    (u32sub nowB g.decayTimer ≥ 1000 →
      (decayRule g nowA nowB nowC).decayTimer = nowC ∧
      (0 < g.currentPace → g.currentPace < 4294967296 →
        (decayRule g nowA nowB nowC).currentPace = g.currentPace - 1 ∧
        (decayRule g nowA nowB nowC).footToggle = !g.footToggle) ∧
      (g.currentPace = 0 →
        (decayRule g nowA nowB nowC).currentPace = 0 ∧
        (decayRule g nowA nowB nowC).footToggle = g.footToggle)) ∧
    (u32sub nowB g.decayTimer < 1000 → decayRule g nowA nowB nowC = g) := by
  constructor
  · intro hdec
    refine ⟨?_, ?_, ?_⟩
    · unfold decayRule
      rw [if_pos hidle, if_pos hdec]
      dsimp only
      split <;> rfl
    · intro hpos hlt
      unfold decayRule
      rw [if_pos hidle, if_pos hdec]
      dsimp only
      rw [if_pos hpos]
      refine ⟨?_, rfl⟩
      show u32sub g.currentPace 1 = g.currentPace - 1
      unfold u32sub
      omega
    · intro hz
      unfold decayRule
      rw [if_pos hidle, if_pos hdec]
      dsimp only
      rw [if_neg (by omega)]
      exact ⟨hz, rfl⟩
  · intro hlt
    unfold decayRule
    rw [if_pos hidle, if_neg (by omega)]

/-- Instance of C10: pace 36, last step at tick 0, decay timer at tick 4000,
all reads at tick 5000: the pace becomes 35 and the decay timer 5000. -/
theorem decayRule_idle_witness :
    (decayRule { powerOn with currentPace := 36, decayTimer := 4000 } 5000 5000 5000).decayTimer
      = 5000 ∧
    (decayRule { powerOn with currentPace := 36, decayTimer := 4000 } 5000 5000 5000).currentPace
      = 36 - 1 :=
  have h := (decayRule_idle { powerOn with currentPace := 36, decayTimer := 4000 }
    5000 5000 5000 (by decide)).1 (by decide)
  ⟨h.1, (h.2.1 (by decide) (by decide)).1⟩

/-! ## Format conversion table -/

/-- C20: the conversions of `setFormatConfig`.  For a 12-hour value (hour in
1..12): switching to 24H maps (h, PM) with h other than 12 to h + 12, (12, PM)
to 12, (12, AM) to 0 and (h, AM) with h other than 12 to h; with flag AM or PM
the result is below 24, and the flag is cleared.  For a 24-hour value (hour
below 24): switching to 12H maps 0 to (12, AM), 1..11 to (h, AM), 12 to
(12, PM) and 13..23 to (h - 12, PM), and the resulting hour is in 1..12. -/
theorem setFormatConfig_conversion_table (g : Globals) :
    (1 ≤ g.hours → g.hours ≤ 12 →
      (g.ampmStr = AmPm.PM → g.hours ≠ 12 → (switchTo24H g).hours = g.hours + 12) ∧
      (g.ampmStr = AmPm.PM → g.hours = 12 → (switchTo24H g).hours = 12) ∧
      (g.ampmStr = AmPm.AM → g.hours = 12 → (switchTo24H g).hours = 0) ∧
      (g.ampmStr = AmPm.AM → g.hours ≠ 12 → (switchTo24H g).hours = g.hours) ∧
      (g.ampmStr = AmPm.AM ∨ g.ampmStr = AmPm.PM → (switchTo24H g).hours < 24) ∧
      (switchTo24H g).ampmStr = AmPm.blank) ∧
    (g.hours < 24 →
      (g.hours = 0 →
        (switchTo12H g).hours = 12 ∧ (switchTo12H g).ampmStr = AmPm.AM) ∧
      (1 ≤ g.hours → g.hours ≤ 11 →
        (switchTo12H g).hours = g.hours ∧ (switchTo12H g).ampmStr = AmPm.AM) ∧
      (g.hours = 12 →
        (switchTo12H g).hours = 12 ∧ (switchTo12H g).ampmStr = AmPm.PM) ∧
      (13 ≤ g.hours →
        (switchTo12H g).hours = g.hours - 12 ∧ (switchTo12H g).ampmStr = AmPm.PM) ∧
      1 ≤ (switchTo12H g).hours ∧ (switchTo12H g).hours ≤ 12) := by
  constructor
  · intro hlo hhi
    have e : (g.hours + 12) % 256 = g.hours + 12 := Nat.mod_eq_of_lt (by omega)
    refine ⟨?_, ?_, ?_, ?_, ?_, rfl⟩
    · intro hp hne; simp [switchTo24H, u8, hp, hne, e]
    · intro hp he; simp [switchTo24H, hp, he]
    · intro ha he; simp [switchTo24H, ha, he]
    · intro ha hne; simp [switchTo24H, ha, hne]
    · intro hf
      rcases hf with ha | hp
      · by_cases he : g.hours = 12
        · simp [switchTo24H, ha, he]
        · simp [switchTo24H, ha, he]; omega
      · by_cases he : g.hours = 12
        · simp [switchTo24H, hp, he]
        · simp [switchTo24H, u8, hp, he, e]; omega
  · intro h24
    have e : (g.hours + 256 - 12 % 256) % 256 = g.hours - 12 ∨ g.hours < 12 := by omega
    refine ⟨?_, ?_, ?_, ?_, ?_, ?_⟩
    · intro h0; simp [switchTo12H, h0]
    · intro h1 h11
      have : g.hours ≠ 0 := by omega
      have : g.hours < 12 := by omega
      simp [switchTo12H, *]
    · intro h12; simp [switchTo12H, h12]
    · intro h13
      have a1 : g.hours ≠ 0 := by omega
      have a2 : ¬ g.hours < 12 := by omega
      have a3 : g.hours ≠ 12 := by omega
      have a4 : u8sub g.hours 12 = g.hours - 12 := by unfold u8sub; omega
      simp [switchTo12H, a1, a2, a3, a4]
    · unfold switchTo12H u8sub
      split_ifs <;> simp <;> omega
    · unfold switchTo12H u8sub
      split_ifs <;> simp <;> omega

/-- Instance of C20: 7 PM becomes 19 with the flag cleared. -/
theorem setFormatConfig_conversion_table_witness :
    (switchTo24H { powerOn with hours := 7, ampmStr := AmPm.PM }).hours = 7 + 12 :=
  ((setFormatConfig_conversion_table { powerOn with hours := 7, ampmStr := AmPm.PM }).1
    (by decide) (by decide)).1 rfl (by decide)

/-! ## Menu navigation -/

theorem navigate_keeps_range (g : Globals) (h : g.selectedMenu ≤ MENU_COUNT - 1) :
    (navigateMenuUp g).selectedMenu ≤ MENU_COUNT - 1 ∧
    (navigateMenuDown g).selectedMenu ≤ MENU_COUNT - 1 := by
  unfold MENU_COUNT at h
  constructor
  · unfold navigateMenuUp
    by_cases hp : g.selectedMenu > 0
    · rw [if_pos hp]
      show g.selectedMenu - 1 ≤ 5 - 1
      omega
    · rw [if_neg hp]; exact h
  · unfold navigateMenuDown
    by_cases hp : g.selectedMenu < MENU_COUNT - 1
    · rw [if_pos hp]
      unfold MENU_COUNT at hp
      show g.selectedMenu + 1 ≤ 5 - 1
      omega
    · rw [if_neg hp]; exact h

/-- C15: the menu selection is clamped.  `navigateMenuUp` on the first item and
`navigateMenuDown` on the last item change nothing; from any other item of the
menu they move the selection by exactly one position; and the selection stays
within `0..MENU_COUNT-1`: it is there at power-on and after `enterMenu`, and
every sequence of navigation calls keeps it there. -/
theorem menu_selection_clamped (g : Globals) :
    (g.selectedMenu = MENU_PEDOMETER → navigateMenuUp g = g) ∧
    (g.selectedMenu = MENU_EXIT → navigateMenuDown g = g) ∧
    (g.selectedMenu ≠ MENU_PEDOMETER →
      (navigateMenuUp g).selectedMenu + 1 = g.selectedMenu) ∧
    (g.selectedMenu < MENU_EXIT →
      (navigateMenuDown g).selectedMenu = g.selectedMenu + 1) ∧
    powerOn.selectedMenu ≤ MENU_COUNT - 1 ∧
    (enterMenu g).selectedMenu ≤ MENU_COUNT - 1 ∧
    (g.selectedMenu ≤ MENU_COUNT - 1 → ∀ ups : List Bool,
      (ups.foldl (fun acc (up : Bool) => if up then navigateMenuUp acc else navigateMenuDown acc)
        g).selectedMenu ≤ MENU_COUNT - 1) := by
  refine ⟨?_, ?_, ?_, ?_, by decide, Nat.zero_le _, ?_⟩
  · intro h
    unfold MENU_PEDOMETER at h
    simp [navigateMenuUp, h]
  · intro h
    unfold MENU_EXIT at h
    simp [navigateMenuDown, MENU_COUNT, h]
  · intro h
    unfold MENU_PEDOMETER at h
    have hp : g.selectedMenu > 0 := by omega
    simp only [navigateMenuUp, if_pos hp]
    omega
  · intro h
    unfold MENU_EXIT at h
    have hp : g.selectedMenu < MENU_COUNT - 1 := by unfold MENU_COUNT; omega
    simp only [navigateMenuDown, if_pos hp]
  · intro h ups
    induction ups generalizing g with
    | nil => exact h
    | cons up rest ih =>
      simp only [List.foldl_cons]
      cases up
      · exact ih _ (navigate_keeps_range g h).2
      · exact ih _ (navigate_keeps_range g h).1

/-- Instance of C15: from the last item, down, down, up ends on the item before
the last. -/
theorem menu_selection_clamped_witness :
    ([false, false, true].foldl
      (fun acc (up : Bool) => if up then navigateMenuUp acc else navigateMenuDown acc)
      { powerOn with selectedMenu := MENU_EXIT }).selectedMenu ≤ MENU_COUNT - 1 :=
  (menu_selection_clamped { powerOn with selectedMenu := MENU_EXIT }).2.2.2.2.2.2
    (by decide) [false, false, true]

/-! ## Elapsed time across the 32-bit wrap -/

theorem u32sub_eq_int (s n : Nat) (hs : s < 4294967296) (hn : n < 4294967296) :
    ((u32sub n s : Nat) : Int) = ((n : Int) - (s : Int)) % 4294967296 := by
  unfold u32sub
  omega

theorem setTimeConfigPass_combo_iff (g : Globals) (l : TimeLocals) (q : PassInput)
    (hb : l.bothPressStart ≠ 0) (h1 : q.s1Down = true) (h2 : q.s2Down = true) :
    (∃ g1 l1, setTimeConfigPass g l q = LoopState.exited g1 l1 LoopExit.combo) ↔
      u32sub q.nowCombo l.bothPressStart ≥ 2000 := by
  constructor
  · rintro ⟨g1, l1, h⟩
    by_contra hlt
    have hlt' : ¬ (2000 ≤ u32sub q.nowCombo l.bothPressStart) := hlt
    simp only [setTimeConfigPass, h1, h2, hb, hlt', Bool.and_self, if_true, if_false,
      Bool.not_true, Bool.and_false, Bool.false_eq_true, ge_iff_le] at h
    split_ifs at h
    simp only [LoopState.exited.injEq] at h
    exact absurd h.2.2 (by decide)
  · intro hge
    exact ⟨_, _, setTimeConfigPass_combo_exit g l q hb h1 h2 hge⟩

theorem setDateConfigPass_combo_iff (g : Globals) (l : DateLocals) (q : PassInput)
    (hb : l.bothPressStart ≠ 0) (h1 : q.s1Down = true) (h2 : q.s2Down = true) :
    (∃ g1 l1, setDateConfigPass g l q = LoopState.exited g1 l1 LoopExit.combo) ↔
      u32sub q.nowCombo l.bothPressStart ≥ 2000 := by
  constructor
  · rintro ⟨g1, l1, h⟩
    by_contra hlt
    have hlt' : ¬ (2000 ≤ u32sub q.nowCombo l.bothPressStart) := hlt
    simp only [setDateConfigPass, h1, h2, hb, hlt', Bool.and_self, if_true, if_false,
      Bool.not_true, Bool.and_false, Bool.false_eq_true, ge_iff_le] at h
    split_ifs at h
    simp only [LoopState.exited.injEq] at h
    exact absurd h.2.2 (by decide)
  · intro hge
    exact ⟨_, _, setDateConfigPass_combo_exit g l q hb h1 h2 hge⟩

/-- C19: elapsed time is computed modulo 2^32.  For ticks `s`, `n` below 2^32
the value `u32sub n s` used by every elapsed-time test equals `(n - s) mod
2^32`; the long-hold test of `processButtons` and the combo tests of
`setTimeConfig` and `setDateConfig` fire exactly when that value is at least
2000.  Hence an S1 hold first seen at tick 2^32 - 1000 leaves the state in
TimeDisplay on every pass before the wrap and on every pass at a tick below
1000 after it, and enters the menu on the first pass at a tick of at least
1000 after the wrap. -/
theorem elapsed_tests_wraparound :
    (∀ s n : Nat, s < 4294967296 → n < 4294967296 →
      ((u32sub n s : Nat) : Int) = ((n : Int) - (s : Int)) % 4294967296) ∧
    (∀ (g : Globals) (s2 : Bool) (n : Nat),
      g.currentState = WatchState.STATE_TIME_DISPLAY → g.s1Pressed = true →
      ((processButtons g true s2 n).currentState = WatchState.STATE_MENU ↔
        u32sub n g.lastPressTimeS1 ≥ 2000)) ∧
    (∀ (g : Globals) (l : TimeLocals) (q : PassInput),
      l.bothPressStart ≠ 0 → q.s1Down = true → q.s2Down = true →
      ((∃ g1 l1, setTimeConfigPass g l q = LoopState.exited g1 l1 LoopExit.combo) ↔
        u32sub q.nowCombo l.bothPressStart ≥ 2000)) ∧
    (∀ (g : Globals) (l : DateLocals) (q : PassInput),
      l.bothPressStart ≠ 0 → q.s1Down = true → q.s2Down = true →
      ((∃ g1 l1, setDateConfigPass g l q = LoopState.exited g1 l1 LoopExit.combo) ↔
        u32sub q.nowCombo l.bothPressStart ≥ 2000)) ∧
    (∀ (g : Globals) (s2 : Bool) (mid : List ButtonRead) (r : ButtonRead),
      g.currentState = WatchState.STATE_TIME_DISPLAY → g.s1Pressed = false →
      (∀ m ∈ mid, m.s1Down = true ∧
        ((4294966296 ≤ m.now ∧ m.now < 4294967296) ∨ m.now < 1000)) →
      r.s1Down = true → 1000 ≤ r.now → r.now < 4294966296 →
      (processButtonsRun g
        ({ s1Down := true, s2Down := s2, now := 4294966296 } :: mid)).currentState
          = WatchState.STATE_TIME_DISPLAY ∧
      (processButtonsRun g
        ({ s1Down := true, s2Down := s2, now := 4294966296 } :: mid)).enterMenuCalls
          = g.enterMenuCalls ∧
      (processButtonsRun g
        ({ s1Down := true, s2Down := s2, now := 4294966296 } :: mid ++ [r])).currentState
          = WatchState.STATE_MENU ∧
      (processButtonsRun g
        ({ s1Down := true, s2Down := s2, now := 4294966296 } :: mid ++ [r])).enterMenuCalls
          = g.enterMenuCalls + 1) := by
  refine ⟨u32sub_eq_int, ?_, setTimeConfigPass_combo_iff, setDateConfigPass_combo_iff, ?_⟩
  · intro g s2 n hs hp
    by_cases hge : u32sub n g.lastPressTimeS1 ≥ 2000
    · simp [processButtons, enterMenu, hs, hp, hge]
    · have hge' : ¬ (2000 ≤ u32sub n g.lastPressTimeS1) := hge
      simp [processButtons, hs, hp, hge']
  · intro g s2 mid r hs hp hmid hr1 hr2 hr3
    have hstep0 : processButtons g true s2 4294966296 =
        { g with lata8 := true, lata9 := s2, s1Pressed := true,
                 lastPressTimeS1 := 4294966296 } := by
      simp [processButtons, hs, hp]
    have hmid' : ∀ m ∈ mid, m.s1Down = true ∧ u32sub m.now 4294966296 < 2000 := by
      intro m hm
      obtain ⟨a, b⟩ := hmid m hm
      refine ⟨a, ?_⟩
      unfold u32sub
      omega
    obtain ⟨k1, k2, k3, _, k5⟩ := processButtonsRun_holding 4294966296 mid
      { g with lata8 := true, lata9 := s2, s1Pressed := true,
               lastPressTimeS1 := 4294966296 } hs rfl rfl hmid'
    have hrun0 : processButtonsRun g
        ({ s1Down := true, s2Down := s2, now := 4294966296 } :: mid) =
        processButtonsRun { g with lata8 := true, lata9 := s2, s1Pressed := true,
                                   lastPressTimeS1 := 4294966296 } mid := by
      rw [processButtonsRun_cons, hstep0]
    have hge : u32sub r.now 4294966296 ≥ 2000 := by
      unfold u32sub
      omega
    have hexit : ∀ h : Globals, h.currentState = WatchState.STATE_TIME_DISPLAY →
        h.s1Pressed = true → h.lastPressTimeS1 = 4294966296 →
        (processButtons h r.s1Down r.s2Down r.now).currentState = WatchState.STATE_MENU ∧
        (processButtons h r.s1Down r.s2Down r.now).enterMenuCalls = h.enterMenuCalls + 1 := by
      intro h e1 e2 e3
      simp [processButtons, enterMenu, e1, e2, e3, hr1, hge]
    obtain ⟨x1, x3⟩ := hexit _ k1 k2 k3
    have happ : processButtonsRun g
        ({ s1Down := true, s2Down := s2, now := 4294966296 } :: mid ++ [r]) =
        processButtons (processButtonsRun
          { g with lata8 := true, lata9 := s2, s1Pressed := true,
                   lastPressTimeS1 := 4294966296 } mid) r.s1Down r.s2Down r.now := by
      rw [processButtonsRun_append, hrun0]
      rfl
    refine ⟨?_, ?_, ?_, ?_⟩
    · rw [hrun0]; exact k1
    · rw [hrun0]; exact k5
    · rw [happ]; exact x1
    · rw [happ]; exact x3.trans (congrArg (· + 1) k5)

/-- Instance of C19: S1 first seen at tick 2^32 - 1000; passes at ticks
2^32 - 1 and 999 do nothing; the pass at tick 1000 enters the menu. -/
theorem elapsed_tests_wraparound_witness :
    (processButtonsRun powerOn
      [{ s1Down := true, s2Down := false, now := 4294966296 },
       { s1Down := true, s2Down := false, now := 4294967295 },
       { s1Down := true, s2Down := false, now := 999 }]).currentState
        = WatchState.STATE_TIME_DISPLAY ∧
    (processButtonsRun powerOn
      [{ s1Down := true, s2Down := false, now := 4294966296 },
       { s1Down := true, s2Down := false, now := 4294967295 },
       { s1Down := true, s2Down := false, now := 999 },
       { s1Down := true, s2Down := false, now := 1000 }]).currentState
        = WatchState.STATE_MENU :=
  have h := elapsed_tests_wraparound.2.2.2.2 powerOn false
    [{ s1Down := true, s2Down := false, now := 4294967295 },
     { s1Down := true, s2Down := false, now := 999 }]
    { s1Down := true, s2Down := false, now := 1000 } rfl rfl (by decide) rfl
    (by decide) (by decide)
  ⟨h.1, h.2.2.1⟩

/-! ## Accelerometer read with retries -/

theorem retryRead_count (io : Nat → Option Nat) (base : Nat) (n : Nat) :
    ∀ attempt, (retryRead io base n attempt).2 ≤ attempt + n := by
  induction n with
  | zero => intro attempt; simp [retryRead]
  | succ n ih =>
    intro attempt
    unfold retryRead
    split
    · simp only; omega
    · have := ih (attempt + 1); omega

theorem retryRead_none_iff (io : Nat → Option Nat) (base : Nat) (n : Nat) :
    ∀ attempt, (retryRead io base n attempt).1 = none ↔
      ∀ i, i < n → io (base + attempt + i) = none := by
  induction n with
  | zero => intro attempt; simp [retryRead]
  | succ n ih =>
    intro attempt
    unfold retryRead
    split
    · rename_i b hb
      simp only [reduceCtorEq, false_iff]
      intro hall
      have := hall 0 (by omega)
      rw [Nat.add_zero, hb] at this
      cases this
    · rename_i hnone
      rw [ih (attempt + 1)]
      constructor
      · intro hall i hi
        cases i with
        | zero => exact hnone
        | succ j =>
          have := hall j (by omega)
          have e : base + attempt + (j + 1) = base + (attempt + 1) + j := by omega
          rw [e]; exact this
      · intro hall i hi
        have := hall (i + 1) (by omega)
        have e : base + (attempt + 1) + i = base + attempt + (i + 1) := by omega
        rw [e]; exact this

theorem retryRead_none_count (io : Nat → Option Nat) (base : Nat) (n : Nat) :
    ∀ attempt, (retryRead io base n attempt).1 = none →
      (retryRead io base n attempt).2 = attempt + n := by
  induction n with
  | zero => intro attempt _; simp [retryRead]
  | succ n ih =>
    intro attempt
    unfold retryRead
    split
    · intro h; simp at h
    · intro h
      have := ih (attempt + 1) h
      omega

/-- C17 (counterexample): when all five reads of the low byte fail,
`readAxisValue` enters `haltOnError` and never returns. -/
theorem readAxisValue_halts_on_lsb_failure :
    readAxisValue (fun _ => none) =
      { result := AxisResult.halted, lsbReads := 5, msbReads := 0 } := by
  decide

/-- C17 (amended): for every sequence of transport outcomes, `readAxisValue`
makes at most 5 reads for each of the two bytes; it halts in `haltOnError`
(never returning) exactly when all 5 reads of the low byte fail; and when the
low byte was read and all 5 reads of the high byte fail, it returns the safe
default 0 to the caller. -/
theorem readAxisValue_outcomes (io : Nat → Option Nat) :
    (readAxisValue io).lsbReads ≤ 5 ∧ (readAxisValue io).msbReads ≤ 5 ∧
    ((readAxisValue io).result = AxisResult.halted ↔ ∀ i, i < 5 → io i = none) ∧
    ((readAxisValue io).result ≠ AxisResult.halted →
      (∀ j, j < 5 → io ((readAxisValue io).lsbReads + j) = none) →
      (readAxisValue io).result = AxisResult.returned 0 ∧
      (readAxisValue io).msbReads = 5) := by
  have c1 := retryRead_count io 0 5 0
  have n1 := retryRead_none_iff io 0 5 0
  unfold readAxisValue
  generalize h1 : retryRead io 0 5 0 = r1 at c1 n1 ⊢
  obtain ⟨o1, k⟩ := r1
  cases o1 with
  | none =>
    simp only [Nat.zero_add, Nat.add_zero, implies_true, true_iff] at n1
    refine ⟨by simpa using c1, Nat.zero_le _, ?_, ?_⟩
    · simp only [true_iff]
      intro i hi
      have := n1 i hi
      simpa using this
    · intro hne
      exact absurd rfl hne
  | some lowByte =>
    have c2 := retryRead_count io k 5 0
    have n2 := retryRead_none_iff io k 5 0
    have m2 := retryRead_none_count io k 5 0
    dsimp only
    generalize h2 : retryRead io k 5 0 = r2 at c2 n2 m2 ⊢
    obtain ⟨o2, j⟩ := r2
    have hk : k ≤ 5 := by simpa using c1
    have hj : j ≤ 5 := by simpa using c2
    have hnot : ¬ ∀ i, i < 5 → io i = none := by
      intro hall
      have : (some lowByte : Option Nat) = none := by
        apply n1.2
        intro i hi
        simpa using hall i hi
      cases this
    cases o2 with
    | none =>
      refine ⟨hk, hj, ?_, ?_⟩
      · simp only [reduceCtorEq, false_iff]
        exact hnot
      · intro _ _
        exact ⟨rfl, by simpa using m2 rfl⟩
    | some highByte =>
      refine ⟨hk, hj, ?_, ?_⟩
      · simp only [reduceCtorEq, false_iff]
        exact hnot
      · intro _ hall
        have : (some highByte : Option Nat) = none := by
          apply n2.2
          intro i hi
          simpa using hall i hi
        cases this

/-- Instance of C17 (amended): the low byte is read at the first attempt, every
later read fails; the function returns 0 after five reads of the high byte. -/
theorem readAxisValue_outcomes_witness :
    (readAxisValue (fun k => if k = 0 then some 7 else none)).result = AxisResult.returned 0 ∧
    (readAxisValue (fun k => if k = 0 then some 7 else none)).msbReads = 5 :=
  (readAxisValue_outcomes (fun k => if k = 0 then some 7 else none)).2.2.2
    (by decide) (by decide)

/-! ## Smoothing of the pace history -/

theorem wrapInt_of_range (w : Nat) (z : Int) (hw : 1 ≤ w) (h0 : -(2 ^ (w - 1)) ≤ z)
    (h1 : z < 2 ^ (w - 1)) : wrapInt w z = z := by
  unfold wrapInt
  have hpow : (2 : Int) ^ w = 2 * 2 ^ (w - 1) := by
    obtain ⟨k, rfl⟩ : ∃ k, w = k + 1 := ⟨w - 1, by omega⟩
    simp [pow_succ, mul_comm]
  have hpos : (0 : Int) < 2 ^ (w - 1) := by positivity
  rw [Int.emod_eq_of_lt (by omega) (by omega)]
  omega

theorem wrapInt_wrapInt_add (w : Nat) (x c : Int) :
    wrapInt w (wrapInt w x + c) = wrapInt w (x + c) := by
  unfold wrapInt
  have e : (x + 2 ^ (w - 1)) % 2 ^ w - 2 ^ (w - 1) + c + 2 ^ (w - 1) =
      (x + 2 ^ (w - 1)) % 2 ^ w + c := by ring
  rw [e, Int.emod_add_emod]
  have e2 : x + 2 ^ (w - 1) + c = x + c + 2 ^ (w - 1) := by ring
  rw [e2]

theorem smoothValue_eq (w : Nat) (h : List Int) (i : Nat) (hi : i < 90) :
    smoothValue w h i =
      Int.tdiv (wrapInt w (h.getD ((i + 89) % 90) 0 + h.getD i 0 + h.getD ((i + 1) % 90) 0)) 3 := by
  have hp : (if i = 0 then 89 else i - 1) = (i + 89) % 90 := by
    split <;> omega
  have hn : (if i = 89 then 0 else i + 1) = (i + 1) % 90 := by
    split <;> omega
  unfold smoothValue
  simp only [hp, hn]
  rw [wrapInt_wrapInt_add, Int.add_comm (h.getD i 0)]

theorem computeSmoothedStepsLoop_spec (w : Nat) (n : Nat) :
    ∀ (i : Nat) (g : Globals), ∃ sm : List Int,
      computeSmoothedStepsLoop w n i g = { g with smoothedSteps := sm } ∧
      ∀ j, sm[j]? =
        if i ≤ j ∧ j < i + n ∧ j < g.smoothedSteps.length
        then some (smoothValue w g.stepsHistory j) else g.smoothedSteps[j]? := by
  induction n with
  | zero =>
    intro i g
    refine ⟨g.smoothedSteps, rfl, ?_⟩
    intro j
    have : ¬ (i ≤ j ∧ j < i + 0 ∧ j < g.smoothedSteps.length) := by omega
    rw [if_neg this]
  | succ n ih =>
    intro i g
    obtain ⟨sm, h1, h2⟩ := ih (i + 1) (smoothAt w g i)
    refine ⟨sm, ?_, ?_⟩
    · show computeSmoothedStepsLoop w n (i + 1) (smoothAt w g i) = _
      rw [h1]
      rfl
    · intro j
      rw [h2 j]
      have hlen : (smoothAt w g i).smoothedSteps.length = g.smoothedSteps.length := by
        show (g.smoothedSteps.set i _).length = _
        rw [List.length_set]
      have hhist : (smoothAt w g i).stepsHistory = g.stepsHistory := rfl
      have hset : (smoothAt w g i).smoothedSteps[j]? =
          if i = j then (if i < g.smoothedSteps.length then
            some (smoothValue w g.stepsHistory i) else none) else g.smoothedSteps[j]? := by
        show (g.smoothedSteps.set i _)[j]? = _
        rw [List.getElem?_set]
      rw [hlen, hhist, hset]
      by_cases hij : i = j
      · subst hij
        by_cases hl : i < g.smoothedSteps.length
        · have a : ¬ (i + 1 ≤ i ∧ i < i + 1 + n ∧ i < g.smoothedSteps.length) := by omega
          have b : i ≤ i ∧ i < i + (n + 1) ∧ i < g.smoothedSteps.length := by omega
          rw [if_neg a, if_pos rfl, if_pos hl, if_pos b]
        · have a : ¬ (i + 1 ≤ i ∧ i < i + 1 + n ∧ i < g.smoothedSteps.length) := by omega
          have b : ¬ (i ≤ i ∧ i < i + (n + 1) ∧ i < g.smoothedSteps.length) := by omega
          rw [if_neg a, if_pos rfl, if_neg hl, if_neg b]
          exact (List.getElem?_eq_none (by omega)).symm
      · by_cases hc : i + 1 ≤ j ∧ j < i + 1 + n ∧ j < g.smoothedSteps.length
        · have b : i ≤ j ∧ j < i + (n + 1) ∧ j < g.smoothedSteps.length := by omega
          rw [if_pos hc, if_pos b]
        · have b : ¬ (i ≤ j ∧ j < i + (n + 1) ∧ j < g.smoothedSteps.length) := by omega
          rw [if_neg hc, if_neg hij, if_neg b]

theorem computeSmoothedSteps_eq (w : Nat) (g : Globals) (hlen : g.smoothedSteps.length = 90) :
    computeSmoothedSteps w g =
      { g with smoothedSteps := (List.range 90).map (smoothValue w g.stepsHistory) } := by
  obtain ⟨sm, h1, h2⟩ := computeSmoothedStepsLoop_spec w 90 0 g
  have hsm : sm = (List.range 90).map (smoothValue w g.stepsHistory) := by
    apply List.ext_getElem?
    intro j
    rw [h2 j, List.getElem?_map]
    by_cases hj : j < 90
    · have b : 0 ≤ j ∧ j < 0 + 90 ∧ j < g.smoothedSteps.length := by omega
      rw [if_pos b, List.getElem?_range hj]
      rfl
    · have b : ¬ (0 ≤ j ∧ j < 0 + 90 ∧ j < g.smoothedSteps.length) := by omega
      rw [if_neg b, List.getElem?_eq_none (by omega),
        List.getElem?_eq_none (by simp; omega)]
      rfl
  unfold computeSmoothedSteps
  rw [h1, hsm]

/-- C14: `computeSmoothedSteps` (arrays of 90 entries) changes no variable
other than `smoothedSteps`, so `stepsHistory` and the write cursor are
unchanged; its output depends on the raw buffer only, not on the previous
contents of `smoothedSteps`; and running it twice gives the same state as
running it once. -/
theorem computeSmoothedSteps_pure (w : Nat) (g : Globals)
    (hlen : g.smoothedSteps.length = 90) :
    { computeSmoothedSteps w g with smoothedSteps := g.smoothedSteps } = g ∧
    (computeSmoothedSteps w g).stepsHistory = g.stepsHistory ∧
    (computeSmoothedSteps w g).stepsHistoryIndex = g.stepsHistoryIndex ∧
    (∀ g2 : Globals, g2.stepsHistory = g.stepsHistory → g2.smoothedSteps.length = 90 →
      (computeSmoothedSteps w g2).smoothedSteps = (computeSmoothedSteps w g).smoothedSteps) ∧
    computeSmoothedSteps w (computeSmoothedSteps w g) = computeSmoothedSteps w g := by
  have e := computeSmoothedSteps_eq w g hlen
  have hlen' : (computeSmoothedSteps w g).smoothedSteps.length = 90 := by
    rw [e]
    show ((List.range 90).map (smoothValue w g.stepsHistory)).length = 90
    simp
  refine ⟨?_, ?_, ?_, ?_, ?_⟩
  · rw [e]
  · rw [e]
  · rw [e]
  · intro g2 hh hl2
    rw [computeSmoothedSteps_eq w g2 hl2, e]
    show (List.range 90).map (smoothValue w g2.stepsHistory) =
      (List.range 90).map (smoothValue w g.stepsHistory)
    rw [hh]
  · rw [computeSmoothedSteps_eq w _ hlen']
    rw [e]

/-- Instance of C14 with a 16-bit `int` on a non-zero pace history (30, 60, 100
at indices 89, 0, 1): the raw buffer is unchanged, the result is the same
whether `smoothedSteps` held 7 everywhere or 0 everywhere before, a second
call changes nothing, and the call did replace the old contents (index 0 holds
63 instead of 7). -/
theorem computeSmoothedSteps_pure_witness :
    (computeSmoothedSteps 16 historyStale).stepsHistory = historyStale.stepsHistory ∧
    (computeSmoothedSteps 16 historyFresh).smoothedSteps =
      (computeSmoothedSteps 16 historyStale).smoothedSteps ∧
    computeSmoothedSteps 16 (computeSmoothedSteps 16 historyStale) =
      computeSmoothedSteps 16 historyStale ∧
    historyStale.smoothedSteps[0]? = some 7 ∧
    (computeSmoothedSteps 16 historyStale).smoothedSteps[0]? = some 63 :=
  have h := computeSmoothedSteps_pure 16 historyStale (by decide)
  ⟨h.2.1, h.2.2.2.1 historyFresh rfl (by decide), h.2.2.2.2, by decide, by decide⟩

/-! ## The pace history ring -/

theorem updateStepsHistory_step (w : Nat) (g : Globals)
    (hl : g.stepsHistory.length = 90) (hc : g.stepsHistoryIndex < 90) :
    ∃ g1, updateStepsHistory w g = some g1 ∧
      g1.stepsHistory = g.stepsHistory.set g.stepsHistoryIndex (wrapInt w (g.currentPace : Nat)) ∧
      g1.stepsHistoryIndex = (g.stepsHistoryIndex + 1) % 90 := by
  have hlt : g.stepsHistoryIndex < g.stepsHistory.length := by omega
  unfold updateStepsHistory
  rw [if_pos hlt]
  refine ⟨_, rfl, rfl, ?_⟩
  show (if u8 (g.stepsHistoryIndex + 1) ≥ 90 then 0 else u8 (g.stepsHistoryIndex + 1)) = _
  unfold u8
  split <;> omega

theorem updateStepsHistoryRun_spec (w : Nat) (ps : List Nat) :
    ∀ g : Globals, g.stepsHistory.length = 90 → g.stepsHistoryIndex < 90 →
      ps.length ≤ 90 →
      ∃ g', updateStepsHistoryRun w g ps = some g' ∧ g'.stepsHistory.length = 90 ∧
        g'.stepsHistoryIndex = (g.stepsHistoryIndex + ps.length) % 90 ∧
        ∀ j, j < 90 → g'.stepsHistory[j]? =
          if (j + 90 - g.stepsHistoryIndex) % 90 < ps.length
          then some (wrapInt w ((ps.getD ((j + 90 - g.stepsHistoryIndex) % 90) 0 : Nat) : Int))
          else g.stepsHistory[j]? := by
  induction ps with
  | nil =>
    intro g hl hc _
    refine ⟨g, rfl, hl, ?_, ?_⟩
    · show g.stepsHistoryIndex = (g.stepsHistoryIndex + 0) % 90
      omega
    · intro j _
      rw [if_neg (by simp)]
  | cons p rest ih =>
    intro g hl hc hlen
    have hlen' : rest.length + 1 ≤ 90 := by simpa using hlen
    obtain ⟨g1, s1, s2, s3⟩ := updateStepsHistory_step w { g with currentPace := p } hl hc
    have s2' : g1.stepsHistory = g.stepsHistory.set g.stepsHistoryIndex (wrapInt w (p : Nat)) := s2
    have s3' : g1.stepsHistoryIndex = (g.stepsHistoryIndex + 1) % 90 := s3
    have hl1 : g1.stepsHistory.length = 90 := by rw [s2', List.length_set]; exact hl
    have hc1 : g1.stepsHistoryIndex < 90 := by rw [s3']; omega
    obtain ⟨g', r1, r2, r3, r4⟩ := ih g1 hl1 hc1 (by omega)
    refine ⟨g', ?_, r2, ?_, ?_⟩
    · show (match updateStepsHistory w { g with currentPace := p } with
        | none => none
        | some g1 => updateStepsHistoryRun w g1 rest) = some g'
      rw [s1]
      exact r1
    · rw [r3, s3']
      show _ = (g.stepsHistoryIndex + (rest.length + 1)) % 90
      omega
    · intro j hj
      rw [r4 j hj, s3', s2', List.getElem?_set]
      show _ = if (j + 90 - g.stepsHistoryIndex) % 90 < rest.length + 1 then _ else _
      by_cases hjc : j = g.stepsHistoryIndex
      · subst hjc
        have k0 : (g.stepsHistoryIndex + 90 - g.stepsHistoryIndex) % 90 = 0 := by omega
        have k1 : ¬ ((g.stepsHistoryIndex + 90 - (g.stepsHistoryIndex + 1) % 90) % 90
            < rest.length) := by omega
        rw [if_neg k1, if_pos rfl, if_pos (by omega), k0, if_pos (by omega)]
        rfl
      · have hne : ¬ (g.stepsHistoryIndex = j) := fun h => hjc h.symm
        have hk : (j + 90 - g.stepsHistoryIndex) % 90 =
            (j + 90 - (g.stepsHistoryIndex + 1) % 90) % 90 + 1 := by omega
        rw [if_neg hne, hk, List.getD_cons_succ]
        by_cases hlt : (j + 90 - (g.stepsHistoryIndex + 1) % 90) % 90 < rest.length
        · rw [if_pos hlt, if_pos (by omega)]
        · rw [if_neg hlt, if_neg (by omega)]

/-- C12 (counterexample, 16-bit `int` as on the target): from the power-on
buffer (cursor 0), the pace 40000 is written first and 89 zeros after it.  The
reorder loop yields -25536 as its first entry, not the 40000 that was written:
`(int)currentPace` does not keep a pace of 32768 or more. -/
theorem history_ring_truncates_pace :
    (updateStepsHistoryRun 16 powerOn (40000 :: List.replicate 89 0)).map orderedSteps =
      some ((-25536) :: List.replicate 89 0) := by
  decide

/-- C12 (amended): for every starting cursor below 90 and every sequence of 90 pace
values, the 90 calls of `updateStepsHistory` (the k-th with `currentPace = p_k`)
return, the cursor is back at its starting value, and the reorder loop of
`drawStepsGraph` yields the 90 written values in write order: the k-th entry
is `(int)p_k`, which is `p_k` itself whenever `p_k` fits in an `int`. -/
theorem history_ring_reorder (w : Nat) (g : Globals) (ps : List Nat)
    (hl : g.stepsHistory.length = 90) (hc : g.stepsHistoryIndex < 90)
    (hps : ps.length = 90) :
    ∃ g', updateStepsHistoryRun w g ps = some g' ∧
      g'.stepsHistoryIndex = g.stepsHistoryIndex ∧
      orderedSteps g' = ps.map (fun p => wrapInt w ((p : Nat) : Int)) ∧
      (1 ≤ w → (∀ p ∈ ps, ((p : Nat) : Int) < 2 ^ (w - 1)) →
        orderedSteps g' = ps.map (fun p => ((p : Nat) : Int))) := by
  obtain ⟨g', r1, r2, r3, r4⟩ := updateStepsHistoryRun_spec w ps g hl hc (by omega)
  have hidx : g'.stepsHistoryIndex = g.stepsHistoryIndex := by rw [r3, hps]; omega
  have hord : orderedSteps g' = ps.map (fun p => wrapInt w ((p : Nat) : Int)) := by
    apply List.ext_getElem?
    intro n
    unfold orderedSteps GRAPH_SAMPLES
    rw [List.getElem?_map, List.getElem?_map]
    by_cases hn : n < 90
    · rw [List.getElem?_range hn, List.getElem?_eq_getElem (by omega : n < ps.length)]
      show some (g'.stepsHistory.getD ((g'.stepsHistoryIndex + n) % 90) 0) = some _
      rw [List.getD_eq_getElem?_getD, hidx, r4 _ (by omega)]
      have hk : ((g.stepsHistoryIndex + n) % 90 + 90 - g.stepsHistoryIndex) % 90 = n := by
        omega
      rw [hk, if_pos (by omega), List.getD_eq_getElem _ _ (by omega : n < ps.length)]
      rfl
    · rw [List.getElem?_eq_none (by simp; omega), List.getElem?_eq_none (by omega)]
      rfl
  refine ⟨g', r1, hidx, hord, ?_⟩
  intro hw hfit
  rw [hord]
  apply List.map_congr_left
  intro p hp
  exact wrapInt_of_range w _ hw (by have : (0 : Int) < 2 ^ (w - 1) := by positivity
                                    omega) (hfit p hp)

/-- Instance of C12 with a 16-bit `int`: cursor at 42, pace values 0, 1, ..., 89. -/
theorem history_ring_reorder_witness :
    ∃ g', updateStepsHistoryRun 16 { powerOn with stepsHistoryIndex := 42 } (List.range 90)
        = some g' ∧
      g'.stepsHistoryIndex = 42 ∧
      orderedSteps g' = (List.range 90).map (fun p => ((p : Nat) : Int)) :=
  have h := history_ring_reorder 16 { powerOn with stepsHistoryIndex := 42 } (List.range 90)
    (by decide) (by decide) (by decide)
  h.elim fun g' hg => ⟨g', hg.1, hg.2.1, hg.2.2.2 (by decide)
    (by intro p hp; have hlt := List.mem_range.1 hp; norm_num; omega)⟩

/-! ## Pace without detected steps -/

theorem wrapInt_add_mul (w : Nat) (z k : Int) : wrapInt w (z + k * 2 ^ w) = wrapInt w z := by
  unfold wrapInt
  have e : z + k * 2 ^ w + 2 ^ (w - 1) = z + 2 ^ (w - 1) + k * 2 ^ w := by ring
  rw [e, Int.add_mul_emod_self]

theorem stepDiff_nonpos (w : Nat) (hw : 1 ≤ w) (hw32 : w ≤ 32) (sc slot : Nat)
    (hle : sc ≤ slot) (hslot : slot < 4294967296)
    (hfit : ((slot : Nat) : Int) - ((sc : Nat) : Int) ≤ 2 ^ (w - 1)) :
    wrapInt w ((u32sub sc slot : Nat) : Int) ≤ 0 := by
  have hpos : (0 : Int) < 2 ^ (w - 1) := by positivity
  have h32 : (4294967296 : Int) = 2 ^ (32 - w) * 2 ^ w := by
    rw [← pow_add]
    have : 32 - w + w = 32 := by omega
    rw [this]; norm_num
  by_cases heq : sc = slot
  · subst heq
    have : u32sub sc sc = 0 := by unfold u32sub; omega
    rw [this]
    rw [wrapInt_of_range w _ hw (by simp only [Nat.cast_zero]; omega)
      (by simp only [Nat.cast_zero]; omega)]
    simp
  · have hu : ((u32sub sc slot : Nat) : Int) =
        -(((slot : Nat) : Int) - ((sc : Nat) : Int)) + 2 ^ (32 - w) * 2 ^ w := by
      rw [← h32]
      unfold u32sub
      omega
    rw [hu, wrapInt_add_mul, wrapInt_of_range w _ hw (by omega) (by omega)]
    omega

theorem decayRule_pace_le (g : Globals) (nowA nowB nowC : Nat) :
    (decayRule g nowA nowB nowC).currentPace ≤ g.currentPace := by
  unfold decayRule
  split
  · split
    · dsimp only
      split
      · rename_i hpos
        show u32sub g.currentPace 1 ≤ g.currentPace
        have hp : g.currentPace > 0 := hpos
        unfold u32sub
        omega
      · exact le_refl _
    · exact le_refl _
  · exact le_refl _

/-- C11 (counterexample, 16-bit `int`): from power-on, steps are registered at
ticks 800 and 900 (`stepCount` becomes 2, pace still 0); at tick 1000 the
sample equals the previous one, so no step is detected, yet the window update
of that pass adds the 2 counted steps and the pace after `checkForMovement` and
the decay block is 24, above the pace 0 before the pass. -/
theorem pace_rises_in_pass_without_step :
    checkForMovementRun 16 powerOn
        [{ x := 600, y := 0, z := 0, now := 800 }, { x := 0, y := 0, z := 0, now := 900 }]
      = some { powerOn with stepCount := 2 } ∧
    stepDetected 16 { powerOn with stepCount := 2 } 0 0 0 = false ∧
    ({ powerOn with stepCount := 2 } : Globals).currentPace = 0 ∧
    (checkThenDecay 16 { powerOn with stepCount := 2 } 0 0 0 1000 1000 1000 1000).map
        (fun g => g.currentPace) = some 24 := by
  decide

/-- C11 (amended): for every pedometer state, every `int` width and every
sampling pass in which no step is detected and either no window update is due
(`now - lastStepTime < 1000`) or the window update adds nothing (the `int`
value `stepDiff = stepCount - stepArray[stepIndex]` is not positive), the pass
(`checkForMovement` followed by the decay block) returns and `currentPace`
after it is at most `currentPace` before it.  The second case covers every
pass whose pending `stepCount` does not exceed the ring entry, when `int` has
at most 32 bits and their difference fits in it. -/
theorem pace_non_increasing_without_steps (w : Nat) (g : Globals) (x y z : Int)
    (now nowA nowB nowC : Nat)
    (hno : stepDetected w g x y z = false)
    (hquiet : u32sub now g.lastStepTime < SCREEN_UPDATE_INTERVAL ∨
      ∃ slot, g.stepArray[g.stepIndex]? = some slot ∧
        (wrapInt w ((u32sub g.stepCount slot : Nat) : Int) ≤ 0 ∨
          (1 ≤ w ∧ w ≤ 32 ∧ slot < 4294967296 ∧ g.stepCount ≤ slot ∧
            ((slot : Nat) : Int) - ((g.stepCount : Nat) : Int) ≤ 2 ^ (w - 1)))) :
    ∃ g', checkThenDecay w g x y z now nowA nowB nowC = some g' ∧
      g'.currentPace ≤ g.currentPace := by
  have hreg : registerSample w g x y z = { g with lastX := x, lastY := y, lastZ := z } := by
    simp [registerSample, hno]
  have hcfm : ∃ g1, checkForMovement w g x y z now = some g1 ∧
      g1.currentPace = g.currentPace := by
    unfold checkForMovement windowUpdate
    rw [hreg]
    dsimp only
    rcases hquiet with hlt | ⟨slot, hslot, hd⟩
    · rw [if_neg (by omega)]
      exact ⟨_, rfl, rfl⟩
    · have hd' : wrapInt w ((u32sub g.stepCount slot : Nat) : Int) ≤ 0 := by
        rcases hd with hd | ⟨hw, hw32, hrange, hpend, hfit⟩
        · exact hd
        · exact stepDiff_nonpos w hw hw32 g.stepCount slot hpend hrange hfit
      split
      · rw [hslot]
        dsimp only
        rw [if_neg (by omega)]
        exact ⟨_, rfl, rfl⟩
      · exact ⟨_, rfl, rfl⟩
  obtain ⟨g1, h1, h2⟩ := hcfm
  refine ⟨decayRule g1 nowA nowB nowC, ?_, ?_⟩
  · unfold checkThenDecay
    rw [h1]
  · rw [← h2]
    exact decayRule_pace_le g1 nowA nowB nowC

/-- Instance of C11 (amended) with a 16-bit `int`: pace 36 with two steps
pending, last step at tick 4500, a still sample at tick 5000, so no window
update is due; the pace stays at most 36. -/
theorem pace_non_increasing_without_steps_witness :
    ∃ g', checkThenDecay 16
        { powerOn with currentPace := 36, stepCount := 2, lastStepTime := 4500 }
        0 0 0 5000 5000 5000 5000 = some g' ∧ g'.currentPace ≤ 36 :=
  pace_non_increasing_without_steps 16
    { powerOn with currentPace := 36, stepCount := 2, lastStepTime := 4500 } 0 0 0
    5000 5000 5000 5000 (by decide) (Or.inl (by decide))

/-! ## Step detection -/

theorem cAbs_of_range (w : Nat) (d : Int) (hw : 1 ≤ w) (h0 : -(2 ^ (w - 1)) < d)
    (h1 : d < 2 ^ (w - 1)) : cAbs w d = |d| := by
  unfold cAbs
  rw [wrapInt_of_range w d hw (by omega) h1, Int.natCast_natAbs]
  have hlt : |d| < 2 ^ (w - 1) := abs_lt.2 ⟨h0, h1⟩
  exact wrapInt_of_range w _ hw (by have := abs_nonneg d; omega) hlt

theorem registerSample_count (w : Nat) (g : Globals) (x y z : Int) (hw : 1 ≤ w)
    (hx : -(2 ^ (w - 1)) < x - g.lastX ∧ x - g.lastX < 2 ^ (w - 1))
    (hy : -(2 ^ (w - 1)) < y - g.lastY ∧ y - g.lastY < 2 ^ (w - 1))
    (hz : -(2 ^ (w - 1)) < z - g.lastZ ∧ z - g.lastZ < 2 ^ (w - 1))
    (hsc : g.stepCount + 1 < 4294967296) :
    (registerSample w g x y z).stepCount =
      g.stepCount + (if |x - g.lastX| > 500 ∨ |y - g.lastY| > 500 ∨ |z - g.lastZ| > 500
        then 1 else 0) := by
  have ex := cAbs_of_range w (x - g.lastX) hw hx.1 hx.2
  have ey := cAbs_of_range w (y - g.lastY) hw hy.1 hy.2
  have ez := cAbs_of_range w (z - g.lastZ) hw hz.1 hz.2
  by_cases hc : |x - g.lastX| > 500 ∨ |y - g.lastY| > 500 ∨ |z - g.lastZ| > 500
  · have hdet : stepDetected w g x y z = true := by
      apply stepDetected_of_exceeds
      unfold STEP_THRESHOLD
      rw [ex, ey, ez]
      exact hc
    rw [registerSample_of_step w g x y z hdet, if_pos hc]
    show u32 (g.stepCount + 1) = g.stepCount + 1
    unfold u32
    omega
  · have hdet : stepDetected w g x y z = false := by
      unfold stepDetected STEP_THRESHOLD
      rw [ex, ey, ez]
      simp only [not_or, not_lt] at hc
      simp [hc.1, hc.2.1, hc.2.2]
    rw [if_neg hc]
    simp [registerSample, hdet]

theorem cAbs_16 (d : Int) (h0 : -65535 ≤ d) (h1 : d ≤ 65535) :
    cAbs 16 d > 500 ↔ (500 < |d| ∧ |d| < 65036 ∧ |d| ≠ 32768) := by
  have e1 : (2 : Int) ^ (16 - 1) = 32768 := by norm_num
  have e2 : (2 : Int) ^ 16 = 65536 := by norm_num
  unfold cAbs wrapInt
  rw [e1, e2]
  rcases abs_cases d with ⟨ha, _⟩ | ⟨ha, _⟩ <;> rw [ha] <;> omega

theorem registerSample_stepCount_of (w : Nat) (g : Globals) (x y z : Int) (ax ay az : Prop)
    [Decidable (ax ∨ ay ∨ az)]
    (hx : cAbs w (x - g.lastX) > 500 ↔ ax) (hy : cAbs w (y - g.lastY) > 500 ↔ ay)
    (hz : cAbs w (z - g.lastZ) > 500 ↔ az) :
    (registerSample w g x y z).stepCount =
      if ax ∨ ay ∨ az then u32 (g.stepCount + 1) else g.stepCount := by
  by_cases hc : ax ∨ ay ∨ az
  · have hdet : stepDetected w g x y z = true := by
      apply stepDetected_of_exceeds
      unfold STEP_THRESHOLD
      rw [hx, hy, hz]
      exact hc
    rw [registerSample_of_step w g x y z hdet, if_pos hc]
  · have hdet : stepDetected w g x y z = false := by
      unfold stepDetected STEP_THRESHOLD
      simp only [not_or] at hc
      simp [hx, hy, hz, hc.1, hc.2.1, hc.2.2]
    rw [if_neg hc]
    simp [registerSample, hdet]

/-- C18 (counterexample, 16-bit `int` as on the target): the previous X sample
is -32768 and the new one 32767.  The difference 65535 exceeds 500, but
`abs()` receives it converted to `int`, that is -1, and no step is counted. -/
theorem step_missed_on_16_bit_int :
    (registerSample 16 { powerOn with lastX := -32768 } 32767 0 0).stepCount = 0 ∧
    |(32767 : Int) - (-32768)| > 500 := by
  decide

/-- C18 (amended): the step test of `checkForMovement`, which runs before the
window processing.  The stored last sample always becomes (x, y, z), and the
step counter (a `uint32_t`) grows by exactly 1, however many axes qualify, or
by 0.  It grows by 1 exactly when `|x - lastX| > 500` or `|y - lastY| > 500` or
`|z - lastZ| > 500` provided each difference lies strictly between `-2^(w-1)`
and `2^(w-1)` for the `int` width `w`, which holds for all signed 16-bit
samples, new and previous, as soon as `int` has at least 18 bits.  With the
16-bit `int` of the target and signed 16-bit samples, an axis with difference
`d` qualifies exactly when `500 < |d| < 65036` and `|d| ≠ 32768`. -/
theorem checkForMovement_step_detection (w : Nat) (g : Globals) (x y z : Int) :
    ((registerSample w g x y z).lastX = x ∧ (registerSample w g x y z).lastY = y ∧
      (registerSample w g x y z).lastZ = z) ∧
    (∀ now, checkForMovement w g x y z now = windowUpdate w (registerSample w g x y z) now) ∧
    (1 ≤ w →
      (-(2 ^ (w - 1)) < x - g.lastX ∧ x - g.lastX < 2 ^ (w - 1)) →
      (-(2 ^ (w - 1)) < y - g.lastY ∧ y - g.lastY < 2 ^ (w - 1)) →
      (-(2 ^ (w - 1)) < z - g.lastZ ∧ z - g.lastZ < 2 ^ (w - 1)) →
      (registerSample w g x y z).stepCount =
        (if |x - g.lastX| > 500 ∨ |y - g.lastY| > 500 ∨ |z - g.lastZ| > 500
          then u32 (g.stepCount + 1) else g.stepCount)) ∧
    ((-32768 ≤ x ∧ x ≤ 32767) → (-32768 ≤ y ∧ y ≤ 32767) → (-32768 ≤ z ∧ z ≤ 32767) →
      (-32768 ≤ g.lastX ∧ g.lastX ≤ 32767) → (-32768 ≤ g.lastY ∧ g.lastY ≤ 32767) →
      (-32768 ≤ g.lastZ ∧ g.lastZ ≤ 32767) →
      (18 ≤ w →
        (registerSample w g x y z).stepCount =
          (if |x - g.lastX| > 500 ∨ |y - g.lastY| > 500 ∨ |z - g.lastZ| > 500
            then u32 (g.stepCount + 1) else g.stepCount)) ∧
      (registerSample 16 g x y z).stepCount =
        (if (500 < |x - g.lastX| ∧ |x - g.lastX| < 65036 ∧ |x - g.lastX| ≠ 32768) ∨
            (500 < |y - g.lastY| ∧ |y - g.lastY| < 65036 ∧ |y - g.lastY| ≠ 32768) ∨
            (500 < |z - g.lastZ| ∧ |z - g.lastZ| < 65036 ∧ |z - g.lastZ| ≠ 32768)
          then u32 (g.stepCount + 1) else g.stepCount)) := by
  refine ⟨?_, fun _ => rfl, ?_, ?_⟩
  · unfold registerSample
    exact ⟨rfl, rfl, rfl⟩
  · intro hw hx hy hz
    apply registerSample_stepCount_of
    · rw [cAbs_of_range w _ hw hx.1 hx.2]
    · rw [cAbs_of_range w _ hw hy.1 hy.2]
    · rw [cAbs_of_range w _ hw hz.1 hz.2]
  · intro hx hy hz hlx hly hlz
    constructor
    · intro hw
      have hp : (131072 : Int) ≤ 2 ^ (w - 1) := by
        have h : (2 : Int) ^ 17 ≤ 2 ^ (w - 1) := pow_le_pow_right₀ (by norm_num) (by omega)
        norm_num at h
        exact h
      apply registerSample_stepCount_of
      · rw [cAbs_of_range w _ (by omega) (by omega) (by omega)]
      · rw [cAbs_of_range w _ (by omega) (by omega) (by omega)]
      · rw [cAbs_of_range w _ (by omega) (by omega) (by omega)]
    · apply registerSample_stepCount_of
      · exact cAbs_16 _ (by omega) (by omega)
      · exact cAbs_16 _ (by omega) (by omega)
      · exact cAbs_16 _ (by omega) (by omega)

/-- Instance of C18 (amended) with the 16-bit `int` of the target: two axes
exceed the threshold at once and the counter grows by one. -/
theorem checkForMovement_step_detection_witness :
    (registerSample 16 powerOn 600 (-700) 0).stepCount = 1 :=
  ((checkForMovement_step_detection 16 powerOn 600 (-700) 0).2.2.2
    (by decide) (by decide) (by decide) (by decide) (by decide) (by decide)).2

/-! ## The clock in 12-hour mode -/

theorem updateTime_12h_eq (g : Globals) (h12 : g.ampmStr ≠ AmPm.blank)
    (hh : 1 ≤ g.hours ∧ g.hours ≤ 12) (hm : g.minutes < 60) (hs : g.seconds < 60) :
    updateTime g = some
      (if g.seconds ≠ 59 then { g with seconds := g.seconds + 1 }
       else if g.minutes ≠ 59 then { g with seconds := 0, minutes := g.minutes + 1 }
       else { g with seconds := 0, minutes := 0,
                     hours := if g.hours = 12 then 1 else g.hours + 1,
                     ampmStr := if g.hours = 11 then
                         (if g.ampmStr = AmPm.AM then AmPm.PM else AmPm.AM)
                       else g.ampmStr }) := by
  have e1 : (g.seconds + 1) % 256 = g.seconds + 1 := Nat.mod_eq_of_lt (by omega)
  have e2 : (g.minutes + 1) % 256 = g.minutes + 1 := Nat.mod_eq_of_lt (by omega)
  have e3 : (g.hours + 1) % 256 = g.hours + 1 := Nat.mod_eq_of_lt (by omega)
  unfold updateTime
  simp only [u8, e1, e2, e3]
  by_cases c1 : g.seconds = 59
  · by_cases c2 : g.minutes = 59
    · by_cases c3 : g.hours = 12
      · simp [c1, c2, c3, h12, u8sub]
      · by_cases c4 : g.hours = 11
        · simp [c1, c2, c4, h12]
        · have a1 : ¬ (g.hours + 1 = 12) := by omega
          have a2 : ¬ (g.hours + 1 > 12) := by omega
          simp [c1, c2, c3, c4, h12, a1, a2]
    · have : ¬ (60 ≤ g.minutes + 1) := by omega
      simp [c1, c2, this]
  · have : ¬ (60 ≤ g.seconds + 1) := by omega
    simp [c1, this]

/-- C29: in 12-hour mode, for hours in 1..12, minutes and seconds below 60,
`updateTime` returns a state with hours in 1..12, minutes and seconds below 60,
still in 12-hour mode; the AM/PM flag differs from the one before exactly when
the hour goes from 11 to 12, and then AM becomes PM and PM becomes AM. -/
theorem updateTime_12h_keeps_ranges (g : Globals) (h12 : g.ampmStr ≠ AmPm.blank)
    (hh : 1 ≤ g.hours ∧ g.hours ≤ 12) (hm : g.minutes < 60) (hs : g.seconds < 60) :
    ∃ g', updateTime g = some g' ∧
      (1 ≤ g'.hours ∧ g'.hours ≤ 12) ∧ g'.minutes < 60 ∧ g'.seconds < 60 ∧
      g'.ampmStr ≠ AmPm.blank ∧
      (g'.ampmStr ≠ g.ampmStr ↔ (g.hours = 11 ∧ g'.hours = 12)) ∧
      (g'.ampmStr ≠ g.ampmStr →
        (g.ampmStr = AmPm.AM ∧ g'.ampmStr = AmPm.PM) ∨
        (g.ampmStr = AmPm.PM ∧ g'.ampmStr = AmPm.AM)) := by
  refine ⟨_, updateTime_12h_eq g h12 hh hm hs, ?_⟩
  by_cases c1 : g.seconds = 59
  · by_cases c2 : g.minutes = 59
    · rw [if_neg (not_not.2 c1), if_neg (not_not.2 c2)]
      by_cases c4 : g.hours = 11
      · have c3 : ¬ g.hours = 12 := by omega
        simp only [c4, if_true]
        cases hap : g.ampmStr with
        | blank => exact absurd hap h12
        | AM => simp
        | PM => simp
      · simp only [c4, if_false]
        refine ⟨?_, by omega, by omega, h12, ?_, ?_⟩
        · split <;> omega
        · simp [c4]
        · intro h; exact absurd rfl h
    · rw [if_neg (not_not.2 c1), if_pos c2]
      refine ⟨hh, ?_, by show 0 < 60; omega, h12, ?_, ?_⟩
      · show g.minutes + 1 < 60; omega
      · constructor
        · intro h; exact absurd rfl h
        · rintro ⟨h11, h12'⟩
          have : g.hours = 12 := h12'
          omega
      · intro h; exact absurd rfl h
  · rw [if_pos c1]
    refine ⟨hh, hm, ?_, h12, ?_, ?_⟩
    · show g.seconds + 1 < 60; omega
    · constructor
      · intro h; exact absurd rfl h
      · rintro ⟨h11, h12'⟩
        have : g.hours = 12 := h12'
        omega
    · intro h; exact absurd rfl h

/-- Instance of C29: 11:59:59 AM becomes 12:00:00 PM. -/
theorem updateTime_12h_keeps_ranges_witness :
    ∃ g', updateTime { powerOn with hours := 11, minutes := 59, seconds := 59,
                                    ampmStr := AmPm.AM } = some g' ∧
      (1 ≤ g'.hours ∧ g'.hours ≤ 12) ∧ g'.minutes < 60 ∧ g'.seconds < 60 ∧
      g'.ampmStr ≠ AmPm.blank ∧
      (g'.ampmStr ≠ AmPm.AM ↔ ((11 : Nat) = 11 ∧ g'.hours = 12)) ∧
      (g'.ampmStr ≠ AmPm.AM →
        (AmPm.AM = AmPm.AM ∧ g'.ampmStr = AmPm.PM) ∨
        (AmPm.AM = AmPm.PM ∧ g'.ampmStr = AmPm.AM)) :=
  updateTime_12h_keeps_ranges
    { powerOn with hours := 11, minutes := 59, seconds := 59, ampmStr := AmPm.AM }
    (by decide) (by decide) (by decide) (by decide)

/-! ## Field stepping in Set Time and Set Date -/

theorem processButtons_ampm (g : Globals) (a b : Bool) (t : Nat) :
    (processButtons g a b t).ampmStr = g.ampmStr := by
  unfold processButtons enterMenu
  dsimp only
  split_ifs <;> rfl

theorem setTimeConfigPass_s1_only (g : Globals) (l : TimeLocals) (q : PassInput)
    (hb : l.bothPressStart = 0) (h1 : q.s1Down = true) (h2 : q.s2Down = false)
    (hz : isDeviceFlipped q.zValue = false) :
    setTimeConfigPass g l q =
      LoopState.running (processButtons g q.pbS1 q.pbS2 q.pbNow)
        { timeIncrement g.ampmStr l with flipStart := 0 } := by
  simp [setTimeConfigPass, h1, h2, hb, hz, processButtons_ampm]

theorem setTimeConfigPass_s2_only (g : Globals) (l : TimeLocals) (q : PassInput)
    (hb : l.bothPressStart = 0) (h1 : q.s1Down = false) (h2 : q.s2Down = true)
    (hz : isDeviceFlipped q.zValue = false) :
    setTimeConfigPass g l q =
      LoopState.running (processButtons g q.pbS1 q.pbS2 q.pbNow)
        { timeDecrement g.ampmStr l with flipStart := 0 } := by
  simp [setTimeConfigPass, h1, h2, hb, hz, processButtons_ampm]

theorem timeIncrement_flipStart (ampm : AmPm) (l : TimeLocals) :
    (timeIncrement ampm l).flipStart = l.flipStart := by
  unfold timeIncrement
  split_ifs <;> rfl

theorem timeDecrement_flipStart (ampm : AmPm) (l : TimeLocals) :
    (timeDecrement ampm l).flipStart = l.flipStart := by
  unfold timeDecrement
  split_ifs <;> rfl

theorem timeComboRelease_flipStart (l : TimeLocals) (t : Nat) :
    (timeComboRelease l t).flipStart = l.flipStart := by
  unfold timeComboRelease
  split_ifs <;> rfl

theorem setTimeConfigPass_not_both (g : Globals) (l : TimeLocals) (q : PassInput)
    (h : (q.s1Down && q.s2Down) = false) :
    setTimeConfigPass g l q =
      (let l1 := timeComboRelease l q.nowCombo
       let l2 := if q.s1Down && !q.s2Down then timeIncrement g.ampmStr l1 else l1
       let l3 := if q.s2Down && !q.s1Down then timeDecrement g.ampmStr l2 else l2
       match flipBlock l3.flipStart q with
       | none => LoopState.exited (processButtons g q.pbS1 q.pbS2 q.pbNow) l3 LoopExit.flip
       | some f => LoopState.running (processButtons g q.pbS1 q.pbS2 q.pbNow)
           { l3 with flipStart := f }) := by
  unfold setTimeConfigPass timeComboRelease flipBlock
  simp only [h, processButtons_ampm]
  by_cases hb : l.bothPressStart = 0
  · simp only [hb, ne_eq, not_true_eq_false, if_false, Bool.false_eq_true]
    split_ifs <;> rfl
  · simp only [hb, ne_eq, not_false_eq_true, if_true, Bool.false_eq_true, if_false]
    split_ifs <;> rfl

theorem setTimeConfigPass_s1_only_flip (g : Globals) (l : TimeLocals) (q : PassInput)
    (h1 : q.s1Down = true) (h2 : q.s2Down = false) :
    setTimeConfigPass g l q =
      match flipBlock l.flipStart q with
      | none => LoopState.exited (processButtons g q.pbS1 q.pbS2 q.pbNow)
          (timeIncrement g.ampmStr (timeComboRelease l q.nowCombo)) LoopExit.flip
      | some f => LoopState.running (processButtons g q.pbS1 q.pbS2 q.pbNow)
          { timeIncrement g.ampmStr (timeComboRelease l q.nowCombo) with flipStart := f } := by
  rw [setTimeConfigPass_not_both g l q (by simp [h1, h2])]
  simp only [h1, h2, Bool.not_false, Bool.and_self, if_true, Bool.not_true, Bool.and_false,
    Bool.false_eq_true, if_false, timeIncrement_flipStart, timeComboRelease_flipStart]

theorem setTimeConfigPass_s2_only_flip (g : Globals) (l : TimeLocals) (q : PassInput)
    (h1 : q.s1Down = false) (h2 : q.s2Down = true) :
    setTimeConfigPass g l q =
      match flipBlock l.flipStart q with
      | none => LoopState.exited (processButtons g q.pbS1 q.pbS2 q.pbNow)
          (timeDecrement g.ampmStr (timeComboRelease l q.nowCombo)) LoopExit.flip
      | some f => LoopState.running (processButtons g q.pbS1 q.pbS2 q.pbNow)
          { timeDecrement g.ampmStr (timeComboRelease l q.nowCombo) with flipStart := f } := by
  rw [setTimeConfigPass_not_both g l q (by simp [h1, h2])]
  simp only [h1, h2, Bool.not_false, Bool.and_self, if_true, Bool.not_true, Bool.and_false,
    Bool.false_eq_true, if_false, timeDecrement_flipStart, timeComboRelease_flipStart,
    Bool.false_and, Bool.and_true]

/-- C24 (counterexample): `setTimeConfig` entered at 12:00 in 12-hour mode; a
pass at tick 1000 reads both buttons pressed and records the combo start, the
next pass at tick 1500 reads S1 only.  At the start of that pass the active
field is 0 (the hour), but the pass first handles the release of the combo and
switches the field, so the minute is stepped from 0 to 1 and the hour stays
12. -/
theorem s1_pass_after_combo_steps_other_field :
    runLoop setTimeConfigPass menuPowerOn (timeLocalsInit menuPowerOn) [pressBoth 1000] =
      LoopState.running { menuPowerOn with lata8 := true, lata9 := true }
        { newHour := 12, newMinute := 0, activeField := 0, bothPressStart := 1000,
          flipStart := 0 } ∧
    setTimeConfigPass { menuPowerOn with lata8 := true, lata9 := true }
        { newHour := 12, newMinute := 0, activeField := 0, bothPressStart := 1000,
          flipStart := 0 } (pressS1 1500) =
      LoopState.running { menuPowerOn with lata8 := true }
        { newHour := 12, newMinute := 1, activeField := 1, bothPressStart := 0,
          flipStart := 0 } := by
  decide

/-- C24 (amended): the S1-only and S2-only blocks of `setTimeConfig`.  On the
hour field in 12-hour mode (hour in 1..12) the increment goes 12 to 1 and
otherwise up by one, the decrement goes 1 to 12 and otherwise down by one, and
the hour stays in 1..12; in 24-hour mode (hour below 24) they go 23 to 0 and 0
to 23 and the hour stays below 24; on the minute field (minute below 60) they
go 59 to 0 and 0 to 59 and the minute stays below 60.  The other field and the
active-field selector are unchanged by the block.  A pass with only S1 (only
S2) pressed applies the increment (decrement) to the locals left by the
both-buttons block of that pass: unchanged when no combo start is recorded,
otherwise with the combo start cleared and the active field switched if less
than 2000 ms have elapsed since it.  The loop then continues, unless the flip
block of the pass takes its `break`. -/
theorem setTimeConfig_field_stepping (ampm : AmPm) (l : TimeLocals) :
    (l.activeField = 0 → ampm ≠ AmPm.blank → 1 ≤ l.newHour → l.newHour ≤ 12 →
      (timeIncrement ampm l).newHour = (if l.newHour = 12 then 1 else l.newHour + 1) ∧
      (timeDecrement ampm l).newHour = (if l.newHour = 1 then 12 else l.newHour - 1) ∧
      1 ≤ (timeIncrement ampm l).newHour ∧ (timeIncrement ampm l).newHour ≤ 12 ∧
      1 ≤ (timeDecrement ampm l).newHour ∧ (timeDecrement ampm l).newHour ≤ 12 ∧
      (timeIncrement ampm l).newMinute = l.newMinute ∧
      (timeDecrement ampm l).newMinute = l.newMinute) ∧
    (l.activeField = 0 → ampm = AmPm.blank → l.newHour < 24 →
      (timeIncrement ampm l).newHour = (if l.newHour = 23 then 0 else l.newHour + 1) ∧
      (timeDecrement ampm l).newHour = (if l.newHour = 0 then 23 else l.newHour - 1) ∧
      (timeIncrement ampm l).newHour < 24 ∧ (timeDecrement ampm l).newHour < 24 ∧
      (timeIncrement ampm l).newMinute = l.newMinute ∧
      (timeDecrement ampm l).newMinute = l.newMinute) ∧
    (l.activeField ≠ 0 → l.newMinute < 60 →
      (timeIncrement ampm l).newMinute = (if l.newMinute = 59 then 0 else l.newMinute + 1) ∧
      (timeDecrement ampm l).newMinute = (if l.newMinute = 0 then 59 else l.newMinute - 1) ∧
      (timeIncrement ampm l).newMinute < 60 ∧ (timeDecrement ampm l).newMinute < 60 ∧
      (timeIncrement ampm l).newHour = l.newHour ∧
      (timeDecrement ampm l).newHour = l.newHour) ∧
    ((timeIncrement ampm l).activeField = l.activeField ∧
      (timeDecrement ampm l).activeField = l.activeField) ∧
    (∀ (g : Globals) (q : PassInput),
      (l.bothPressStart = 0 → timeComboRelease l q.nowCombo = l) ∧
      (l.bothPressStart ≠ 0 → u32sub q.nowCombo l.bothPressStart < 2000 →
        timeComboRelease l q.nowCombo =
          { l with activeField := (l.activeField + 1) % 2, bothPressStart := 0 }) ∧
      (l.bothPressStart ≠ 0 → u32sub q.nowCombo l.bothPressStart ≥ 2000 →
        timeComboRelease l q.nowCombo = { l with bothPressStart := 0 }) ∧
      (q.s1Down = true → q.s2Down = false →
        (∀ f, flipBlock l.flipStart q = some f →
          setTimeConfigPass g l q =
            LoopState.running (processButtons g q.pbS1 q.pbS2 q.pbNow)
              { timeIncrement g.ampmStr (timeComboRelease l q.nowCombo) with flipStart := f }) ∧
        (flipBlock l.flipStart q = none →
          setTimeConfigPass g l q =
            LoopState.exited (processButtons g q.pbS1 q.pbS2 q.pbNow)
              (timeIncrement g.ampmStr (timeComboRelease l q.nowCombo)) LoopExit.flip)) ∧
      (q.s1Down = false → q.s2Down = true →
        (∀ f, flipBlock l.flipStart q = some f →
          setTimeConfigPass g l q =
            LoopState.running (processButtons g q.pbS1 q.pbS2 q.pbNow)
              { timeDecrement g.ampmStr (timeComboRelease l q.nowCombo) with flipStart := f }) ∧
        (flipBlock l.flipStart q = none →
          setTimeConfigPass g l q =
            LoopState.exited (processButtons g q.pbS1 q.pbS2 q.pbNow)
              (timeDecrement g.ampmStr (timeComboRelease l q.nowCombo)) LoopExit.flip))) := by
  refine ⟨?_, ?_, ?_, ?_, ?_⟩
  · intro hf h12 hlo hhi
    have hi : (timeIncrement ampm l).newHour = (if l.newHour = 12 then 1 else l.newHour + 1) := by
      simp only [timeIncrement, if_pos hf, if_pos h12, u8]
      split <;> omega
    have hd : (timeDecrement ampm l).newHour = (if l.newHour = 1 then 12 else l.newHour - 1) := by
      simp only [timeDecrement, if_pos hf, if_pos h12, u8sub]
      split <;> omega
    refine ⟨hi, hd, ?_, ?_, ?_, ?_, ?_, ?_⟩
    · rw [hi]; split <;> omega
    · rw [hi]; split <;> omega
    · rw [hd]; split <;> omega
    · rw [hd]; split <;> omega
    · simp only [timeIncrement, if_pos hf, if_pos h12]
    · simp only [timeDecrement, if_pos hf, if_pos h12]
  · intro hf h24 hlt
    have hnb : ¬ (ampm ≠ AmPm.blank) := not_not.2 h24
    have hi : (timeIncrement ampm l).newHour = (if l.newHour = 23 then 0 else l.newHour + 1) := by
      simp only [timeIncrement, if_pos hf, if_neg hnb]
      split <;> omega
    have hd : (timeDecrement ampm l).newHour = (if l.newHour = 0 then 23 else l.newHour - 1) := by
      simp only [timeDecrement, if_pos hf, if_neg hnb, u8sub]
      split <;> omega
    refine ⟨hi, hd, ?_, ?_, ?_, ?_⟩
    · rw [hi]; split <;> omega
    · rw [hd]; split <;> omega
    · simp only [timeIncrement, if_pos hf, if_neg hnb]
    · simp only [timeDecrement, if_pos hf, if_neg hnb]
  · intro hf hlt
    have hi : (timeIncrement ampm l).newMinute =
        (if l.newMinute = 59 then 0 else l.newMinute + 1) := by
      simp only [timeIncrement, if_neg hf]
      split <;> omega
    have hd : (timeDecrement ampm l).newMinute =
        (if l.newMinute = 0 then 59 else l.newMinute - 1) := by
      simp only [timeDecrement, if_neg hf, u8sub]
      split <;> omega
    refine ⟨hi, hd, ?_, ?_, ?_, ?_⟩
    · rw [hi]; split <;> omega
    · rw [hd]; split <;> omega
    · simp only [timeIncrement, if_neg hf]
    · simp only [timeDecrement, if_neg hf]
  · unfold timeIncrement timeDecrement
    constructor <;> split_ifs <;> rfl
  · intro g q
    refine ⟨?_, ?_, ?_, ?_, ?_⟩
    · intro hb
      simp [timeComboRelease, hb]
    · intro hb hlt
      simp [timeComboRelease, hb, hlt]
    · intro hb hge
      have hn : ¬ (u32sub q.nowCombo l.bothPressStart < 2000) := by omega
      simp [timeComboRelease, hb, hn]
    · intro h1 h2
      have e := setTimeConfigPass_s1_only_flip g l q h1 h2
      exact ⟨fun f hf => by rw [e, hf], fun hf => by rw [e, hf]⟩
    · intro h1 h2
      have e := setTimeConfigPass_s2_only_flip g l q h1 h2
      exact ⟨fun f hf => by rw [e, hf], fun hf => by rw [e, hf]⟩

/-- Instance of C24 (amended): in 12-hour mode the hour 12 steps up to 1. -/
theorem setTimeConfig_field_stepping_witness :
    (timeIncrement AmPm.PM
      { newHour := 12, newMinute := 30, activeField := 0, bothPressStart := 0, flipStart := 0 }
      ).newHour = (if (12 : Nat) = 12 then 1 else 12 + 1) :=
  ((setTimeConfig_field_stepping AmPm.PM
      { newHour := 12, newMinute := 30, activeField := 0, bothPressStart := 0, flipStart := 0 }
      ).1 rfl (by decide) (by decide) (by decide)).1

theorem setDateConfigPass_s1_only (g : Globals) (l l1 : DateLocals) (q : PassInput)
    (hb : l.bothPressStart = 0) (h1 : q.s1Down = true) (h2 : q.s2Down = false)
    (hz : isDeviceFlipped q.zValue = false) (hstep : dateIncrement l = some l1) :
    setDateConfigPass g l q =
      LoopState.running (processButtons g q.pbS1 q.pbS2 q.pbNow) { l1 with flipStart := 0 } := by
  simp [setDateConfigPass, h1, h2, hb, hz, hstep]

theorem setDateConfigPass_s2_only (g : Globals) (l l1 : DateLocals) (q : PassInput)
    (hb : l.bothPressStart = 0) (h1 : q.s1Down = false) (h2 : q.s2Down = true)
    (hz : isDeviceFlipped q.zValue = false) (hstep : dateDecrement l = some l1) :
    setDateConfigPass g l q =
      LoopState.running (processButtons g q.pbS1 q.pbS2 q.pbNow) { l1 with flipStart := 0 } := by
  simp [setDateConfigPass, h1, h2, hb, hz, hstep]

/-- C25: the S1-only and S2-only blocks of `setDateConfig` on a working date
with `1 <= month <= 12` and `1 <= day <= daysInMonth(month)`.  On the day field
the increment goes from `daysInMonth(month)` to 1 and otherwise up by one, the
decrement from 1 to `daysInMonth(month)` and otherwise down by one, and the
month is unchanged.  On the month field the increment goes from 12 to 1 and
otherwise up by one, the decrement from 1 to 12 and otherwise down by one, and
the day becomes `min(day, daysInMonth(new month))`.  A pass with only S1 (only
S2) pressed, no combo in progress and the device upright applies exactly that
step and continues the loop. -/
theorem setDateConfig_field_stepping (l : DateLocals)
    (hok : calendarOk l.newDay l.newMonth) :
    (l.activeField = 0 →
      dateIncrement l = some { l with
        newDay := if l.newDay = daysInMonthRef l.newMonth then 1 else l.newDay + 1 } ∧
      dateDecrement l = some { l with
        newDay := if l.newDay = 1 then daysInMonthRef l.newMonth else l.newDay - 1 }) ∧
    (l.activeField ≠ 0 →
      dateIncrement l = some { l with
        newMonth := if l.newMonth = 12 then 1 else l.newMonth + 1,
        newDay := min l.newDay
          (daysInMonthRef (if l.newMonth = 12 then 1 else l.newMonth + 1)) } ∧
      dateDecrement l = some { l with
        newMonth := if l.newMonth = 1 then 12 else l.newMonth - 1,
        newDay := min l.newDay
          (daysInMonthRef (if l.newMonth = 1 then 12 else l.newMonth - 1)) }) ∧
    (∀ (g : Globals) (q : PassInput) (l1 : DateLocals), l.bothPressStart = 0 →
      isDeviceFlipped q.zValue = false →
      (q.s1Down = true → q.s2Down = false → dateIncrement l = some l1 →
        setDateConfigPass g l q =
          LoopState.running (processButtons g q.pbS1 q.pbS2 q.pbNow)
            { l1 with flipStart := 0 }) ∧
      (q.s1Down = false → q.s2Down = true → dateDecrement l = some l1 →
        setDateConfigPass g l q =
          LoopState.running (processButtons g q.pbS1 q.pbS2 q.pbNow)
            { l1 with flipStart := 0 })) := by
  obtain ⟨h1, h2, h3, h4⟩ := hok
  have hd31 := daysInMonthRef_le l.newMonth
  refine ⟨?_, ?_, ?_⟩
  · intro hf
    have e1 : u8 (l.newDay + 1) = l.newDay + 1 := by unfold u8; omega
    have e2 : u8sub l.newDay 1 = l.newDay - 1 := by unfold u8sub; omega
    constructor
    · simp only [dateIncrement, if_pos hf, getDaysInMonth_eq_ref _ h1 h2, e1]
    · simp only [dateDecrement, if_pos hf, getDaysInMonth_eq_ref _ h1 h2, e2]
  · intro hf
    have e1 : u8 (l.newMonth + 1) = l.newMonth + 1 := by unfold u8; omega
    have e2 : u8sub l.newMonth 1 = l.newMonth - 1 := by unfold u8sub; omega
    have m1 : 1 ≤ (if l.newMonth = 12 then 1 else l.newMonth + 1) ∧
        (if l.newMonth = 12 then 1 else l.newMonth + 1) ≤ 12 := by split <;> omega
    have m2 : 1 ≤ (if l.newMonth = 1 then 12 else l.newMonth - 1) ∧
        (if l.newMonth = 1 then 12 else l.newMonth - 1) ≤ 12 := by split <;> omega
    have hmin : ∀ a b : Nat, (if a > b then b else a) = min a b := by
      intro a b
      split <;> omega
    constructor
    · simp only [dateIncrement, if_neg hf, e1, getDaysInMonth_eq_ref _ m1.1 m1.2, hmin]
    · simp only [dateDecrement, if_neg hf, e2, getDaysInMonth_eq_ref _ m2.1 m2.2, hmin]
  · intro g q l1 hb hz
    exact ⟨fun a b c => setDateConfigPass_s1_only g l l1 q hb a b hz c,
      fun a b c => setDateConfigPass_s2_only g l l1 q hb a b hz c⟩

/-- Instance of C25: stepping the month field down from 31 March gives
28 February. -/
theorem setDateConfig_field_stepping_witness :
    dateDecrement
        { newDay := 31, newMonth := 3, activeField := 1, bothPressStart := 0, flipStart := 0 } =
      some { newDay := 28, newMonth := 2, activeField := 1, bothPressStart := 0, flipStart := 0 } :=
  ((setDateConfig_field_stepping
      { newDay := 31, newMonth := 3, activeField := 1, bothPressStart := 0, flipStart := 0 }
      (by decide)).2.1 (by decide)).2

/-! ## AM/PM stored by Set Time -/

theorem timeIncrement_hour12 (ampm : AmPm) (l : TimeLocals) (h12 : ampm ≠ AmPm.blank)
    (hh : 1 ≤ l.newHour ∧ l.newHour ≤ 12) :
    1 ≤ (timeIncrement ampm l).newHour ∧ (timeIncrement ampm l).newHour ≤ 12 := by
  unfold timeIncrement
  by_cases hf : l.activeField = 0
  · simp only [if_pos hf, if_pos h12, u8]
    split <;> omega
  · simp only [if_neg hf]
    exact hh

theorem timeDecrement_hour12 (ampm : AmPm) (l : TimeLocals) (h12 : ampm ≠ AmPm.blank)
    (hh : 1 ≤ l.newHour ∧ l.newHour ≤ 12) :
    1 ≤ (timeDecrement ampm l).newHour ∧ (timeDecrement ampm l).newHour ≤ 12 := by
  unfold timeDecrement
  by_cases hf : l.activeField = 0
  · simp only [if_pos hf, if_pos h12, u8sub]
    split <;> omega
  · simp only [if_neg hf]
    exact hh

theorem setTimeConfigPass_hour12_running (g g1 : Globals) (l l1 : TimeLocals) (i : PassInput)
    (h12 : g.ampmStr ≠ AmPm.blank) (hh : 1 ≤ l.newHour ∧ l.newHour ≤ 12)
    (h : setTimeConfigPass g l i = LoopState.running g1 l1) :
    g1.ampmStr ≠ AmPm.blank ∧ 1 ≤ l1.newHour ∧ l1.newHour ≤ 12 := by
  have hg : (processButtons g i.pbS1 i.pbS2 i.pbNow).ampmStr ≠ AmPm.blank := by
    rw [processButtons_ampm]; exact h12
  unfold setTimeConfigPass at h
  dsimp only at h
  split at h
  · cases h
  · rename_i l1 hl1
    have h1 : 1 ≤ l1.newHour ∧ l1.newHour ≤ 12 := by
      split_ifs at hl1 <;> simp only [Option.some.injEq] at hl1 <;> subst hl1 <;> exact hh
    have h2 : 1 ≤ (if (i.s1Down && !i.s2Down) = true then
        timeIncrement (processButtons g i.pbS1 i.pbS2 i.pbNow).ampmStr l1 else l1).newHour ∧
        (if (i.s1Down && !i.s2Down) = true then
        timeIncrement (processButtons g i.pbS1 i.pbS2 i.pbNow).ampmStr l1 else l1).newHour
          ≤ 12 := by
      split
      · exact timeIncrement_hour12 _ l1 hg h1
      · exact h1
    generalize (if (i.s1Down && !i.s2Down) = true then
        timeIncrement (processButtons g i.pbS1 i.pbS2 i.pbNow).ampmStr l1 else l1) = l2 at h2 h
    have h3 : 1 ≤ (if (i.s2Down && !i.s1Down) = true then
        timeDecrement (processButtons g i.pbS1 i.pbS2 i.pbNow).ampmStr l2 else l2).newHour ∧
        (if (i.s2Down && !i.s1Down) = true then
        timeDecrement (processButtons g i.pbS1 i.pbS2 i.pbNow).ampmStr l2 else l2).newHour
          ≤ 12 := by
      split
      · exact timeDecrement_hour12 _ l2 hg h2
      · exact h2
    generalize (if (i.s2Down && !i.s1Down) = true then
        timeDecrement (processButtons g i.pbS1 i.pbS2 i.pbNow).ampmStr l2 else l2) = l3 at h3 h
    split_ifs at h <;>
      (simp only [LoopState.running.injEq] at h
       obtain ⟨e1, e2⟩ := h
       subst e1; subst e2
       exact ⟨hg, h3⟩)

theorem setTimeConfigPass_hour12_exited (g g1 : Globals) (l l1 : TimeLocals) (i : PassInput)
    (why : LoopExit)
    (h12 : g.ampmStr ≠ AmPm.blank) (hh : 1 ≤ l.newHour ∧ l.newHour ≤ 12)
    (h : setTimeConfigPass g l i = LoopState.exited g1 l1 why) :
    g1.ampmStr ≠ AmPm.blank ∧ 1 ≤ l1.newHour ∧ l1.newHour ≤ 12 := by
  have hg : (processButtons g i.pbS1 i.pbS2 i.pbNow).ampmStr ≠ AmPm.blank := by
    rw [processButtons_ampm]; exact h12
  unfold setTimeConfigPass at h
  dsimp only at h
  split at h
  · simp only [LoopState.exited.injEq] at h
    obtain ⟨e1, e2, _⟩ := h
    subst e1; subst e2
    exact ⟨hg, hh⟩
  · rename_i l1 hl1
    have h1 : 1 ≤ l1.newHour ∧ l1.newHour ≤ 12 := by
      split_ifs at hl1 <;> simp only [Option.some.injEq] at hl1 <;> subst hl1 <;> exact hh
    have h2 : 1 ≤ (if (i.s1Down && !i.s2Down) = true then
        timeIncrement (processButtons g i.pbS1 i.pbS2 i.pbNow).ampmStr l1 else l1).newHour ∧
        (if (i.s1Down && !i.s2Down) = true then
        timeIncrement (processButtons g i.pbS1 i.pbS2 i.pbNow).ampmStr l1 else l1).newHour
          ≤ 12 := by
      split
      · exact timeIncrement_hour12 _ l1 hg h1
      · exact h1
    generalize (if (i.s1Down && !i.s2Down) = true then
        timeIncrement (processButtons g i.pbS1 i.pbS2 i.pbNow).ampmStr l1 else l1) = l2 at h2 h
    have h3 : 1 ≤ (if (i.s2Down && !i.s1Down) = true then
        timeDecrement (processButtons g i.pbS1 i.pbS2 i.pbNow).ampmStr l2 else l2).newHour ∧
        (if (i.s2Down && !i.s1Down) = true then
        timeDecrement (processButtons g i.pbS1 i.pbS2 i.pbNow).ampmStr l2 else l2).newHour
          ≤ 12 := by
      split
      · exact timeDecrement_hour12 _ l2 hg h2
      · exact h2
    generalize (if (i.s2Down && !i.s1Down) = true then
        timeDecrement (processButtons g i.pbS1 i.pbS2 i.pbNow).ampmStr l2 else l2) = l3 at h3 h
    split_ifs at h
    simp only [LoopState.exited.injEq] at h
    obtain ⟨e1, e2, _⟩ := h
    subst e1; subst e2
    exact ⟨hg, h3⟩

theorem runLoop_time_hour12 (inputs : List PassInput) :
    ∀ (g : Globals) (l : TimeLocals), g.ampmStr ≠ AmPm.blank →
      (1 ≤ l.newHour ∧ l.newHour ≤ 12) →
      ∀ (g1 : Globals) (l1 : TimeLocals) (why : LoopExit),
        runLoop setTimeConfigPass g l inputs = LoopState.exited g1 l1 why →
        g1.ampmStr ≠ AmPm.blank ∧ 1 ≤ l1.newHour ∧ l1.newHour ≤ 12 := by
  induction inputs with
  | nil =>
    intro g l _ _ g1 l1 why h
    simp [runLoop] at h
  | cons i rest ih =>
    intro g l h12 hh g1 l1 why h
    cases hpass : setTimeConfigPass g l i with
    | running g2 l2 =>
      have hp := setTimeConfigPass_hour12_running g g2 l l2 i h12 hh hpass
      rw [runLoop_cons_running _ _ _ _ _ _ _ hpass] at h
      exact ih g2 l2 hp.1 hp.2 g1 l1 why h
    | exited g2 l2 why2 =>
      have hp := setTimeConfigPass_hour12_exited g g2 l l2 i why2 h12 hh hpass
      rw [runLoop_cons_exited _ _ _ _ _ _ _ _ hpass] at h
      simp only [LoopState.exited.injEq] at h
      obtain ⟨e1, e2, _⟩ := h
      subst e1; subst e2
      exact hp
    | undefined =>
      rw [runLoop_cons_undefined _ _ _ _ _ hpass] at h
      cases h

theorem setTimeCommit_12h (g : Globals) (l : TimeLocals) (h12 : g.ampmStr ≠ AmPm.blank)
    (hh : 1 ≤ l.newHour ∧ l.newHour ≤ 12) :
    (setTimeCommit g l).hours = l.newHour ∧ (setTimeCommit g l).seconds = 0 ∧
    ((setTimeCommit g l).ampmStr = AmPm.PM ↔ l.newHour = 12) ∧
    ((setTimeCommit g l).ampmStr = AmPm.AM ↔ l.newHour ≤ 11) := by
  obtain ⟨c1, _, c3, _, c5⟩ := setTimeCommit_fields g l (fun _ => hh.2)
  refine ⟨c1, c3, ?_, ?_⟩
  · rw [c5, if_neg h12]
    by_cases h : l.newHour = 12
    · simp [h]
    · simp [h]
  · rw [c5, if_neg h12]
    by_cases h : l.newHour = 12
    · simp [h]
    · simp [h]; omega

/-- C28: when `setTimeConfig` stores its result in 12-hour mode with a working
hour in 1..12, the stored hour is the working hour (the `hours -= 12` branch is
not taken), seconds is 0, and the AM/PM flag depends on the hour alone: PM
exactly for hour 12, AM exactly for hours 1..11, whatever the flag was before.
Every run of `setTimeConfig` entered in 12-hour mode with hours in 1..12 that
leaves its loop (through either `break`) ends in such a state. -/
theorem setTimeConfig_exit_ampm_from_hour (g : Globals) (l : TimeLocals)
    (h12 : g.ampmStr ≠ AmPm.blank) (hh : 1 ≤ l.newHour ∧ l.newHour ≤ 12) :
    ((setTimeCommit g l).hours = l.newHour ∧ (setTimeCommit g l).seconds = 0 ∧
      ((setTimeCommit g l).ampmStr = AmPm.PM ↔ l.newHour = 12) ∧
      ((setTimeCommit g l).ampmStr = AmPm.AM ↔ l.newHour ≤ 11) ∧
      (∀ g2 : Globals, g2.ampmStr ≠ AmPm.blank →
        (setTimeCommit g2 l).ampmStr = (setTimeCommit g l).ampmStr)) ∧
    (∀ (inputs : List PassInput) (g' : Globals) (why : LoopExit),
      1 ≤ g.hours → g.hours ≤ 12 → setTimeConfig g inputs = some (g', why) →
      1 ≤ g'.hours ∧ g'.hours ≤ 12 ∧ g'.seconds = 0 ∧
      (g'.ampmStr = AmPm.PM ↔ g'.hours = 12) ∧
      (g'.ampmStr = AmPm.AM ↔ g'.hours ≤ 11)) := by
  constructor
  · obtain ⟨c1, c2, c3, c4⟩ := setTimeCommit_12h g l h12 hh
    refine ⟨c1, c2, c3, c4, ?_⟩
    intro g2 hg2
    obtain ⟨_, _, _, _, d5⟩ := setTimeCommit_fields g2 l (fun _ => hh.2)
    obtain ⟨_, _, _, _, e5⟩ := setTimeCommit_fields g l (fun _ => hh.2)
    rw [d5, e5, if_neg hg2, if_neg h12]
  · intro inputs g' why hlo hhi hrun
    unfold setTimeConfig setTimeConfigFrom at hrun
    split at hrun
    · rename_i g1 l1 why1 heq
      simp only [Option.some.injEq, Prod.mk.injEq] at hrun
      obtain ⟨hg, _⟩ := hrun
      subst hg
      obtain ⟨i1, i2, i3⟩ := runLoop_time_hour12 inputs g (timeLocalsInit g) h12
        ⟨hlo, hhi⟩ g1 l1 why1 heq
      obtain ⟨c1, c2, c3, c4⟩ := setTimeCommit_12h g1 l1 i1 ⟨i2, i3⟩
      rw [c1]
      exact ⟨i2, i3, c2, c3, c4⟩
    · cases hrun

/-- Instance of C28: working hour 3 stored while the flag is PM gives 3 AM. -/
theorem setTimeConfig_exit_ampm_from_hour_witness :
    (setTimeCommit powerOn
      { newHour := 3, newMinute := 0, activeField := 0, bothPressStart := 0, flipStart := 0 }
      ).ampmStr = AmPm.AM :=
  ((setTimeConfig_exit_ampm_from_hour powerOn
      { newHour := 3, newMinute := 0, activeField := 0, bothPressStart := 0, flipStart := 0 }
      (by decide) (by decide)).1.2.2.2.1).2 (by decide)

/-! ## The plotted smoothed series -/

theorem orderedSteps_getD (g : Globals) (k : Nat) (hk : k < 90) :
    (orderedSteps g).getD k 0 = g.stepsHistory.getD ((g.stepsHistoryIndex + k) % 90) 0 := by
  unfold orderedSteps GRAPH_SAMPLES
  rw [List.getD_eq_getElem?_getD, List.getElem?_map, List.getElem?_range hk]
  rfl

theorem smoothValue_orderedSteps (w : Nat) (g : Globals) (i : Nat) (hi : i < 90) :
    smoothValue w (orderedSteps g) i =
      smoothValue w g.stepsHistory ((g.stepsHistoryIndex + i) % 90) := by
  rw [smoothValue_eq w _ i hi, smoothValue_eq w _ _ (Nat.mod_lt _ (by omega))]
  rw [orderedSteps_getD g _ (Nat.mod_lt _ (by omega)), orderedSteps_getD g i hi,
    orderedSteps_getD g _ (Nat.mod_lt _ (by omega))]
  have e1 : (g.stepsHistoryIndex + (i + 89) % 90) % 90 =
      ((g.stepsHistoryIndex + i) % 90 + 89) % 90 := by omega
  have e2 : (g.stepsHistoryIndex + (i + 1) % 90) % 90 =
      ((g.stepsHistoryIndex + i) % 90 + 1) % 90 := by omega
  rw [e1, e2]

/-- C27: for every write cursor, every raw buffer and every `i` in 0..89, the
smoothed value `drawStepsGraph` computes over the reordered copy,
`orderedSmoothed[i]`, equals `smoothedSteps[(cursor + i) mod 90]` of the array
produced by `computeSmoothedSteps` from the same raw buffer (arrays of 90
entries). -/
theorem orderedSmoothed_is_rotation (w : Nat) (g : Globals)
    (hlen : g.smoothedSteps.length = 90) (i : Nat) (hi : i < 90) :
    ∃ v, (orderedSmoothed w g)[i]? = some v ∧
      (computeSmoothedSteps w g).smoothedSteps[(g.stepsHistoryIndex + i) % 90]? = some v := by
  refine ⟨smoothValue w (orderedSteps g) i, ?_, ?_⟩
  · unfold orderedSmoothed GRAPH_SAMPLES
    rw [List.getElem?_map, List.getElem?_range hi]
    rfl
  · rw [computeSmoothedSteps_eq w g hlen]
    show ((List.range 90).map (smoothValue w g.stepsHistory))[(g.stepsHistoryIndex + i) % 90]?
      = _
    rw [List.getElem?_map, List.getElem?_range (Nat.mod_lt _ (by omega)),
      smoothValue_orderedSteps w g i hi]
    rfl

/-- Instance of C27 with a 16-bit `int`: cursor 89, raw values 60, 100 at
indices 0, 1 and 30 at index 89; the plotted value at position 1 is the
smoothed value at index 0, which is 63. -/
theorem orderedSmoothed_is_rotation_witness :
    ∃ v, (orderedSmoothed 16
        { powerOn with stepsHistory := [60, 100] ++ List.replicate 87 0 ++ [30],
                       stepsHistoryIndex := 89 })[1]? = some v ∧
      (computeSmoothedSteps 16
        { powerOn with stepsHistory := [60, 100] ++ List.replicate 87 0 ++ [30],
                       stepsHistoryIndex := 89 }).smoothedSteps[(89 + 1) % 90]? = some v :=
  orderedSmoothed_is_rotation 16
    { powerOn with stepsHistory := [60, 100] ++ List.replicate 87 0 ++ [30],
                   stepsHistoryIndex := 89 } (by decide) 1 (by decide)

theorem setTimeConfigPass_release (g : Globals) (l : TimeLocals) (q : PassInput)
    (hb : l.bothPressStart ≠ 0) (h1 : q.s1Down = false) (h2 : q.s2Down = false)
    (hlt : u32sub q.nowCombo l.bothPressStart < 2000)
    (hz : isDeviceFlipped q.zValue = false) :
    setTimeConfigPass g l q =
      LoopState.running (processButtons g q.pbS1 q.pbS2 q.pbNow)
        { l with activeField := (l.activeField + 1) % 2, bothPressStart := 0,
                 flipStart := 0 } := by
  simp [setTimeConfigPass, h1, h2, hb, hlt, hz]

theorem setTimeConfigPass_idle (g : Globals) (l : TimeLocals) (q : PassInput)
    (hb : l.bothPressStart = 0) (h1 : q.s1Down = false) (h2 : q.s2Down = false)
    (hz : isDeviceFlipped q.zValue = false) :
    setTimeConfigPass g l q =
      LoopState.running (processButtons g q.pbS1 q.pbS2 q.pbNow) { l with flipStart := 0 } := by
  simp [setTimeConfigPass, h1, h2, hb, hz]

theorem setTimeConfigPass_release_not_combo (g g1 : Globals) (l l1 : TimeLocals) (q : PassInput)
    (h1 : q.s1Down = false) (h2 : q.s2Down = false) :
    setTimeConfigPass g l q ≠ LoopState.exited g1 l1 LoopExit.combo := by
  intro h
  simp only [setTimeConfigPass, h1, h2, Bool.and_self, Bool.false_eq_true, if_false,
    Bool.not_false, Bool.and_true, Bool.and_false] at h
  split_ifs at h <;>
    by_cases hf : l.flipStart = 0 <;>
    by_cases hg : 2000 ≤ u32sub q.nowFlip l.flipStart <;>
    simp [hf, hg] at h

theorem setDateConfigPass_release (g : Globals) (l : DateLocals) (q : PassInput)
    (hb : l.bothPressStart ≠ 0) (h1 : q.s1Down = false) (h2 : q.s2Down = false)
    (hlt : u32sub q.nowCombo l.bothPressStart < 2000)
    (hz : isDeviceFlipped q.zValue = false) :
    setDateConfigPass g l q =
      LoopState.running (processButtons g q.pbS1 q.pbS2 q.pbNow)
        { l with activeField := (l.activeField + 1) % 2, bothPressStart := 0,
                 flipStart := 0 } := by
  simp [setDateConfigPass, h1, h2, hb, hlt, hz]

theorem setDateConfigPass_idle (g : Globals) (l : DateLocals) (q : PassInput)
    (hb : l.bothPressStart = 0) (h1 : q.s1Down = false) (h2 : q.s2Down = false)
    (hz : isDeviceFlipped q.zValue = false) :
    setDateConfigPass g l q =
      LoopState.running (processButtons g q.pbS1 q.pbS2 q.pbNow) { l with flipStart := 0 } := by
  simp [setDateConfigPass, h1, h2, hb, hz]

theorem setDateConfigPass_release_not_combo (g g1 : Globals) (l l1 : DateLocals) (q : PassInput)
    (h1 : q.s1Down = false) (h2 : q.s2Down = false) :
    setDateConfigPass g l q ≠ LoopState.exited g1 l1 LoopExit.combo := by
  intro h
  simp only [setDateConfigPass, h1, h2, Bool.and_self, Bool.false_eq_true, if_false,
    Bool.not_false, Bool.and_true, Bool.and_false] at h
  split_ifs at h <;>
    by_cases hf : l.flipStart = 0 <;>
    by_cases hg : 2000 ≤ u32sub q.nowFlip l.flipStart <;>
    simp [hf, hg] at h

/-! ## Modal loops: the short two-button combo -/

theorem setTimeConfigPass_release_flip (g : Globals) (l : TimeLocals) (q : PassInput)
    (hb : l.bothPressStart ≠ 0) (h1 : q.s1Down = false) (h2 : q.s2Down = false)
    (hlt : u32sub q.nowCombo l.bothPressStart < 2000) :
    setTimeConfigPass g l q =
      match flipBlock l.flipStart q with
      | none => LoopState.exited (processButtons g q.pbS1 q.pbS2 q.pbNow)
          { l with activeField := (l.activeField + 1) % 2, bothPressStart := 0 } LoopExit.flip
      | some f => LoopState.running (processButtons g q.pbS1 q.pbS2 q.pbNow)
          { l with activeField := (l.activeField + 1) % 2, bothPressStart := 0,
                   flipStart := f } := by
  unfold flipBlock
  simp only [setTimeConfigPass, h1, h2, hb, hlt, Bool.and_self, if_true, if_false,
    Bool.not_false, Bool.and_true, Bool.and_false, Bool.false_eq_true, ge_iff_le, ne_eq,
    not_false_eq_true]
  split_ifs <;> rfl

theorem setTimeConfigPass_idle_flip (g : Globals) (l : TimeLocals) (q : PassInput)
    (hb : l.bothPressStart = 0) (h1 : q.s1Down = false) (h2 : q.s2Down = false) :
    setTimeConfigPass g l q =
      match flipBlock l.flipStart q with
      | none => LoopState.exited (processButtons g q.pbS1 q.pbS2 q.pbNow) l LoopExit.flip
      | some f => LoopState.running (processButtons g q.pbS1 q.pbS2 q.pbNow)
          { l with flipStart := f } := by
  obtain ⟨a, b, c, d, e⟩ := l
  dsimp only at hb
  subst hb
  unfold flipBlock
  simp only [setTimeConfigPass, h1, h2, Bool.and_self, if_true, if_false,
    Bool.not_false, Bool.and_true, Bool.and_false, Bool.false_eq_true, ge_iff_le, ne_eq,
    not_true_eq_false]
  split_ifs <;> rfl

theorem setDateConfigPass_release_flip (g : Globals) (l : DateLocals) (q : PassInput)
    (hb : l.bothPressStart ≠ 0) (h1 : q.s1Down = false) (h2 : q.s2Down = false)
    (hlt : u32sub q.nowCombo l.bothPressStart < 2000) :
    setDateConfigPass g l q =
      match flipBlock l.flipStart q with
      | none => LoopState.exited (processButtons g q.pbS1 q.pbS2 q.pbNow)
          { l with activeField := (l.activeField + 1) % 2, bothPressStart := 0 } LoopExit.flip
      | some f => LoopState.running (processButtons g q.pbS1 q.pbS2 q.pbNow)
          { l with activeField := (l.activeField + 1) % 2, bothPressStart := 0,
                   flipStart := f } := by
  unfold flipBlock
  simp only [setDateConfigPass, h1, h2, hb, hlt, Bool.and_self, if_true, if_false,
    Bool.not_false, Bool.and_true, Bool.and_false, Bool.false_eq_true, ge_iff_le, ne_eq,
    not_false_eq_true]
  split_ifs <;> rfl

theorem setDateConfigPass_idle_flip (g : Globals) (l : DateLocals) (q : PassInput)
    (hb : l.bothPressStart = 0) (h1 : q.s1Down = false) (h2 : q.s2Down = false) :
    setDateConfigPass g l q =
      match flipBlock l.flipStart q with
      | none => LoopState.exited (processButtons g q.pbS1 q.pbS2 q.pbNow) l LoopExit.flip
      | some f => LoopState.running (processButtons g q.pbS1 q.pbS2 q.pbNow)
          { l with flipStart := f } := by
  obtain ⟨a, b, c, d, e⟩ := l
  dsimp only at hb
  subst hb
  unfold flipBlock
  simp only [setDateConfigPass, h1, h2, Bool.and_self, if_true, if_false,
    Bool.not_false, Bool.and_true, Bool.and_false, Bool.false_eq_true, ge_iff_le, ne_eq,
    not_true_eq_false]
  split_ifs <;> rfl

/-- C21 (counterexample): both modal loops entered from the menu; the device is
read flipped from tick 100 on, both buttons are read pressed at tick 1500 and
released at tick 2100, 600 ms after the combo start.  The release pass toggles
the active field and clears the combo start, and the loop is left in that same
pass, through the flip `break`. -/
theorem short_combo_release_exits_by_flip :
    u32sub 2100 1500 < 2000 ∧
    runLoop setTimeConfigPass menuPowerOn (timeLocalsInit menuPowerOn)
        [flipOnly 100, pressBothFlipped 1500, flipOnly 2100] =
      LoopState.exited menuPowerOn
        { newHour := 12, newMinute := 0, activeField := 1, bothPressStart := 0,
          flipStart := 100 } LoopExit.flip ∧
    runLoop setDateConfigPass menuPowerOn (dateLocalsInit menuPowerOn)
        [flipOnly 100, pressBothFlipped 1500, flipOnly 2100] =
      LoopState.exited menuPowerOn
        { newDay := 1, newMonth := 1, activeField := 1, bothPressStart := 0,
          flipStart := 100 } LoopExit.flip := by
  decide

/-- C21 (amended): in the loops of `setTimeConfig` and `setDateConfig`, let a
combo start be recorded (`bothPressStart` non-zero) and let a pass read both
buttons released less than 2000 ms after it.  That pass never leaves through
the combo `break`; it toggles the active field (0 to 1, 1 to 0), clears the
combo start and keeps the working values.  The loop then continues, unless the
flip block of that same pass completes a flip gesture, in which case the loop
is left through the flip `break` with the field toggled.  A following pass with
both buttons released does not toggle again, whether its flip block continues
or leaves the loop. -/
theorem modal_short_combo_toggles (g g2 : Globals) (q q2 : PassInput)
    (h1 : q.s1Down = false) (h2 : q.s2Down = false)
    (k1 : q2.s1Down = false) (k2 : q2.s2Down = false) :
    (∀ l : TimeLocals, l.bothPressStart ≠ 0 → u32sub q.nowCombo l.bothPressStart < 2000 →
      (∀ g1 l1, setTimeConfigPass g l q ≠ LoopState.exited g1 l1 LoopExit.combo) ∧
      (l.activeField = 0 → (l.activeField + 1) % 2 = 1) ∧
      (l.activeField = 1 → (l.activeField + 1) % 2 = 0) ∧
      (∀ f, flipBlock l.flipStart q = some f →
        setTimeConfigPass g l q =
          LoopState.running (processButtons g q.pbS1 q.pbS2 q.pbNow)
            { l with activeField := (l.activeField + 1) % 2, bothPressStart := 0,
                     flipStart := f }) ∧
      (flipBlock l.flipStart q = none →
        setTimeConfigPass g l q =
          LoopState.exited (processButtons g q.pbS1 q.pbS2 q.pbNow)
            { l with activeField := (l.activeField + 1) % 2, bothPressStart := 0 }
            LoopExit.flip) ∧
      (∀ f f2, flipBlock f q2 = some f2 →
        setTimeConfigPass g2
            { l with activeField := (l.activeField + 1) % 2, bothPressStart := 0,
                     flipStart := f } q2 =
          LoopState.running (processButtons g2 q2.pbS1 q2.pbS2 q2.pbNow)
            { l with activeField := (l.activeField + 1) % 2, bothPressStart := 0,
                     flipStart := f2 }) ∧
      (∀ f, flipBlock f q2 = none →
        setTimeConfigPass g2
            { l with activeField := (l.activeField + 1) % 2, bothPressStart := 0,
                     flipStart := f } q2 =
          LoopState.exited (processButtons g2 q2.pbS1 q2.pbS2 q2.pbNow)
            { l with activeField := (l.activeField + 1) % 2, bothPressStart := 0,
                     flipStart := f } LoopExit.flip)) ∧
    (∀ l : DateLocals, l.bothPressStart ≠ 0 → u32sub q.nowCombo l.bothPressStart < 2000 →
      (∀ g1 l1, setDateConfigPass g l q ≠ LoopState.exited g1 l1 LoopExit.combo) ∧
      (l.activeField = 0 → (l.activeField + 1) % 2 = 1) ∧
      (l.activeField = 1 → (l.activeField + 1) % 2 = 0) ∧
      (∀ f, flipBlock l.flipStart q = some f →
        setDateConfigPass g l q =
          LoopState.running (processButtons g q.pbS1 q.pbS2 q.pbNow)
            { l with activeField := (l.activeField + 1) % 2, bothPressStart := 0,
                     flipStart := f }) ∧
      (flipBlock l.flipStart q = none →
        setDateConfigPass g l q =
          LoopState.exited (processButtons g q.pbS1 q.pbS2 q.pbNow)
            { l with activeField := (l.activeField + 1) % 2, bothPressStart := 0 }
            LoopExit.flip) ∧
      (∀ f f2, flipBlock f q2 = some f2 →
        setDateConfigPass g2
            { l with activeField := (l.activeField + 1) % 2, bothPressStart := 0,
                     flipStart := f } q2 =
          LoopState.running (processButtons g2 q2.pbS1 q2.pbS2 q2.pbNow)
            { l with activeField := (l.activeField + 1) % 2, bothPressStart := 0,
                     flipStart := f2 }) ∧
      (∀ f, flipBlock f q2 = none →
        setDateConfigPass g2
            { l with activeField := (l.activeField + 1) % 2, bothPressStart := 0,
                     flipStart := f } q2 =
          LoopState.exited (processButtons g2 q2.pbS1 q2.pbS2 q2.pbNow)
            { l with activeField := (l.activeField + 1) % 2, bothPressStart := 0,
                     flipStart := f } LoopExit.flip)) := by
  constructor
  · intro l hb hlt
    have e := setTimeConfigPass_release_flip g l q hb h1 h2 hlt
    refine ⟨fun g1 l1 => setTimeConfigPass_release_not_combo g g1 l l1 q h1 h2,
      fun h => by rw [h], fun h => by rw [h], ?_, ?_, ?_, ?_⟩
    · intro f hf
      rw [e, hf]
    · intro hf
      rw [e, hf]
    · intro f f2 hf
      have e2 := setTimeConfigPass_idle_flip g2
        { l with activeField := (l.activeField + 1) % 2, bothPressStart := 0,
                 flipStart := f } q2 rfl k1 k2
      rw [e2]
      show (match flipBlock f q2 with
        | none => _
        | some f => _) = _
      rw [hf]
    · intro f hf
      have e2 := setTimeConfigPass_idle_flip g2
        { l with activeField := (l.activeField + 1) % 2, bothPressStart := 0,
                 flipStart := f } q2 rfl k1 k2
      rw [e2]
      show (match flipBlock f q2 with
        | none => _
        | some f => _) = _
      rw [hf]
  · intro l hb hlt
    have e := setDateConfigPass_release_flip g l q hb h1 h2 hlt
    refine ⟨fun g1 l1 => setDateConfigPass_release_not_combo g g1 l l1 q h1 h2,
      fun h => by rw [h], fun h => by rw [h], ?_, ?_, ?_, ?_⟩
    · intro f hf
      rw [e, hf]
    · intro hf
      rw [e, hf]
    · intro f f2 hf
      have e2 := setDateConfigPass_idle_flip g2
        { l with activeField := (l.activeField + 1) % 2, bothPressStart := 0,
                 flipStart := f } q2 rfl k1 k2
      rw [e2]
      show (match flipBlock f q2 with
        | none => _
        | some f => _) = _
      rw [hf]
    · intro f hf
      have e2 := setDateConfigPass_idle_flip g2
        { l with activeField := (l.activeField + 1) % 2, bothPressStart := 0,
                 flipStart := f } q2 rfl k1 k2
      rw [e2]
      show (match flipBlock f q2 with
        | none => _
        | some f => _) = _
      rw [hf]

/-- Instance of C21 (amended) in `setTimeConfig`: combo recorded at tick 100,
both buttons released at tick 600, device upright; the active field goes from
0 to 1 and the loop goes on. -/
theorem modal_short_combo_toggles_witness :
    setTimeConfigPass menuPowerOn
        { newHour := 12, newMinute := 0, activeField := 0, bothPressStart := 100, flipStart := 0 }
        (idlePass 600) =
      LoopState.running (processButtons menuPowerOn false false 600)
        { newHour := 12, newMinute := 0, activeField := (0 + 1) % 2, bothPressStart := 0,
          flipStart := 0 } :=
  ((modal_short_combo_toggles menuPowerOn menuPowerOn (idlePass 600) (idlePass 700)
      rfl rfl rfl rfl).1
    { newHour := 12, newMinute := 0, activeField := 0, bothPressStart := 100, flipStart := 0 }
    (by decide) (by decide)).2.2.2.1 0 (by decide)

/-! ## Findings on the window timing, the tick-zero combo and the menu clock -/

/-- C22 (the code at the failing input, 16-bit `int`): from power-on, two still
samples at ticks 1000 and 1100, 100 ms apart.  Both passes perform a window
update: `stepIndex` advances from 0 to 1 and from 1 to 2, because
`lastStepTime` is only moved by a positive step difference. -/
theorem window_update_twice_within_one_second :
    checkForMovement 16 powerOn 0 0 0 1000 = some { powerOn with stepIndex := 1 } ∧
    checkForMovement 16 { powerOn with stepIndex := 1 } 0 0 0 1100 =
      some { powerOn with stepIndex := 2 } := by
  decide

/-- C23 (the code at the failing input): in both modal loops, entered with no
combo in progress, a pass reads both buttons pressed at tick 0 and a second
pass reads them still pressed at tick 2500.  The first pass stores 0 in
`bothPressStart`, which is also the value for "no combo", so the second pass
records 2500 as a new combo start and the loop is still running.  With the
first pass at tick 1 instead, the second pass leaves through the combo
`break`. -/
theorem combo_at_tick_zero_not_recorded :
    runLoop setTimeConfigPass menuPowerOn (timeLocalsInit menuPowerOn)
        [pressBoth 0, pressBoth 2500] =
      LoopState.running { menuPowerOn with lata8 := true, lata9 := true }
        { newHour := 12, newMinute := 0, activeField := 0, bothPressStart := 2500,
          flipStart := 0 } ∧
    runLoop setDateConfigPass menuPowerOn (dateLocalsInit menuPowerOn)
        [pressBoth 0, pressBoth 2500] =
      LoopState.running { menuPowerOn with lata8 := true, lata9 := true }
        { newDay := 1, newMonth := 1, activeField := 0, bothPressStart := 2500,
          flipStart := 0 } ∧
    runLoop setTimeConfigPass menuPowerOn (timeLocalsInit menuPowerOn)
        [pressBoth 1, pressBoth 2500] =
      LoopState.exited { menuPowerOn with lata8 := true, lata9 := true }
        { newHour := 12, newMinute := 0, activeField := 0, bothPressStart := 1,
          flipStart := 0 } LoopExit.combo := by
  decide

/-- C26 (counterexample): `drawMenu` entered at tick 5000 with the clock at
12:00:00, no loop pass made yet; on entry alone seconds has gone from 0 to 1. -/
theorem drawMenu_entry_advances_clock :
    menuPowerOn.seconds = 0 ∧
    drawMenu (fun g => g) menuPowerOn 5000 [] =
      some ({ menuPowerOn with seconds := 1 }, 5000) := by
  decide

/-- C26 (amended): `drawMenu` calls `updateTime` once unconditionally on entry
and sets `lastUpdateTime` to the tick read then.  Inside its loop, the time
block calls `updateTime` exactly when at least 1000 ms (32-bit difference) have
passed since `lastUpdateTime`, and then sets `lastUpdateTime` to the current
tick; with less than 1000 ms elapsed it changes neither the globals nor
`lastUpdateTime`.  A loop pass with no button pressed consists of
`processButtons` and the time block only. -/
theorem drawMenu_clock_advances (sel : Globals → Globals) (g : Globals) (lut : Nat)
    (i : MenuPassInput) :
    (∀ nowEntry, drawMenu sel g nowEntry [] =
      (updateTime g).map (fun g1 => (g1, nowEntry))) ∧
    (u32sub i.currentTime lut < 1000 →
      drawMenuTimeBlock g lut i.currentTime = some (g, lut)) ∧
    (u32sub i.currentTime lut ≥ 1000 →
      drawMenuTimeBlock g lut i.currentTime =
        (updateTime g).map (fun g1 => (g1, i.currentTime))) ∧
    (i.s1Down = false → i.s2Down = false →
      drawMenuPass sel g lut i =
        drawMenuTimeBlock (processButtons g i.pbS1 i.pbS2 i.pbNow) lut i.currentTime) := by
  refine ⟨?_, ?_, ?_, ?_⟩
  · intro nowEntry
    unfold drawMenu
    cases updateTime g with
    | none => rfl
    | some g1 => rfl
  · intro hlt
    have : ¬ (u32sub i.currentTime lut ≥ 1000) := by omega
    simp only [drawMenuTimeBlock, if_neg this]
  · intro hge
    simp only [drawMenuTimeBlock, if_pos hge]
    cases updateTime g with
    | none => rfl
    | some g1 => rfl
  · intro h1 h2
    unfold drawMenuPass
    dsimp only
    cases drawMenuTimeBlock (processButtons g i.pbS1 i.pbS2 i.pbNow) lut i.currentTime with
    | none => rfl
    | some r =>
      obtain ⟨g2, lut2⟩ := r
      simp [menuButtonsPass, h1, h2]

/-- Instance of C26 (amended): with the last update at tick 5000, the time
block at tick 5999 changes nothing. -/
theorem drawMenu_clock_advances_witness :
    drawMenuTimeBlock menuPowerOn 5000 5999 = some (menuPowerOn, 5000) :=
  (drawMenu_clock_advances (fun g => g) menuPowerOn 5000
    { pbS1 := false, pbS2 := false, pbNow := 5999, currentTime := 5999,
      s1Down := false, s2Down := false, recheck := false }).2.1 (by decide)

/-! ## Button dispatch in the menu loop -/

theorem drawMenuPass_eq (sel : Globals → Globals) (g : Globals) (lut : Nat)
    (i : MenuPassInput) :
    drawMenuPass sel g lut i =
      (drawMenuTimeBlock (processButtons g i.pbS1 i.pbS2 i.pbNow) lut i.currentTime).map
        (fun r => (menuButtonsPass sel r.1 i.s1Down i.s2Down i.recheck, r.2)) := by
  unfold drawMenuPass
  dsimp only
  cases drawMenuTimeBlock (processButtons g i.pbS1 i.pbS2 i.pbNow) lut i.currentTime with
  | none => rfl
  | some r => rfl

/-- C16: one pass of the loop of `drawMenu`, entered in the Menu state, for any
effect `sel` of `selectMenuOption`.  After `processButtons` and the time block
(which give the globals `r.1` and the new `lastUpdateTime`), the button reads
are mapped to exactly one action.  Both buttons pressed in the same pass:
`sel` is applied, whatever a re-sample would return (none is taken).  Exactly
one button pressed and the other found pressed at the re-sample: `sel` is
applied and no navigation is made.  Exactly one button pressed and the other
still released at the re-sample: `navigateMenuUp` for S1, `navigateMenuDown`
for S2.  No button pressed: the globals are left as they are.  A loop of one
pass is that pass. -/
theorem drawMenu_button_dispatch (sel : Globals → Globals) (g : Globals) (lut : Nat)
    (i : MenuPassInput) :
    (i.s1Down = true → i.s2Down = true →
      drawMenuPass sel g lut i =
        (drawMenuTimeBlock (processButtons g i.pbS1 i.pbS2 i.pbNow) lut i.currentTime).map
          (fun r => (sel r.1, r.2))) ∧
    (i.s1Down = true → i.s2Down = false → i.recheck = true →
      drawMenuPass sel g lut i =
        (drawMenuTimeBlock (processButtons g i.pbS1 i.pbS2 i.pbNow) lut i.currentTime).map
          (fun r => (sel r.1, r.2))) ∧
    (i.s1Down = false → i.s2Down = true → i.recheck = true →
      drawMenuPass sel g lut i =
        (drawMenuTimeBlock (processButtons g i.pbS1 i.pbS2 i.pbNow) lut i.currentTime).map
          (fun r => (sel r.1, r.2))) ∧
    (i.s1Down = true → i.s2Down = false → i.recheck = false →
      drawMenuPass sel g lut i =
        (drawMenuTimeBlock (processButtons g i.pbS1 i.pbS2 i.pbNow) lut i.currentTime).map
          (fun r => (navigateMenuUp r.1, r.2))) ∧
    (i.s1Down = false → i.s2Down = true → i.recheck = false →
      drawMenuPass sel g lut i =
        (drawMenuTimeBlock (processButtons g i.pbS1 i.pbS2 i.pbNow) lut i.currentTime).map
          (fun r => (navigateMenuDown r.1, r.2))) ∧
    (i.s1Down = false → i.s2Down = false →
      drawMenuPass sel g lut i =
        drawMenuTimeBlock (processButtons g i.pbS1 i.pbS2 i.pbNow) lut i.currentTime) ∧
    (g.currentState = WatchState.STATE_MENU →
      drawMenuLoop sel g lut [i] = drawMenuPass sel g lut i) := by
  have e := drawMenuPass_eq sel g lut i
  refine ⟨?_, ?_, ?_, ?_, ?_, ?_, ?_⟩
  · intro h1 h2
    rw [e]
    simp [menuButtonsPass, h1, h2]
  · intro h1 h2 h3
    rw [e]
    simp [menuButtonsPass, h1, h2, h3]
  · intro h1 h2 h3
    rw [e]
    simp [menuButtonsPass, h1, h2, h3]
  · intro h1 h2 h3
    rw [e]
    simp [menuButtonsPass, h1, h2, h3]
  · intro h1 h2 h3
    rw [e]
    simp [menuButtonsPass, h1, h2, h3]
  · intro h1 h2
    rw [e]
    simp [menuButtonsPass, h1, h2]
  · intro hm
    unfold drawMenuLoop
    rw [if_pos hm]
    cases drawMenuPass sel g lut i with
    | none => rfl
    | some r => rfl

/-- Instance of C16: in the menu at power-on (selection 0, `lastUpdateTime`
5000), a pass at tick 5100 reads only S2 pressed and S1 still released at the
re-sample; the selection moves down to 1 and nothing else changes. -/
theorem drawMenu_button_dispatch_witness :
    drawMenuPass (fun g => g) menuPowerOn 5000 (menuPressS2 5100) =
      some ({ menuPowerOn with lata9 := true, selectedMenu := 1 }, 5000) :=
  ((drawMenu_button_dispatch (fun g => g) menuPowerOn 5000 (menuPressS2 5100)).2.2.2.2.1
    rfl rfl rfl).trans (by decide)

end Pedometer
